import Mathlib

/-!
# MarieAntoiNET: message framing, command dispatch and bootstrap address resolution

A shallow embedding of the agent process (`botNode/botNode.go`) and of the receiving and
sending side of the controller (`cncNode/cncNode.go`), and theorems about how the agent
chooses its bootstrap addresses, connects, receives and authenticates a message, parses and
dispatches it, runs the command and builds the result message, and about how the controller
decodes what it receives.

Modelling conventions

* A Go `string` is a `GoString`, a list of Unicode code points (the string is taken to hold
  valid UTF-8, so that the byte-wise search for the one-byte separator ":" and the rune-wise
  trimming of `strings.TrimSpace` both act on whole characters).
* Library calls whose result depends on the outside world (the child process, the key
  unmarshalling and payload encryption of the messaging library, the on-chain registry) are
  fields of an explicit environment record; the code of the repository is a function of them.
* A goroutine started for a message is run to its end before the next message is taken; the
  interleaving of handlers is not modelled.
* Side effects are recorded as a list of `Event`s, in program order.  `log.Fatal`/`log.Fatalf`
  is the event `Event.log LogLevel.LogFatal _`; it ends the process, so it is always the last
  event of a trace.
-/

namespace MarieAntoiNET

/-- A Go string, as its sequence of code points. -/
abbrev GoString := List Char

/-! ## The parts of the Go standard library that the agent calls -/

namespace unicode

/-- Go `unicode.IsSpace`: the Latin-1 cases are listed in the function itself, the others are
the entries of the `White_Space` range table above U+00FF. -/
def IsSpace (r : Char) : Bool :=
  if r.toNat ≤ 0xFF then
    r == '\t' || r == '\n' || r.toNat == 0x0B || r.toNat == 0x0C || r == '\r' || r == ' '
      || r.toNat == 0x85 || r.toNat == 0xA0
  else
    r.toNat == 0x1680 || (0x2000 ≤ r.toNat && r.toNat ≤ 0x200A) || r.toNat == 0x2028
      || r.toNat == 0x2029 || r.toNat == 0x202F || r.toNat == 0x205F || r.toNat == 0x3000

end unicode

namespace strings

/-- Go `strings.Index(s, sep)` for a one-byte separator: position of the first occurrence,
`none` where Go returns `-1`. -/
def Index : GoString → Char → Option Nat
  | [], _ => none
  | c :: cs, sep => if c = sep then some 0 else (Index cs sep).map (· + 1)

/-- Go `strings.Count(s, sep)` for a one-byte separator. -/
def Count (s : GoString) (sep : Char) : Nat := s.count sep

/-- The `for i < n` loop of Go `strings.genSplit` (with `sepSave = 0`): `k` is the number of
cuts still allowed, `s` the text not yet split. -/
def genSplitLoop (sep : Char) : Nat → GoString → List GoString
  | 0, s => [s]
  | k + 1, s =>
    match Index s sep with
    | none => [s]
    | some m => s.take m :: genSplitLoop sep k (s.drop (m + 1))

/-- Go `strings.SplitN(s, sep, n)` for a one-byte separator `sep`: `n = 0` gives no parts,
`n < 0` means all parts, and `n` is capped at `len(s) + 1` before the loop. -/
def SplitN (s : GoString) (sep : Char) (n : Int) : List GoString :=
  if n = 0 then []
  else
    let n1 : Nat := if n < 0 then Count s sep + 1 else n.toNat
    let n2 : Nat := if n1 > s.length + 1 then s.length + 1 else n1
    genSplitLoop sep (n2 - 1) s

/-- Go `strings.TrimLeftFunc`. -/
def TrimLeftFunc (s : GoString) (f : Char → Bool) : GoString := s.dropWhile f

/-- Go `strings.TrimRightFunc`. -/
def TrimRightFunc (s : GoString) (f : Char → Bool) : GoString :=
  (s.reverse.dropWhile f).reverse

/-- Go `strings.TrimSpace`: `TrimFunc(s, unicode.IsSpace)`, that is the right trim of the left
trim (the ASCII fast path of the library computes the same slice). -/
def TrimSpace (s : GoString) : GoString :=
  TrimRightFunc (TrimLeftFunc s unicode.IsSpace) unicode.IsSpace

/-- The text `t` is `s` with its leading and trailing white space removed and nothing else
changed: `s` is `t` between two runs of white space, and `t` neither starts nor ends with a
white-space character. -/
def Trimmed (s t : GoString) : Prop :=
  (∃ l r, s = l ++ t ++ r ∧ (∀ c ∈ l, unicode.IsSpace c = true)
      ∧ (∀ c ∈ r, unicode.IsSpace c = true))
    ∧ (∀ c, t.head? = some c → unicode.IsSpace c = false)
    ∧ (∀ c, t.getLast? = some c → unicode.IsSpace c = false)

end strings

namespace hex

/-- The error values of Go `encoding/hex`. -/
inductive Error
  | InvalidByteError (b : Char)
  | ErrLength
  deriving DecidableEq, Repr

/-- Go `hex.reverseHexTable`: the value of a hexadecimal digit, `none` for the table entry
`0xff`. -/
def fromHexChar (c : Char) : Option Nat :=
  if '0' ≤ c ∧ c ≤ '9' then some (c.toNat - '0'.toNat)
  else if 'a' ≤ c ∧ c ≤ 'f' then some (c.toNat - 'a'.toNat + 10)
  else if 'A' ≤ c ∧ c ≤ 'F' then some (c.toNat - 'A'.toNat + 10)
  else none

/-- Go `hex.DecodeString`: the bytes decoded before the first error, and the error if any. -/
def DecodeString : GoString → List Nat × Option Error
  | [] => ([], none)
  | [p] =>
    match fromHexChar p with
    | none => ([], some (Error.InvalidByteError p))
    | some _ => ([], some Error.ErrLength)
  | p :: q :: rest =>
    match fromHexChar p with
    | none => ([], some (Error.InvalidByteError p))
    | some a =>
      match fromHexChar q with
      | none => ([], some (Error.InvalidByteError q))
      | some b =>
        let r := DecodeString rest
        ((a * 16 + b) :: r.1, r.2)

end hex

/-! ## Data shared by the processes -/

/-- The `LogLevel` enumeration of the repository. -/
inductive LogLevel
  | LogInfo
  | LogError
  | LogFatal
  deriving DecidableEq, Repr

/-- An `ecdsa.PublicKey`: the two affine coordinates. -/
structure PublicKey where
  X : Nat
  Y : Nat
  deriving DecidableEq, Repr

/-- An `ecdsa.PrivateKey`: the secret scalar. -/
structure PrivateKey where
  D : Nat
  deriving DecidableEq, Repr

/-- The `payload.KeyKind` of the messaging library. -/
inductive KeyKind
  | Symmetric
  | Asymmetric
  | None
  deriving DecidableEq, Repr

/-- The fields of `payload.KeyInfo` that the processes set. -/
structure KeyInfo where
  Kind : KeyKind
  SymKey : List Nat
  PubKey : Option PublicKey
  PrivKey : Option PrivateKey := none
  deriving DecidableEq, Repr

/-- A `payload.Payload`: plaintext and key choice, before encryption. -/
structure Payload where
  Data : GoString
  Key : KeyInfo
  deriving DecidableEq, Repr

/-- A `pb.WakuMessage` as the processes build it. -/
structure WakuMessage where
  Payload : List Nat
  Version : Nat
  ContentTopic : String
  Timestamp : Int
  Meta : List Nat := []
  deriving DecidableEq, Repr

/-- A `payload.DecodedPayload`: the plaintext and, when the message was signed, the public key
recovered from the signature (a nil `PubKey` is `none`). -/
structure DecodedPayload where
  Data : GoString
  PubKey : Option PublicKey
  deriving DecidableEq, Repr

/-- A subscription returned by the filter client, named by a number. -/
abbrev Subscription := Nat

/-- The pub/sub topics that the processes name in a content filter: only the library constant
`relay.DefaultWakuTopic`. -/
inductive PubsubTopic
  | DefaultWakuTopic
  deriving DecidableEq, Repr

/-- A `protocol.ContentFilter`: a pub/sub topic and the set of content topics, as a list. -/
structure ContentFilter where
  PubsubTopic : PubsubTopic
  ContentTopics : List String
  deriving DecidableEq, Repr

/-- What `cmd.Run()` leaves behind: the bytes written to the stdout buffer and whether `Run`
returned an error (non-zero exit, or the program could not be started). -/
structure ExecResult where
  stdout : GoString
  failed : Bool
  deriving DecidableEq, Repr

/-- Observable actions, in program order. -/
inductive Event
  /-- A call of `log.Info`, `log.Error` or, for `LogFatal`, `log.Fatal`/`log.Fatalf`, which
  ends the process. -/
  | log (level : LogLevel) (msg : String)
  /-- A line written with `fmt.Println` or `fmt.Printf`. -/
  | print (line : GoString)
  /-- The call `ethclient.Dial`. -/
  | dial
  /-- The call `NewMain` binding the registry contract. -/
  | bind
  /-- The read call `GetBootstrapAddresses`. -/
  | call
  /-- The call `exec.Command(name, args...)` followed by `Run`. -/
  | exec (name : GoString) (args : List GoString)
  /-- The call `wakuNode.Relay().Publish`. -/
  | publish (msg : WakuMessage)
  /-- The call `multiaddr.NewMultiaddr(address)`. -/
  | newMultiaddr (address : GoString)
  /-- The call `lightNode.AddPeer` for the parsed address. -/
  | addPeer (address : GoString)
  /-- The call `lightNode.FilterLightnode().Subscribe(ctx, cf)`. -/
  | subscribe (cf : ContentFilter)
  /-- The call `payload.DecodePayload` with the given key. -/
  | decode (key : KeyInfo)
  deriving DecidableEq, Repr

namespace Event

/-- The event is the start of a child process. -/
def isExec : Event → Bool
  | exec _ _ => true
  | _ => false

/-- The event is a publication on the relay. -/
def isPublish : Event → Bool
  | publish _ => true
  | _ => false

/-- The event ends the process. -/
def isFatal : Event → Bool
  | log LogLevel.LogFatal _ => true
  | _ => false

/-- The event is one of the three steps of the registry lookup. -/
def isRegistry : Event → Bool
  | dial => true
  | bind => true
  | call => true
  | _ => false

/-- The event is a decoding attempt. -/
def isDecode : Event → Bool
  | decode _ => true
  | _ => false

/-- The event is a line on standard output. -/
def isPrint : Event → Bool
  | print _ => true
  | _ => false

/-- The address that the event starts to try, if it is the first step of a candidate. -/
def candidate? : Event → Option GoString
  | newMultiaddr address => some address
  | _ => none

end Event

/-- The `checkError` helper: nothing on a nil error, otherwise one log call at the given
level. -/
def checkError (err : Bool) (message : String) (level : LogLevel) : List Event :=
  if err then [Event.log level message] else []

/-- The result of a routine that may end the process: the events it caused and, unless it ended
in `log.Fatal`, the value it returned. -/
structure Outcome (α : Type) where
  trace : List Event
  value : Option α

/-! ## The agent (`botNode/botNode.go`) -/

namespace BotNode

/-- The constant `contentTopic`. -/
def contentTopic : String := "/masterThesis/1/command-control-registration/proto"

/-- The package variable `symKey`. -/
def symKey : List Nat :=
  [1, 2, 3, 4, 5, 6, 7, 8, 9, 10, 11, 12, 13, 14, 15, 16,
   17, 18, 19, 20, 21, 22, 23, 24, 25, 26, 27, 28, 29, 30, 31, 32]

/-- The package variable `publicKey`. -/
def publicKey : GoString :=
  "c6336466e3e4bdb1122b499a3f820db99813a412eb780d41596498126e34150294d74f2d47baf564c7b362508da6b02af37f43e9aaea204baed7564c98e38c6e".toList

/-- The outside world as one run of the message handler meets it. -/
structure Host where
  /-- The value of `wakuNode.ID()`. -/
  ID : GoString
  /-- The child process: what `exec.Command(name, args...)` followed by `Run` yields. -/
  Run : GoString → List GoString → ExecResult
  /-- The call `crypto.UnmarshalPubkey`; `none` is a non-nil error. -/
  UnmarshalPubkey : List Nat → Option PublicKey
  /-- The call `p.Encode(version)`; `none` is a non-nil error. -/
  Encode : Payload → Nat → Option (List Nat)
  /-- The value of `utils.GetUnixEpoch(wakuNode.Timesource())`. -/
  Timestamp : Int

/-- The three external steps of the registry lookup. -/
structure Registry where
  /-- The call `ethclient.Dial` returns an error. -/
  dialFails : Bool
  /-- The call `NewMain` returns an error. -/
  bindFails : Bool
  /-- The result of `GetBootstrapAddresses`; `none` is a non-nil error. -/
  addresses : Option (List GoString)

/-- The function `fetchBootstrapAddressesFromContract`. -/
def fetchBootstrapAddressesFromContract (reg : Registry) : Outcome (List GoString) :=
  if reg.dialFails then
    ⟨[Event.dial, Event.log LogLevel.LogFatal "Failed to connect to the Ethereum client"], none⟩
  else if reg.bindFails then
    ⟨[Event.dial, Event.bind, Event.log LogLevel.LogFatal "Failed to bind to contract"], none⟩
  else
    match reg.addresses with
    | none =>
      ⟨[Event.dial, Event.bind, Event.call,
        Event.log LogLevel.LogFatal "Failed to retrieve bootstrap addresses"], none⟩
    | some bootstrapAddresses =>
      ⟨[Event.dial, Event.bind, Event.call,
        Event.print "Bootstrap addresses retrieved from contract:".toList]
          ++ bootstrapAddresses.map Event.print,
        some bootstrapAddresses⟩

/-- The function `parseCommandLineArgs`; the two arguments are the values of the flags
`botAddress` and `bootstrapAddress` after `flag.Parse()`. -/
def parseCommandLineArgs (botAddress bootstrapAddress : GoString) (reg : Registry) :
    Outcome (GoString × List GoString) :=
  if bootstrapAddress = [] then
    let fetched := fetchBootstrapAddressesFromContract reg
    let trace :=
      Event.print "No bootstrap address provided, fetching from contract...".toList
        :: fetched.trace
    match fetched.value with
    | none => ⟨trace, none⟩
    | some bootstrapAddresses =>
      if bootstrapAddresses.length > 0 then
        ⟨trace, some (botAddress, bootstrapAddresses)⟩
      else
        ⟨trace ++ [Event.log LogLevel.LogFatal
            "No bootstrap addresses could be retrieved from the contract."], none⟩
  else
    ⟨[], some (botAddress, [bootstrapAddress])⟩

/-- The function `write` of the agent.  Indexing `pubKeyBytes[0]` of an empty slice is a
run-time panic, recorded as a fatal event of its own. -/
def write (host : Host) (msgContent : GoString) : List Event :=
  let version : Nat := 1
  let decoded := hex.DecodeString ("04".toList ++ publicKey)
  let pubKeyBytes := decoded.1
  match decoded.2 with
  | some _ => checkError true "Failed to decode hex string" LogLevel.LogFatal
  | none =>
    match pubKeyBytes.head? with
    | none => [Event.log LogLevel.LogFatal "panic: index out of range"]
    | some b0 =>
      if b0 ≠ 0x04 then
        [Event.log LogLevel.LogFatal
          "Public key must be uncompressed, invalid key format detected."]
      else
        match host.UnmarshalPubkey pubKeyBytes with
        | none => checkError true "Failed to unmarshal public key" LogLevel.LogFatal
        | some pubKey =>
          let p : Payload :=
            { Data := host.ID ++ ": ".toList ++ msgContent
              Key := { Kind := KeyKind.Asymmetric, SymKey := [], PubKey := some pubKey } }
          match host.Encode p version with
          | none => checkError true "Failed to encode payload" LogLevel.LogFatal
          | some encodedPayload =>
            [Event.publish
              { Payload := encodedPayload
                Version := version
                ContentTopic := contentTopic
                Timestamp := host.Timestamp }]

/-- The function `handleCmd`: the whole of `control` is the program name, there are no
arguments, and the error returned by `Run` is discarded. -/
def handleCmd (control : GoString) (host : Host) : List Event :=
  let out := (host.Run control []).stdout
  let result := strings.TrimSpace out
  Event.exec control [] :: write host result

/-- The `switch messageType` statement that ends `handleMessage`. -/
def dispatch (host : Host) (messageType messageContent : GoString) : List Event :=
  if messageType = "cmd".toList then
    Event.log LogLevel.LogInfo "Command message detected, processing..."
      :: handleCmd messageContent host
  else
    [Event.log LogLevel.LogInfo "Received an unsupported message type."]

/-- The only effect of `handleMessage` on a text that does not have three parts. -/
def ignored : List Event :=
  [Event.log LogLevel.LogInfo
    "Received message does not have three parts and will be ignored."]

/-- The function `handleMessage`. -/
def handleMessage (host : Host) (messageText : GoString) : List Event :=
  let parts := strings.SplitN messageText ':' 3
  if parts.length ≠ 3 then
    ignored
  else
    let messageType := strings.TrimSpace (parts.getD 1 [])
    let messageContent := strings.TrimSpace (parts.getD 2 [])
    dispatch host messageType messageContent

/-- The slice `pubKeyBytes` of `write`: what decoding `"04" + publicKey` yields. -/
def pubKeyBytes : List Nat := (hex.DecodeString ("04".toList ++ publicKey)).1

/-- The payload `p` that `write` builds once the key is unmarshalled. -/
def resultPayload (host : Host) (pubKey : PublicKey) (msgContent : GoString) : Payload :=
  { Data := host.ID ++ ": ".toList ++ msgContent
    Key := { Kind := KeyKind.Asymmetric, SymKey := [], PubKey := some pubKey } }

/-- The two external steps of `write` succeed for a content: the key bytes unmarshal and the
payload built from the content encodes. -/
def Host.canEncode (host : Host) (msgContent : GoString) : Bool :=
  match host.UnmarshalPubkey pubKeyBytes with
  | none => false
  | some pubKey => (host.Encode (resultPayload host pubKey msgContent) 1).isSome

/-- The field prime of the curve secp256k1, on which the keys of the messaging library
live. -/
def secp256k1P : Nat := 2 ^ 256 - 2 ^ 32 - 977

/-- The number that a byte slice denotes in big-endian order. -/
def bigEndian (bytes : List Nat) : Nat := bytes.foldl (fun acc b => acc * 256 + b) 0

/-- A host on which the only program is `echo`, which prints its arguments separated by
blanks and a newline; any other program name cannot be started and leaves stdout empty.
Key unmarshalling and encryption succeed (the ciphertext is the code points of the
plaintext). -/
def echoHost : Host where
  ID := "16Uiu2HAm".toList
  Run := fun name args =>
    if name = "echo".toList then
      { stdout := " ".toList.intercalate args ++ ['\n'], failed := false }
    else
      { stdout := [], failed := true }
  UnmarshalPubkey := fun bytes =>
    some { X := bigEndian ((bytes.drop 1).take 32)
           Y := bigEndian ((bytes.drop 33).take 32) }
  Encode := fun p _ => some (p.Data.map Char.toNat)
  Timestamp := 0

/-! ### Connecting to a bootstrap node -/

/-- What the transport answers while one candidate of the list is tried. -/
structure Attempt where
  /-- The call `multiaddr.NewMultiaddr` returns no error. -/
  parses : Bool
  /-- The call `lightNode.AddPeer` returns no error. -/
  added : Bool
  /-- The result of `Subscribe`; `none` is a non-nil error. -/
  subscribed : Option Subscription
  deriving DecidableEq, Repr

/-- All three steps of the attempt succeed. -/
def Attempt.connects (a : Attempt) : Bool :=
  a.parses && a.added && a.subscribed.isSome

/-- The transport: its answers for the candidate at each position of the list. -/
abbrev Transport := Nat → Attempt

/-- The content filter `cf` that `subscribeToNode` builds. -/
def cf : ContentFilter :=
  { PubsubTopic := PubsubTopic.DefaultWakuTopic, ContentTopics := [contentTopic] }

/-- The events `pre` followed by the outcome `o`. -/
def Outcome.after {α : Type} (pre : List Event) (o : Outcome α) : Outcome α :=
  ⟨pre ++ o.trace, o.value⟩

/-- The `for _, address := range bootstrapAddresses` loop of `subscribeToNode` from position
`i` on, followed by the `log.Fatal` after the loop. -/
def subscribeFrom (net : Transport) : Nat → List GoString → Outcome Subscription
  | _, [] => ⟨[Event.log LogLevel.LogFatal "Failed to connect to any bootstrap nodes"], none⟩
  | i, address :: rest =>
    if (net i).parses = false then
      Outcome.after
        [Event.newMultiaddr address,
          Event.log LogLevel.LogError "Error parsing bootstrap node multiaddr: "]
        (subscribeFrom net (i + 1) rest)
    else if (net i).added = false then
      Outcome.after
        [Event.newMultiaddr address, Event.addPeer address,
          Event.log LogLevel.LogError "Error adding filter peer on light node: "]
        (subscribeFrom net (i + 1) rest)
    else
      match (net i).subscribed with
      | none =>
        Outcome.after
          [Event.newMultiaddr address, Event.addPeer address, Event.subscribe cf,
            Event.log LogLevel.LogError "Error subscribing: "]
          (subscribeFrom net (i + 1) rest)
      | some filter =>
        ⟨[Event.newMultiaddr address, Event.addPeer address, Event.subscribe cf], some filter⟩

/-- The function `subscribeToNode` of the agent. -/
def subscribeToNode (net : Transport) (bootstrapAddresses : List GoString) :
    Outcome Subscription :=
  subscribeFrom net 0 bootstrapAddresses

/-- The candidates that a trace starts to try, in order. -/
def attempted (trace : List Event) : List GoString := trace.filterMap Event.candidate?

/-- A transport on which parsing and adding a peer always succeed and a subscription is
obtained only at position 2. -/
def thirdOnly : Transport := fun i =>
  { parses := true, added := true, subscribed := if i = 2 then some 7 else none }

/-! ### Receiving messages -/

/-- The agent as a receiver: the host of the handler and the decoding call of the messaging
library. -/
structure Node extends Host where
  /-- The call `payload.DecodePayload`; `none` is a nil payload with a non-nil error. -/
  DecodePayload : WakuMessage → KeyInfo → Option DecodedPayload

/-- The text `fmt.Sprintf("%x%x", X, Y)` of a key: the two coordinates in lowercase
hexadecimal without leading zeros, one after the other. -/
def formatKey (k : PublicKey) : GoString := Nat.toDigits 16 k.X ++ Nat.toDigits 16 k.Y

/-- The key that the agent decodes with. -/
def decodeKey : KeyInfo := { Kind := KeyKind.Symmetric, SymKey := symKey, PubKey := none }

/-- What one pass through the `case env := <-filter[0].C` branch does in the receive loop
itself: its events and the text handed to `go handleMessage`, if any. -/
structure Step where
  trace : List Event
  spawned : Option GoString
  deriving DecidableEq, Repr

/-- The body of the `case env := <-filter[0].C` branch of `listenForMessages`; the argument is
`env.Message()`, `none` for nil. -/
def receive (node : Node) (env : Option WakuMessage) : Step :=
  match env with
  | none => ⟨[], none⟩
  | some msg =>
    match node.DecodePayload msg decodeKey with
    | none =>
      ⟨Event.decode decodeKey :: checkError true "Error decoding payload: " LogLevel.LogError,
        none⟩
    | some messagePayload =>
      match messagePayload.PubKey with
      | none =>
        ⟨[Event.decode decodeKey,
          Event.log LogLevel.LogInfo "Received message does not contain a public key."], none⟩
      | some pubKey =>
        let retrievedPublicKey := formatKey pubKey
        if retrievedPublicKey ≠ publicKey then
          ⟨[Event.decode decodeKey, Event.log LogLevel.LogInfo "Public key mismatch."], none⟩
        else
          let messageText := messagePayload.Data
          ⟨[Event.decode decodeKey,
            Event.print ("Filtered message received: ".toList ++ messageText)],
            some messageText⟩

/-- Everything that one received envelope causes: the events of the receive loop, then those
of the `handleMessage` goroutine it starts, run to its end. -/
def handleEnvelope (node : Node) (env : Option WakuMessage) : List Event :=
  (receive node env).trace ++
    match (receive node env).spawned with
    | none => []
    | some messageText => handleMessage node.toHost messageText

/-- The receive loop of `listenForMessages` on the envelopes that arrive before the context
is cancelled, with each handler run to its end before the next envelope is taken; a handler
that ends in `log.Fatal` ends the process and with it the loop. -/
def listenForMessages (node : Node) : List (Option WakuMessage) → List Event
  | [] => []
  | env :: rest =>
    if (handleEnvelope node env).any Event.isFatal then handleEnvelope node env
    else handleEnvelope node env ++ listenForMessages node rest

/-- The public key that the configured bytes denote. -/
def controllerKey : PublicKey :=
  { X := bigEndian ((pubKeyBytes.drop 1).take 32), Y := bigEndian (pubKeyBytes.drop 33) }

/-- A node on the host `echoHost` for which every version 1 message decodes to the code
points in its payload, signed by the controller key. -/
def echoNode : Node where
  toHost := echoHost
  DecodePayload := fun msg _ =>
    if msg.Version = 1 then
      some { Data := msg.Payload.map Char.ofNat, PubKey := some controllerKey }
    else none

/-- The node `echoNode`, except that decoded payloads carry no public key. -/
def unsignedNode : Node where
  toHost := echoHost
  DecodePayload := fun msg _ =>
    some { Data := msg.Payload.map Char.ofNat, PubKey := none }

/-- The node `echoNode` with an encryption step that always fails. -/
def mutedNode : Node where
  toHost := { echoHost with Encode := fun _ _ => none }
  DecodePayload := echoNode.DecodePayload

/-- A version 1 message whose payload is the code points of a text. -/
def envelopeOf (text : String) : WakuMessage :=
  { Payload := text.toList.map Char.toNat, Version := 1, ContentTopic := contentTopic,
    Timestamp := 0 }

/-- The steps that the description of the connector prescribes for one candidate: the address
is parsed; the peer is registered only after a successful parse; the subscription is opened
only after a successful registration; the step that fails is followed by its error log line
and by nothing else. -/
def candidateSteps (a : Attempt) (address : GoString) : List Event :=
  Event.newMultiaddr address ::
    (if a.parses then
      Event.addPeer address ::
        (if a.added then
          Event.subscribe cf ::
            (if a.subscribed.isSome then []
              else [Event.log LogLevel.LogError "Error subscribing: "])
        else [Event.log LogLevel.LogError "Error adding filter peer on light node: "])
    else [Event.log LogLevel.LogError "Error parsing bootstrap node multiaddr: "])

/-- The function `write` of the agent as a function of the value of the package variable
`publicKey`. -/
def writeWith (publicKey : GoString) (host : Host) (msgContent : GoString) : List Event :=
  let version : Nat := 1
  let decoded := hex.DecodeString ("04".toList ++ publicKey)
  let pubKeyBytes := decoded.1
  match decoded.2 with
  | some _ => checkError true "Failed to decode hex string" LogLevel.LogFatal
  | none =>
    match pubKeyBytes.head? with
    | none => [Event.log LogLevel.LogFatal "panic: index out of range"]
    | some b0 =>
      if b0 ≠ 0x04 then
        [Event.log LogLevel.LogFatal
          "Public key must be uncompressed, invalid key format detected."]
      else
        match host.UnmarshalPubkey pubKeyBytes with
        | none => checkError true "Failed to unmarshal public key" LogLevel.LogFatal
        | some pubKey =>
          let p : Payload :=
            { Data := host.ID ++ ": ".toList ++ msgContent
              Key := { Kind := KeyKind.Asymmetric, SymKey := [], PubKey := some pubKey } }
          match host.Encode p version with
          | none => checkError true "Failed to encode payload" LogLevel.LogFatal
          | some encodedPayload =>
            [Event.publish
              { Payload := encodedPayload
                Version := version
                ContentTopic := contentTopic
                Timestamp := host.Timestamp }]

/-- The number that a text of hexadecimal digits denotes. -/
def hexValue (digits : GoString) : Nat :=
  digits.foldl (fun acc c => acc * 16 + (hex.fromHexChar c).getD 0) 0

/-- The host `host` with a child process that always leaves the given result behind. -/
def Host.withRun (host : Host) (r : ExecResult) : Host :=
  { host with Run := fun _ _ => r }

end BotNode

/-! ## The controller (`cncNode/cncNode.go`) -/

namespace crypto

/-- The order of the group of the curve secp256k1. -/
def secp256k1N : Nat := 0xFFFFFFFFFFFFFFFFFFFFFFFFFFFFFFFEBAAEDCE6AF48A03BBFD25E8CD0364141

/-- The library function `crypto.HexToECDSA`: the text must be hexadecimal, 32 bytes long, and
denote a scalar `D` with `0 < D < N`; the public half of the key is left out. -/
def HexToECDSA (hexkey : GoString) : Option PrivateKey :=
  let decoded := hex.DecodeString hexkey
  match decoded.2 with
  | some _ => none
  | none =>
    if decoded.1.length ≠ 32 then none
    else if BotNode.bigEndian decoded.1 ≥ secp256k1N then none
    else if BotNode.bigEndian decoded.1 = 0 then none
    else some { D := BotNode.bigEndian decoded.1 }

end crypto

namespace CncNode

/-- The constant `contentTopic`. -/
def contentTopic : String := "/masterThesis/1/command-control-registration/proto"

/-- The package variable `symKey`. -/
def symKey : List Nat :=
  [1, 2, 3, 4, 5, 6, 7, 8, 9, 10, 11, 12, 13, 14, 15, 16,
   17, 18, 19, 20, 21, 22, 23, 24, 25, 26, 27, 28, 29, 30, 31, 32]

/-- The package variable `privateKey`. -/
def privateKey : GoString :=
  "1fc8abf855c6d5e97bdb8d7df8670c7f3f71521dd3754be4050b8b5bde0fc35d".toList

/-- The outside world as the controller meets it. -/
structure Host where
  /-- The value of `wakuNode.ID()`. -/
  ID : GoString
  /-- The call `p.Encode(version)`; `none` is a non-nil error. -/
  Encode : Payload → Nat → Option (List Nat)
  /-- The call `relay.SignMessage`: the signature it stores in the message, `none` when it
  returns an error and leaves the message as it is. -/
  SignMessage : Option PrivateKey → WakuMessage → Option (List Nat)
  /-- The call `payload.DecodePayload`; `none` is a nil payload with a non-nil error. -/
  DecodePayload : WakuMessage → KeyInfo → Option DecodedPayload
  /-- The value of `utils.GetUnixEpoch(wakuNode.Timesource())`. -/
  Timestamp : Int

/-- The function `write` of the controller.  Both errors are only logged: after a failed
encryption the message is still built, with a nil payload, and published. -/
def write (host : Host) (msgContent : GoString) : List Event :=
  let version : Nat := 1
  let key := crypto.HexToECDSA privateKey
  let p : Payload :=
    { Data := host.ID ++ ": ".toList ++ msgContent
      Key := { Kind := KeyKind.Symmetric, SymKey := symKey, PubKey := none, PrivKey := key } }
  let encryptedPayload := host.Encode p version
  let msg : WakuMessage :=
    { Payload := encryptedPayload.getD []
      Version := version
      ContentTopic := contentTopic
      Timestamp := host.Timestamp }
  let signed : WakuMessage := { msg with Meta := (host.SignMessage key msg).getD msg.Meta }
  checkError key.isNone "Failed to convert hex to ECDSA private key" LogLevel.LogError
    ++ checkError encryptedPayload.isNone "Error encrypting the message" LogLevel.LogError
    ++ [Event.publish signed]

/-- The key of the first decoding attempt of the controller. -/
def symInfo : KeyInfo := { Kind := KeyKind.Symmetric, SymKey := symKey, PubKey := none }

/-- The key of the second decoding attempt of the controller. -/
def asymInfo : KeyInfo :=
  { Kind := KeyKind.Asymmetric, SymKey := [], PubKey := none,
    PrivKey := crypto.HexToECDSA privateKey }

/-- The body of the `case env := <-filter[0].C` branch of `listenForMessages`; the argument is
`env.Message()`, `none` for nil. -/
def receive (host : Host) (env : Option WakuMessage) : List Event :=
  match env with
  | none => []
  | some msg =>
    match host.DecodePayload msg symInfo with
    | some messagePayload =>
      [Event.decode symInfo,
        Event.print ("Filtered message received: ".toList ++ messagePayload.Data)]
    | none =>
      [Event.decode symInfo,
        Event.log LogLevel.LogError "Failed to decode message with symmetric key: "]
        ++ checkError (crypto.HexToECDSA privateKey).isNone "Failed to convert hex to ECDSA"
            LogLevel.LogError
        ++ [Event.decode asymInfo]
        ++ match host.DecodePayload msg asymInfo with
          | none =>
            checkError true "Failed to decode message with asymmetric key" LogLevel.LogError
          | some messagePayload =>
            [Event.print ("Filtered message received: ".toList ++ messagePayload.Data)]

/-- The receive loop of `listenForMessages` on the envelopes that arrive before the context
is cancelled. -/
def listenForMessages (host : Host) : List (Option WakuMessage) → List Event
  | [] => []
  | env :: rest => receive host env ++ listenForMessages host rest

/-- The content filter `cf` that `subscribeToNode` builds. -/
def cf : ContentFilter :=
  { PubsubTopic := PubsubTopic.DefaultWakuTopic, ContentTopics := [contentTopic] }

/-- The function `subscribeToNode` of the controller: one candidate, every error is fatal. -/
def subscribeToNode (a : BotNode.Attempt) (bootstrapAddress : GoString) :
    Outcome Subscription :=
  if a.parses = false then
    ⟨[Event.newMultiaddr bootstrapAddress,
      Event.log LogLevel.LogFatal "Error parsing bootstrap node multiaddr"], none⟩
  else if a.added = false then
    ⟨[Event.newMultiaddr bootstrapAddress, Event.addPeer bootstrapAddress,
      Event.log LogLevel.LogFatal "Error adding filter peer on light node"], none⟩
  else
    match a.subscribed with
    | none =>
      ⟨[Event.newMultiaddr bootstrapAddress, Event.addPeer bootstrapAddress,
        Event.subscribe cf, Event.log LogLevel.LogFatal "Error subscribing"], none⟩
    | some filter =>
      ⟨[Event.newMultiaddr bootstrapAddress, Event.addPeer bootstrapAddress,
        Event.subscribe cf], some filter⟩

/-- The outside world during the start of the controller. -/
structure Startup where
  /-- The call `net.ResolveTCPAddr` returns an error. -/
  resolveFails : Bool
  /-- The call `randomHex` returns an error. -/
  randomFails : Bool
  /-- The call `crypto.HexToECDSA` on the random key returns an error. -/
  keyInvalid : Bool
  /-- The call `node.New` returns an error. -/
  newFails : Bool
  /-- The call `lightNode.Start` returns an error. -/
  startFails : Bool
  /-- What the transport answers for the one candidate. -/
  attempt : BotNode.Attempt

/-- The function `main` of the controller up to and including the call of `subscribeToNode`;
the argument is the value of the flag `bootstrapAddress`. -/
def main (env : Startup) (bootstrapAddress : GoString) : Outcome Subscription :=
  if bootstrapAddress = [] then
    ⟨[Event.log LogLevel.LogFatal
      "Bootstrap address must be provided. Usage: ./botNode -botAddress=[optional] -bootstrapAddress=[required]"],
      none⟩
  else if env.resolveFails then
    ⟨checkError true "Could not resolve TCP address" LogLevel.LogFatal, none⟩
  else if env.randomFails then
    ⟨checkError true "Could not generate random key" LogLevel.LogFatal, none⟩
  else if env.keyInvalid then
    ⟨checkError true "Invalid key" LogLevel.LogFatal, none⟩
  else if env.newFails then
    ⟨checkError true "Error initializing node" LogLevel.LogFatal, none⟩
  else if env.startFails then
    ⟨checkError true "Error starting node" LogLevel.LogFatal, none⟩
  else subscribeToNode env.attempt bootstrapAddress

/-- The payload `p` that `write` builds for a content. -/
def payloadOf (host : Host) (msgContent : GoString) : Payload :=
  { Data := host.ID ++ ": ".toList ++ msgContent
    Key := { Kind := KeyKind.Symmetric, SymKey := symKey, PubKey := none,
             PrivKey := crypto.HexToECDSA privateKey } }

/-- The message that `write` publishes for a content. -/
def envelope (host : Host) (msgContent : GoString) : WakuMessage :=
  { Payload := (host.Encode (payloadOf host msgContent) 1).getD []
    Version := 1
    ContentTopic := contentTopic
    Timestamp := host.Timestamp
    Meta := (host.SignMessage (crypto.HexToECDSA privateKey)
      { Payload := (host.Encode (payloadOf host msgContent) 1).getD []
        Version := 1
        ContentTopic := contentTopic
        Timestamp := host.Timestamp }).getD [] }

/-- The `for` loop of `writeLoop` on the results of the calls of `reader.ReadString` that
complete: `none` is a read error, `some input` the text read, line end included. -/
def writeLoopFrom (host : Host) : List (Option GoString) → List Event
  | [] => []
  | none :: rest =>
    [Event.print "Message: ".toList, Event.log LogLevel.LogError "Failed to read from stdin: "]
      ++ writeLoopFrom host rest
  | some input :: rest =>
    if strings.TrimSpace input = "exit".toList then
      [Event.print "Message: ".toList, Event.print "Exiting write loop...".toList]
    else
      Event.print "Message: ".toList :: write host (strings.TrimSpace input)
        ++ writeLoopFrom host rest

/-- The function `writeLoop`. -/
def writeLoop (host : Host) (reads : List (Option GoString)) : List Event :=
  Event.print "Enter messages to send, type 'exit' to stop:".toList :: writeLoopFrom host reads

/-- The lines that the operator sends: the lines read without error, with surrounding white
space removed, before the first one that is "exit". -/
def linesBeforeExit (reads : List (Option GoString)) : List GoString :=
  ((reads.filterMap id).map strings.TrimSpace).takeWhile (fun l => l ≠ "exit".toList)

/-- A controller for which encryption is the list of code points, and only the private-key
attempt decodes: it gives back the code points of a version 1 payload. -/
def asymOnlyHost : Host where
  ID := "16Uiu2HAkx".toList
  Encode := fun p _ => some (p.Data.map Char.toNat)
  SignMessage := fun _ _ => some [0]
  DecodePayload := fun msg key =>
    if key.Kind = KeyKind.Asymmetric ∧ msg.Version = 1 then
      some { Data := msg.Payload.map Char.ofNat, PubKey := none }
    else none
  Timestamp := 0

end CncNode

/-! ## The bootstrap node (`bootstrapNode/bootstrapNode.go`) -/

namespace BootstrapNode

/-- The outside world as the read loop of the bootstrap node meets it. -/
structure Lib where
  /-- The call `wakuNode.Relay().Subscribe` returns an error. -/
  subscribeFails : Bool
  /-- The call `payload.DecodePayload` on `value.Message()`, `none` for nil; the error is
  kept as the text that `fmt.Println` shows. -/
  DecodePayload : Option WakuMessage → KeyInfo → Except GoString DecodedPayload

/-- The key information `&payload.KeyInfo{Kind: payload.None}`. -/
def noneInfo : KeyInfo := { Kind := KeyKind.None, SymKey := [], PubKey := none }

/-- What the read loop leaves behind: its events and the values still in the channel when it
returns. -/
structure ReadResult where
  trace : List Event
  unread : List (Option WakuMessage)
  deriving DecidableEq, Repr

/-- The `for value := range sub[0].Ch` loop of `readLoop`. -/
def readFrom (lib : Lib) : List (Option WakuMessage) → ReadResult
  | [] => ⟨[], []⟩
  | value :: rest =>
    match lib.DecodePayload value noneInfo with
    | Except.error err => ⟨[Event.decode noneInfo, Event.print err], rest⟩
    | Except.ok _ =>
      ⟨Event.decode noneInfo :: (readFrom lib rest).trace, (readFrom lib rest).unread⟩

/-- The function `readLoop`; the list holds the values that the channel delivers before it
is closed. -/
def readLoop (lib : Lib) (values : List (Option WakuMessage)) : ReadResult :=
  if lib.subscribeFails then
    ⟨checkError true "Could not subscribe" LogLevel.LogError
      ++ checkError true "Failed to decode the message" LogLevel.LogError, values⟩
  else readFrom lib values

/-- A library that decodes version 0 and version 1 messages, and a nil message, and rejects
every other version. -/
def versionLib : Lib where
  subscribeFails := false
  DecodePayload := fun value _ =>
    match value with
    | none => Except.ok { Data := [], PubKey := none }
    | some msg =>
      if msg.Version ≤ 1 then Except.ok { Data := msg.Payload.map Char.ofNat, PubKey := none }
      else Except.error "unsupported wakumessage version".toList

end BootstrapNode

/-- The symmetric cipher of the messaging library round-trips under the key `k`: whatever
`Encode` produces for a payload with that symmetric key, `DecodePayload` with the same key
turns a version 1 message carrying it back into the data of the payload. -/
def SymRoundTrips (Encode : Payload → Nat → Option (List Nat))
    (DecodePayload : WakuMessage → KeyInfo → Option DecodedPayload) (k : List Nat) : Prop :=
  ∀ (p : Payload) (bytes : List Nat) (m : WakuMessage),
    p.Key.Kind = KeyKind.Symmetric → p.Key.SymKey = k → Encode p 1 = some bytes →
    m.Payload = bytes → m.Version = 1 →
    ∃ d, DecodePayload m { Kind := KeyKind.Symmetric, SymKey := k, PubKey := none } = some d
      ∧ d.Data = p.Data

/-- The cipher of the messaging library binds a message to the strategy it was encoded with:
a version 1 message that carries what `Encode` produced for a payload is decoded by
`DecodePayload` only under key information of the kind that the payload was encoded with. -/
def KindBound (Encode : Payload → Nat → Option (List Nat))
    (DecodePayload : WakuMessage → KeyInfo → Option DecodedPayload) : Prop :=
  ∀ (p : Payload) (bytes : List Nat) (m : WakuMessage) (k : KeyInfo),
    Encode p 1 = some bytes → m.Payload = bytes → m.Version = 1 →
    (DecodePayload m k).isSome = true → k.Kind = p.Key.Kind

/-- The asymmetric cipher of the messaging library round-trips between the public key `pub`
and the private key `priv`: whatever `Encode` produces for a payload with the asymmetric kind
and that public key, `DecodePayload` with the asymmetric kind and that private key turns a
version 1 message carrying it back into the data of the payload. -/
def AsymRoundTrips (Encode : Payload → Nat → Option (List Nat))
    (DecodePayload : WakuMessage → KeyInfo → Option DecodedPayload) (pub : PublicKey)
    (priv : Option PrivateKey) : Prop :=
  ∀ (p : Payload) (bytes : List Nat) (m : WakuMessage),
    p.Key.Kind = KeyKind.Asymmetric → p.Key.PubKey = some pub → Encode p 1 = some bytes →
    m.Payload = bytes → m.Version = 1 →
    ∃ d, DecodePayload m
        { Kind := KeyKind.Asymmetric, SymKey := [], PubKey := none, PrivKey := priv } = some d
      ∧ d.Data = p.Data

/-- The byte by which the stand-in cipher of `taggedAgent` and `taggedController` marks the
kind of key a payload was encoded with. -/
def kindTag : KeyKind → Nat
  | KeyKind.Symmetric => 0
  | KeyKind.Asymmetric => 1
  | KeyKind.None => 2

/-- An agent like `BotNode.echoHost` whose encryption is the tag of the key kind followed by
the code points of the plaintext. -/
def taggedAgent : BotNode.Host :=
  { BotNode.echoHost with
    Encode := fun p _ => some (kindTag p.Key.Kind :: p.Data.map Char.toNat) }

/-- A controller for the cipher of `taggedAgent`: a version 1 message is decoded under key
information of the kind that its tag names, under both kinds of key. -/
def taggedController : CncNode.Host where
  ID := "16Uiu2HAkx".toList
  Encode := fun p _ => some (kindTag p.Key.Kind :: p.Data.map Char.toNat)
  SignMessage := fun _ _ => some [0]
  DecodePayload := fun msg key =>
    if msg.Version = 1 ∧ msg.Payload.head? = some (kindTag key.Kind) then
      some { Data := msg.Payload.tail.map Char.ofNat, PubKey := none }
    else none
  Timestamp := 0

/-! ## Facts about the library functions -/

namespace strings

theorem Index_append_of_not_mem (sep : Char) (p r : GoString) (h : sep ∉ p) :
    Index (p ++ sep :: r) sep = some p.length := by
  induction p with
  | nil => simp [Index]
  | cons c cs ih =>
    have hc : c ≠ sep := fun e => h (by simp [e])
    have hcs : sep ∉ cs := fun e => h (by simp [e])
    simp [Index, hc, ih hcs]

theorem Index_of_not_mem (sep : Char) (s : GoString) (h : sep ∉ s) : Index s sep = none := by
  induction s with
  | nil => simp [Index]
  | cons c cs ih =>
    have hc : c ≠ sep := fun e => h (by simp [e])
    have hcs : sep ∉ cs := fun e => h (by simp [e])
    simp [Index, hc, ih hcs]

theorem genSplitLoop_of_not_mem (sep : Char) (k : Nat) (s : GoString) (h : sep ∉ s) :
    genSplitLoop sep k s = [s] := by
  cases k with
  | zero => simp [genSplitLoop]
  | succ k => simp [genSplitLoop, Index_of_not_mem sep s h]

theorem genSplitLoop_append (sep : Char) (k : Nat) (p r : GoString) (h : sep ∉ p) :
    genSplitLoop sep (k + 1) (p ++ sep :: r) = p :: genSplitLoop sep k r := by
  simp [genSplitLoop, Index_append_of_not_mem sep p r h]

/-- A text with at least one separator is cut at its first separator. -/
theorem exists_first_sep (sep : Char) (s : GoString) (h : 1 ≤ Count s sep) :
    ∃ p r, s = p ++ sep :: r ∧ sep ∉ p := by
  induction s with
  | nil => simp [Count] at h
  | cons c cs ih =>
    by_cases hc : c = sep
    · exact ⟨[], cs, by simp [hc], by simp⟩
    · have h1 : 1 ≤ Count cs sep := by
        simp only [Count] at h ⊢
        rw [List.count_cons_of_ne (Ne.symm hc)] at h
        exact h
      obtain ⟨p, r, hs, hp⟩ := ih h1
      refine ⟨c :: p, r, by simp [hs], ?_⟩
      simp only [List.mem_cons, not_or]
      exact ⟨Ne.symm hc, hp⟩

theorem Count_append_sep (sep : Char) (p r : GoString) (h : sep ∉ p) :
    Count (p ++ sep :: r) sep = Count r sep + 1 := by
  simp [Count, List.count_eq_zero_of_not_mem h]

theorem not_mem_of_Count_eq_zero (sep : Char) (s : GoString) (h : Count s sep = 0) :
    sep ∉ s := by
  simpa [Count, List.count_eq_zero] using h

/-- With room for three parts, a text whose first two fields hold no separator is split at
exactly those two separators. -/
theorem SplitN_three_append (sep : Char) (p0 p1 p2 : GoString) (h0 : sep ∉ p0)
    (h1 : sep ∉ p1) : SplitN (p0 ++ sep :: (p1 ++ sep :: p2)) sep 3 = [p0, p1, p2] := by
  have hlen : ¬ (3 > (p0 ++ sep :: (p1 ++ sep :: p2)).length + 1) := by
    simp only [List.length_append, List.length_cons]
    omega
  have h3 : ((3 : Int).toNat) = 3 := rfl
  simp only [SplitN, h3, hlen, if_false, show ¬ ((3 : Int) = 0) by decide,
    show ¬ ((3 : Int) < 0) by decide]
  rw [show 3 - 1 = 1 + 1 from rfl, genSplitLoop_append sep 1 p0 _ h0,
    show 1 = 0 + 1 from rfl, genSplitLoop_append sep 0 p1 _ h1]
  simp [genSplitLoop]

/-- The parts of a text with at least two separators. -/
theorem SplitN_three_of_two_le_Count (sep : Char) (s : GoString) (h : 2 ≤ Count s sep) :
    ∃ p0 p1 p2, SplitN s sep 3 = [p0, p1, p2] ∧ s = p0 ++ sep :: (p1 ++ sep :: p2)
      ∧ sep ∉ p0 ∧ sep ∉ p1 := by
  obtain ⟨p0, r, hs, h0⟩ := exists_first_sep sep s (by omega)
  have hr : 1 ≤ Count r sep := by
    rw [hs, Count_append_sep sep p0 r h0] at h
    omega
  obtain ⟨p1, p2, hr2, h1⟩ := exists_first_sep sep r hr
  refine ⟨p0, p1, p2, ?_, by rw [hs, hr2], h0, h1⟩
  rw [hs, hr2]
  exact SplitN_three_append sep p0 p1 p2 h0 h1

/-- A text with fewer than two separators gives fewer than three parts. -/
theorem SplitN_three_length_lt (sep : Char) (s : GoString) (h : Count s sep < 2) :
    (SplitN s sep 3).length < 3 := by
  have h3 : ((3 : Int).toNat) = 3 := rfl
  simp only [SplitN, h3, show ¬ ((3 : Int) = 0) by decide, show ¬ ((3 : Int) < 0) by decide,
    if_false]
  by_cases hz : Count s sep = 0
  · rw [genSplitLoop_of_not_mem sep _ s (not_mem_of_Count_eq_zero sep s hz)]
    simp
  · obtain ⟨p, r, hs, hp⟩ := exists_first_sep sep s (by omega)
    have hr : sep ∉ r := by
      apply not_mem_of_Count_eq_zero
      rw [hs, Count_append_sep sep p r hp] at h
      omega
    have hlen : 1 ≤ s.length := by
      rw [hs]
      simp only [List.length_append, List.length_cons]
      omega
    by_cases hcap : 3 > s.length + 1
    · have hk : s.length + 1 - 1 = (s.length - 1) + 1 := by omega
      simp only [hcap, if_true, hk]
      rw [hs, genSplitLoop_append sep _ p r hp, genSplitLoop_of_not_mem sep _ r hr]
      simp
    · simp only [hcap, if_false]
      rw [hs, show 3 - 1 = 1 + 1 from rfl, genSplitLoop_append sep 1 p r hp,
        genSplitLoop_of_not_mem sep _ r hr]
      simp

/-- The result of `TrimSpace` is its argument with the surrounding white space removed and
nothing else changed. -/
theorem Trimmed_TrimSpace (s : GoString) : Trimmed s (TrimSpace s) := by
  have hd : s.dropWhile unicode.IsSpace
      = TrimSpace s ++ ((s.dropWhile unicode.IsSpace).reverse.takeWhile unicode.IsSpace).reverse := by
    have h := List.takeWhile_append_dropWhile unicode.IsSpace
      (s.dropWhile unicode.IsSpace).reverse
    have h2 := congrArg List.reverse h
    simp only [List.reverse_append, List.reverse_reverse] at h2
    simpa [TrimSpace, TrimRightFunc, TrimLeftFunc] using h2.symm
  refine ⟨⟨s.takeWhile unicode.IsSpace,
    ((s.dropWhile unicode.IsSpace).reverse.takeWhile unicode.IsSpace).reverse, ?_, ?_, ?_⟩, ?_, ?_⟩
  · rw [List.append_assoc, ← hd, List.takeWhile_append_dropWhile]
  · intro c hc
    exact List.mem_takeWhile_imp hc
  · intro c hc
    exact List.mem_takeWhile_imp (List.mem_reverse.mp hc)
  · intro c hc
    have hh : (s.dropWhile unicode.IsSpace).head? = some c := by
      rw [hd]
      cases ht : TrimSpace s with
      | nil => simp [ht] at hc
      | cons x xs =>
        rw [ht] at hc
        simpa using hc
    have hn := List.head?_dropWhile_not unicode.IsSpace s
    rw [hh] at hn
    exact hn
  · intro c hc
    have hh : ((s.dropWhile unicode.IsSpace).reverse.dropWhile unicode.IsSpace).head? = some c := by
      simpa [TrimSpace, TrimRightFunc, TrimLeftFunc] using hc
    have hn := List.head?_dropWhile_not unicode.IsSpace (s.dropWhile unicode.IsSpace).reverse
    rw [hh] at hn
    exact hn

/-- The predicate `Trimmed` determines the trimmed text. -/
theorem Trimmed.eq_TrimSpace {s t : GoString} (h : Trimmed s t) : t = TrimSpace s := by
  obtain ⟨⟨l, r, hs, hl, hr⟩, hhead, hlast⟩ := h
  have hrr : ∀ c ∈ r.reverse, unicode.IsSpace c = true := fun c hc =>
    hr c (List.mem_reverse.mp hc)
  cases t with
  | nil =>
    have hall : ∀ c ∈ s, unicode.IsSpace c = true := by
      intro c hc
      rw [hs] at hc
      simp only [List.append_nil, List.mem_append] at hc
      exact hc.elim (hl c) (hr c)
    have : s.dropWhile unicode.IsSpace = [] := List.dropWhile_eq_nil_iff.mpr hall
    simp [TrimSpace, TrimRightFunc, TrimLeftFunc, this]
  | cons x xs =>
    have hx : unicode.IsSpace x = false := hhead x rfl
    have h1 : s.dropWhile unicode.IsSpace = (x :: xs) ++ r := by
      rw [hs, List.append_assoc, List.dropWhile_append_of_pos hl]
      simp [List.dropWhile, hx]
    have hne : (x :: xs).reverse ≠ [] := by simp
    obtain ⟨y, ys, hy⟩ := List.exists_cons_of_ne_nil hne
    have hyl : (x :: xs).getLast? = some y := by
      rw [← List.head?_reverse, hy]
      rfl
    have hyn : unicode.IsSpace y = false := hlast y hyl
    have h2 : ((x :: xs) ++ r).reverse.dropWhile unicode.IsSpace = (x :: xs).reverse := by
      rw [List.reverse_append, List.dropWhile_append_of_pos hrr, hy]
      simp [List.dropWhile, hyn]
    simp only [TrimSpace, TrimRightFunc, TrimLeftFunc, h1, h2, List.reverse_reverse]

/-- A text is left unchanged by `TrimSpace` exactly when it has no white space at either
end. -/
theorem TrimSpace_eq_self_iff (s : GoString) :
    TrimSpace s = s ↔ (∀ c, s.head? = some c → unicode.IsSpace c = false)
      ∧ (∀ c, s.getLast? = some c → unicode.IsSpace c = false) := by
  constructor
  · intro h
    have ht := Trimmed_TrimSpace s
    rw [h] at ht
    exact ht.2
  · intro h
    have ht : Trimmed s s := ⟨⟨[], [], by simp, by simp, by simp⟩, h.1, h.2⟩
    exact ht.eq_TrimSpace.symm

end strings

/-! ## The agent: frame parsing and dispatch -/

namespace BotNode

open strings

theorem handleMessage_of_parts (host : Host) (messageText p0 p1 p2 : GoString)
    (h : SplitN messageText ':' 3 = [p0, p1, p2]) :
    handleMessage host messageText = dispatch host (TrimSpace p1) (TrimSpace p2) := by
  simp [handleMessage, h]

theorem handleMessage_of_Count_lt (host : Host) (messageText : GoString)
    (h : Count messageText ':' < 2) : handleMessage host messageText = ignored := by
  have hlen := SplitN_three_length_lt ':' messageText h
  have hne : (SplitN messageText ':' 3).length ≠ 3 := by omega
  simp [handleMessage, hne]

theorem dispatch_ne_ignored (host : Host) (messageType messageContent : GoString) :
    dispatch host messageType messageContent ≠ ignored := by
  unfold dispatch ignored
  split <;> simp

theorem ignored_no_exec_no_publish :
    ignored.any Event.isExec = false ∧ ignored.any Event.isPublish = false := by
  constructor <;> rfl

/-- C1: `handleMessage` ends in the "does not have three parts" branch, whose only effect is
one informational log line, if and only if the text holds fewer than two ':'; in that case no
command is started and nothing is published, so no part of the text is interpreted. -/
theorem handleMessage_rejects_iff_fewer_than_two_delimiters (host : Host)
    (messageText : GoString) :
    (handleMessage host messageText = ignored ↔ Count messageText ':' < 2)
      ∧ (Count messageText ':' < 2 →
          (handleMessage host messageText).any Event.isExec = false
            ∧ (handleMessage host messageText).any Event.isPublish = false) := by
  refine ⟨⟨?_, handleMessage_of_Count_lt host messageText⟩, ?_⟩
  · intro h
    by_contra hc
    obtain ⟨p0, p1, p2, hsplit, -⟩ :=
      SplitN_three_of_two_le_Count ':' messageText (by omega)
    rw [handleMessage_of_parts host messageText p0 p1 p2 hsplit] at h
    exact dispatch_ne_ignored host _ _ h
  · intro h
    rw [handleMessage_of_Count_lt host messageText h]
    exact ignored_no_exec_no_publish

theorem handleMessage_rejects_iff_fewer_than_two_delimiters_witness :
    Count "node-42: cmd".toList ':' < 2
      ∧ (handleMessage echoHost "node-42: cmd".toList).any Event.isExec = false
      ∧ (handleMessage echoHost "node-42: cmd".toList).any Event.isPublish = false :=
  ⟨by decide,
    (handleMessage_rejects_iff_fewer_than_two_delimiters echoHost "node-42: cmd".toList).2
      (by decide)⟩

/-- C2: a text with at least two ':' is split into exactly three parts, at its first two ':'
only: the parts joined by ':' give the text back, the first two parts hold no ':' (so the
third is everything after the second ':', further ':' included), and `handleMessage` goes on
with the second and third parts. -/
theorem handleMessage_splits_at_first_two_delimiters (host : Host) (messageText : GoString)
    (h : 2 ≤ Count messageText ':') :
    ∃ p0 p1 p2, SplitN messageText ':' 3 = [p0, p1, p2]
      ∧ p0 ++ ":".toList ++ p1 ++ ":".toList ++ p2 = messageText
      ∧ ':' ∉ p0 ∧ ':' ∉ p1
      ∧ handleMessage host messageText = dispatch host (TrimSpace p1) (TrimSpace p2) := by
  obtain ⟨p0, p1, p2, hsplit, hs, h0, h1⟩ := SplitN_three_of_two_le_Count ':' messageText h
  refine ⟨p0, p1, p2, hsplit, ?_, h0, h1, handleMessage_of_parts host messageText p0 p1 p2 hsplit⟩
  rw [hs]
  simp

theorem handleMessage_splits_at_first_two_delimiters_witness :
    2 ≤ Count "n1:cmd:date:now".toList ':'
      ∧ ∃ p0 p1 p2, SplitN "n1:cmd:date:now".toList ':' 3 = [p0, p1, p2]
          ∧ p0 ++ ":".toList ++ p1 ++ ":".toList ++ p2 = "n1:cmd:date:now".toList
          ∧ ':' ∉ p0 ∧ ':' ∉ p1
          ∧ handleMessage echoHost "n1:cmd:date:now".toList
              = dispatch echoHost (TrimSpace p1) (TrimSpace p2) :=
  ⟨by decide,
    handleMessage_splits_at_first_two_delimiters echoHost "n1:cmd:date:now".toList (by decide)⟩

/-- C3: for a text that splits into three parts, the message type and the content that
`handleMessage` dispatches on are the second and the third part with leading and trailing
white space removed and nothing else changed; the text "node-42: cmd: echo hi" has first part
"node-42", message type "cmd" and content "echo hi". -/
theorem handleMessage_trims_type_and_content :
    (∀ (host : Host) (messageText p0 p1 p2 : GoString),
        SplitN messageText ':' 3 = [p0, p1, p2] →
          ∃ messageType messageContent,
            handleMessage host messageText = dispatch host messageType messageContent
              ∧ messageType = TrimSpace p1 ∧ messageContent = TrimSpace p2
              ∧ Trimmed p1 messageType ∧ Trimmed p2 messageContent)
      ∧ SplitN "node-42: cmd: echo hi".toList ':' 3
          = ["node-42".toList, " cmd".toList, " echo hi".toList]
      ∧ TrimSpace " cmd".toList = "cmd".toList
      ∧ TrimSpace " echo hi".toList = "echo hi".toList
      ∧ ∀ host : Host, handleMessage host "node-42: cmd: echo hi".toList
          = dispatch host "cmd".toList "echo hi".toList := by
  refine ⟨?_, by decide, by decide, by decide, ?_⟩
  · intro host messageText p0 p1 p2 h
    exact ⟨TrimSpace p1, TrimSpace p2, handleMessage_of_parts host messageText p0 p1 p2 h,
      rfl, rfl, Trimmed_TrimSpace p1, Trimmed_TrimSpace p2⟩
  · intro host
    have h : SplitN "node-42: cmd: echo hi".toList ':' 3
        = ["node-42".toList, " cmd".toList, " echo hi".toList] := by decide
    rw [handleMessage_of_parts host _ _ _ _ h]
    have h1 : TrimSpace " cmd".toList = "cmd".toList := by decide
    have h2 : TrimSpace " echo hi".toList = "echo hi".toList := by decide
    rw [h1, h2]

theorem handleMessage_trims_type_and_content_witness :
    SplitN "n1:\tcmd :  date  ".toList ':' 3
        = ["n1".toList, "\tcmd ".toList, "  date  ".toList]
      ∧ ∃ messageType messageContent,
          handleMessage echoHost "n1:\tcmd :  date  ".toList
              = dispatch echoHost messageType messageContent
            ∧ messageType = TrimSpace "\tcmd ".toList
            ∧ messageContent = TrimSpace "  date  ".toList
            ∧ Trimmed "\tcmd ".toList messageType
            ∧ Trimmed "  date  ".toList messageContent :=
  ⟨by decide,
    handleMessage_trims_type_and_content.1 echoHost "n1:\tcmd :  date  ".toList
      "n1".toList "\tcmd ".toList "  date  ".toList (by decide)⟩

theorem Count_TrimSpace_colon (s : GoString) : Count (TrimSpace s) ':' = Count s ':' := by
  obtain ⟨⟨l, r, hs, hl, hr⟩, -⟩ := Trimmed_TrimSpace s
  have hnl : ':' ∉ l := fun hm => by
    have := hl ':' hm
    revert this
    decide
  have hnr : ':' ∉ r := fun hm => by
    have := hr ':' hm
    revert this
    decide
  conv_rhs => rw [hs]
  simp [Count, List.count_eq_zero_of_not_mem hnl, List.count_eq_zero_of_not_mem hnr]

theorem parts_of_SplitN_three (messageText p0 p1 p2 : GoString)
    (h : SplitN messageText ':' 3 = [p0, p1, p2]) :
    messageText = p0 ++ ':' :: (p1 ++ ':' :: p2) ∧ ':' ∉ p0 ∧ ':' ∉ p1 := by
  have hc : 2 ≤ Count messageText ':' := by
    by_contra hlt
    have := SplitN_three_length_lt ':' messageText (by omega)
    rw [h] at this
    simp at this
  obtain ⟨q0, q1, q2, hq, hs, h0, h1⟩ := SplitN_three_of_two_le_Count ':' messageText hc
  rw [h] at hq
  simp only [List.cons.injEq, and_true] at hq
  obtain ⟨e0, e1, e2⟩ := hq
  subst e0 e1 e2
  exact ⟨hs, h0, h1⟩

/-- C4 fails as stated: the newline-free triple ("a:b", "cmd", "ls") is formatted as
"a:b:cmd:ls", which is cut at the ':' inside the sender label, so that the message type read
back is "b" and the content "cmd:ls", and the message is dropped as unsupported.  A ':' in
the message type does the same: ("n1", "c:md", "ls") is read back as type "c" and content
"md:ls". -/
theorem frame_round_trip_fails_for_delimiter_in_label :
    '\n' ∉ "a:b".toList ∧ '\n' ∉ "cmd".toList ∧ '\n' ∉ "ls".toList
      ∧ SplitN ("a:b".toList ++ ":".toList ++ "cmd".toList ++ ":".toList ++ "ls".toList) ':' 3
          = ["a".toList, "b".toList, "cmd:ls".toList]
      ∧ TrimSpace "b".toList ≠ TrimSpace "cmd".toList
      ∧ TrimSpace "cmd:ls".toList ≠ TrimSpace "ls".toList
      ∧ handleMessage echoHost
            ("a:b".toList ++ ":".toList ++ "cmd".toList ++ ":".toList ++ "ls".toList)
          = [Event.log LogLevel.LogInfo "Received an unsupported message type."]
      ∧ '\n' ∉ "n1".toList ∧ '\n' ∉ "c:md".toList
      ∧ SplitN ("n1".toList ++ ":".toList ++ "c:md".toList ++ ":".toList ++ "ls".toList) ':' 3
          = ["n1".toList, "c".toList, "md:ls".toList]
      ∧ TrimSpace "c".toList ≠ TrimSpace "c:md".toList
      ∧ TrimSpace "md:ls".toList ≠ TrimSpace "ls".toList := by
  refine ⟨by decide, by decide, by decide, by decide, by decide, by decide, by decide,
    by decide, by decide, by decide, by decide, by decide⟩

/-- C4, amended: when the sender label and the message type hold no ':', the formatted frame
`senderLabel + ":" + messageType + ":" + payload` is split back into exactly these three
fields, and `handleMessage` dispatches on the trimmed message type and the trimmed payload;
the payload may hold any character. -/
theorem frame_round_trip (host : Host) (senderLabel messageType payload : GoString)
    (hs : ':' ∉ senderLabel) (ht : ':' ∉ messageType) :
    SplitN (senderLabel ++ ":".toList ++ messageType ++ ":".toList ++ payload) ':' 3
        = [senderLabel, messageType, payload]
      ∧ handleMessage host
            (senderLabel ++ ":".toList ++ messageType ++ ":".toList ++ payload)
          = dispatch host (TrimSpace messageType) (TrimSpace payload) := by
  have hfmt : senderLabel ++ ":".toList ++ messageType ++ ":".toList ++ payload
      = senderLabel ++ ':' :: (messageType ++ ':' :: payload) := by simp
  have hsplit := SplitN_three_append ':' senderLabel messageType payload hs ht
  rw [hfmt]
  exact ⟨hsplit, handleMessage_of_parts host _ _ _ _ hsplit⟩

theorem frame_round_trip_witness :
    ':' ∉ "node-42".toList ∧ ':' ∉ " cmd".toList
      ∧ SplitN ("node-42".toList ++ ":".toList ++ " cmd".toList ++ ":".toList
            ++ " date: now".toList) ':' 3
          = ["node-42".toList, " cmd".toList, " date: now".toList]
      ∧ handleMessage echoHost ("node-42".toList ++ ":".toList ++ " cmd".toList ++ ":".toList
            ++ " date: now".toList)
          = dispatch echoHost (TrimSpace " cmd".toList) (TrimSpace " date: now".toList) :=
  ⟨by decide, by decide,
    frame_round_trip echoHost "node-42".toList " cmd".toList " date: now".toList
      (by decide) (by decide)⟩

/-- The two conditions of the amended round trip are needed: whenever the formatted frame is
read back with the original payload (trimmed), neither the sender label nor the message type
holds a ':'. -/
theorem frame_round_trip_only_if (senderLabel messageType payload p0 p1 p2 : GoString)
    (h : SplitN (senderLabel ++ ":".toList ++ messageType ++ ":".toList ++ payload) ':' 3
      = [p0, p1, p2])
    (h2 : TrimSpace p2 = TrimSpace payload) :
    ':' ∉ senderLabel ∧ ':' ∉ messageType := by
  obtain ⟨hs, hp0, hp1⟩ := parts_of_SplitN_three _ p0 p1 p2 h
  have hc := congrArg (fun l => List.count ':' l) hs
  simp only [String.toList, List.count_append, List.count_cons_self, List.count_nil,
    List.count_eq_zero_of_not_mem hp0, List.count_eq_zero_of_not_mem hp1] at hc
  have e2 : List.count ':' p2 = List.count ':' payload := by
    have e := Count_TrimSpace_colon p2
    rw [h2, Count_TrimSpace_colon payload] at e
    exact e.symm
  have hz : List.count ':' senderLabel + List.count ':' messageType = 0 := by
    omega
  constructor
  · exact List.count_eq_zero.mp (by omega)
  · exact List.count_eq_zero.mp (by omega)

/-- C5 fails as stated: in "n1:cmd: a:b " the remainder after the second ':' is " a:b ",
which holds a ':', but the content that is dispatched and run is "a:b", not the remainder
character for character. -/
theorem payload_with_delimiter_is_not_verbatim :
    SplitN "n1:cmd: a:b ".toList ':' 3 = ["n1".toList, "cmd".toList, " a:b ".toList]
      ∧ ':' ∈ " a:b ".toList
      ∧ handleMessage echoHost "n1:cmd: a:b ".toList
          = dispatch echoHost "cmd".toList "a:b".toList
      ∧ "a:b".toList ≠ " a:b ".toList
      ∧ Event.exec "a:b".toList [] ∈ handleMessage echoHost "n1:cmd: a:b ".toList
      ∧ Event.exec " a:b ".toList [] ∉ handleMessage echoHost "n1:cmd: a:b ".toList := by
  refine ⟨by decide, by decide, by decide, by decide, by decide, by decide⟩

/-- C5, amended: when the third part of a frame holds a ':', the content that `handleMessage`
dispatches is the whole remainder after the second ':' with only its leading and trailing
white space removed: it is not split further, it keeps every ':' of the remainder, and it is
the remainder character for character exactly when the remainder has no white space at
either end. -/
theorem payload_with_delimiter_is_trimmed_remainder (host : Host)
    (messageText p0 p1 p2 : GoString) (h : SplitN messageText ':' 3 = [p0, p1, p2])
    (hp : ':' ∈ p2) :
    messageText = p0 ++ ":".toList ++ p1 ++ ":".toList ++ p2 ∧ ':' ∉ p0 ∧ ':' ∉ p1
      ∧ handleMessage host messageText = dispatch host (TrimSpace p1) (TrimSpace p2)
      ∧ Trimmed p2 (TrimSpace p2)
      ∧ ':' ∈ TrimSpace p2
      ∧ Count (TrimSpace p2) ':' = Count p2 ':'
      ∧ (TrimSpace p2 = p2 ↔ (∀ c, p2.head? = some c → unicode.IsSpace c = false)
          ∧ (∀ c, p2.getLast? = some c → unicode.IsSpace c = false)) := by
  obtain ⟨hs, h0, h1⟩ := parts_of_SplitN_three messageText p0 p1 p2 h
  refine ⟨by rw [hs]; simp, h0, h1, handleMessage_of_parts host messageText p0 p1 p2 h,
    Trimmed_TrimSpace p2, ?_, Count_TrimSpace_colon p2, TrimSpace_eq_self_iff p2⟩
  have hc : 0 < Count (TrimSpace p2) ':' := by
    rw [Count_TrimSpace_colon]
    exact List.count_pos_iff.mpr hp
  exact List.count_pos_iff.mp hc

theorem payload_with_delimiter_is_trimmed_remainder_witness :
    SplitN "n1:cmd: a:b ".toList ':' 3 = ["n1".toList, "cmd".toList, " a:b ".toList]
      ∧ ':' ∈ " a:b ".toList
      ∧ "n1:cmd: a:b ".toList
          = "n1".toList ++ ":".toList ++ "cmd".toList ++ ":".toList ++ " a:b ".toList
      ∧ ':' ∉ "n1".toList ∧ ':' ∉ "cmd".toList
      ∧ handleMessage echoHost "n1:cmd: a:b ".toList
          = dispatch echoHost (TrimSpace "cmd".toList) (TrimSpace " a:b ".toList)
      ∧ Trimmed " a:b ".toList (TrimSpace " a:b ".toList)
      ∧ ':' ∈ TrimSpace " a:b ".toList
      ∧ Count (TrimSpace " a:b ".toList) ':' = Count " a:b ".toList ':'
      ∧ (TrimSpace " a:b ".toList = " a:b ".toList
          ↔ (∀ c, " a:b ".toList.head? = some c → unicode.IsSpace c = false)
            ∧ (∀ c, " a:b ".toList.getLast? = some c → unicode.IsSpace c = false)) :=
  ⟨by decide, by decide,
    payload_with_delimiter_is_trimmed_remainder echoHost "n1:cmd: a:b ".toList "n1".toList
      "cmd".toList " a:b ".toList (by decide) (by decide)⟩

/-! ## The agent: command execution and the result message -/

theorem publicKey_decodes :
    (hex.DecodeString ("04".toList ++ publicKey)).2 = none ∧ pubKeyBytes.head? = some 4 := by
  decide

/-- The configured controller key is a well-formed uncompressed point: 65 bytes, both
coordinates below the field prime, and the curve equation `y² = x³ + 7` holds; a faithful
`crypto.UnmarshalPubkey` therefore accepts it. -/
theorem publicKey_on_curve :
    pubKeyBytes.length = 65
      ∧ bigEndian ((pubKeyBytes.drop 1).take 32) < secp256k1P
      ∧ bigEndian (pubKeyBytes.drop 33) < secp256k1P
      ∧ (bigEndian (pubKeyBytes.drop 33) * bigEndian (pubKeyBytes.drop 33)) % secp256k1P
          = (bigEndian ((pubKeyBytes.drop 1).take 32) ^ 3 + 7) % secp256k1P := by
  decide

theorem write_eq (host : Host) (msgContent : GoString) :
    write host msgContent =
      match host.UnmarshalPubkey pubKeyBytes with
      | none => [Event.log LogLevel.LogFatal "Failed to unmarshal public key"]
      | some pubKey =>
        match host.Encode (resultPayload host pubKey msgContent) 1 with
        | none => [Event.log LogLevel.LogFatal "Failed to encode payload"]
        | some encodedPayload =>
          [Event.publish
            { Payload := encodedPayload
              Version := 1
              ContentTopic := contentTopic
              Timestamp := host.Timestamp }] := by
  have h2 := publicKey_decodes.1
  have h1 : (hex.DecodeString ("04".toList ++ publicKey)).1.head? = some 4 :=
    publicKey_decodes.2
  unfold write pubKeyBytes resultPayload
  simp only [h2, h1]
  cases host.UnmarshalPubkey (hex.DecodeString ("04".toList ++ publicKey)).1 with
  | none => rfl
  | some pubKey =>
    simp only [ne_eq, not_true_eq_false, if_false]
    cases host.Encode
        { Data := host.ID ++ ": ".toList ++ msgContent
          Key := { Kind := KeyKind.Asymmetric, SymKey := [], PubKey := some pubKey } } 1 with
    | none => rfl
    | some encodedPayload => rfl

theorem write_no_exec (host : Host) (msgContent : GoString) :
    (write host msgContent).any Event.isExec = false := by
  rw [write_eq]
  repeat' split
  all_goals rfl

theorem write_publishes_iff (host : Host) (msgContent : GoString) :
    (write host msgContent).any Event.isPublish = true ↔ host.canEncode msgContent = true := by
  rw [write_eq]
  unfold Host.canEncode
  cases host.UnmarshalPubkey pubKeyBytes with
  | none => simp [Event.isPublish]
  | some pubKey =>
    simp only []
    cases host.Encode (resultPayload host pubKey msgContent) 1 with
    | none => simp [Event.isPublish]
    | some encodedPayload => simp [Event.isPublish]

theorem mem_write_publish (host : Host) (msgContent : GoString) (msg : WakuMessage)
    (h : Event.publish msg ∈ write host msgContent) :
    ∃ pubKey, host.UnmarshalPubkey pubKeyBytes = some pubKey
      ∧ host.Encode (resultPayload host pubKey msgContent) 1 = some msg.Payload := by
  rw [write_eq] at h
  cases hk : host.UnmarshalPubkey pubKeyBytes with
  | none => simp [hk] at h
  | some pubKey =>
    cases he : host.Encode (resultPayload host pubKey msgContent) 1 with
    | none => simp [hk, he] at h
    | some encodedPayload =>
      simp only [hk, he, List.mem_singleton, Event.publish.injEq] at h
      refine ⟨pubKey, rfl, ?_⟩
      rw [h]
      exact he

theorem dispatch_cmd (host : Host) (messageContent : GoString) :
    dispatch host "cmd".toList messageContent
      = Event.log LogLevel.LogInfo "Command message detected, processing..."
          :: Event.exec messageContent []
          :: write host (TrimSpace (host.Run messageContent []).stdout) := by
  simp [dispatch, handleCmd]

theorem dispatch_other (host : Host) (messageType messageContent : GoString)
    (h : messageType ≠ "cmd".toList) :
    dispatch host messageType messageContent
      = [Event.log LogLevel.LogInfo "Received an unsupported message type."] := by
  unfold dispatch
  rw [if_neg h]

theorem echoHost_canEncode (msgContent : GoString) : echoHost.canEncode msgContent = true := by
  simp [Host.canEncode, echoHost]

/-- C6: for a text that splits into three parts, a child process is started if and only if
the trimmed message type is exactly "cmd", and a result is published if and only if the
trimmed message type is exactly "cmd" and the two library steps of `write` (unmarshalling
the controller key, encrypting the payload) succeed; so on a host where these steps succeed
the agent executes and publishes if and only if the type is "cmd".  Any other type only logs
"unsupported": nothing is executed and nothing is published. -/
theorem handleMessage_executes_and_publishes_iff_cmd (host : Host)
    (messageText p0 p1 p2 : GoString) (h : SplitN messageText ':' 3 = [p0, p1, p2]) :
    ((handleMessage host messageText).any Event.isExec = true ↔ TrimSpace p1 = "cmd".toList)
      ∧ ((handleMessage host messageText).any Event.isPublish = true ↔
          TrimSpace p1 = "cmd".toList
            ∧ host.canEncode (TrimSpace (host.Run (TrimSpace p2) []).stdout) = true)
      ∧ ((∀ c, host.canEncode c = true) →
          ((handleMessage host messageText).any Event.isExec = true
              ∧ (handleMessage host messageText).any Event.isPublish = true
            ↔ TrimSpace p1 = "cmd".toList))
      ∧ (TrimSpace p1 ≠ "cmd".toList →
          handleMessage host messageText
            = [Event.log LogLevel.LogInfo "Received an unsupported message type."]) := by
  rw [handleMessage_of_parts host messageText p0 p1 p2 h]
  by_cases hc : TrimSpace p1 = "cmd".toList
  · rw [hc, dispatch_cmd]
    have hex : (Event.log LogLevel.LogInfo "Command message detected, processing..."
        :: Event.exec (TrimSpace p2) []
        :: write host (TrimSpace (host.Run (TrimSpace p2) []).stdout)).any Event.isExec
          = true := by
      simp [Event.isExec]
    have hpub : (Event.log LogLevel.LogInfo "Command message detected, processing..."
        :: Event.exec (TrimSpace p2) []
        :: write host (TrimSpace (host.Run (TrimSpace p2) []).stdout)).any Event.isPublish
          = (write host (TrimSpace (host.Run (TrimSpace p2) []).stdout)).any
              Event.isPublish := by
      simp [Event.isPublish]
    refine ⟨by simp only [hex], ?_, ?_, fun hne => absurd rfl hne⟩
    · rw [hpub, write_publishes_iff]
      simp
    · intro hall
      rw [hpub, hex, write_publishes_iff, hall]
      simp
  · rw [dispatch_other host _ _ hc]
    have hx : [Event.log LogLevel.LogInfo "Received an unsupported message type."].any
        Event.isExec = false := rfl
    have hp : [Event.log LogLevel.LogInfo "Received an unsupported message type."].any
        Event.isPublish = false := rfl
    refine ⟨?_, ?_, ?_, fun _ => rfl⟩
    · rw [hx]
      exact ⟨fun hf => absurd hf (by decide), fun ht => absurd ht hc⟩
    · rw [hp]
      exact ⟨fun hf => absurd hf (by decide), fun ht => absurd ht.1 hc⟩
    · intro _
      rw [hx]
      exact ⟨fun hf => absurd hf.1 (by decide), fun ht => absurd ht hc⟩

theorem handleMessage_executes_and_publishes_iff_cmd_witness :
    SplitN "n1: cmd :echo".toList ':' 3 = ["n1".toList, " cmd ".toList, "echo".toList]
      ∧ (∀ c, echoHost.canEncode c = true)
      ∧ ((handleMessage echoHost "n1: cmd :echo".toList).any Event.isExec = true
            ∧ (handleMessage echoHost "n1: cmd :echo".toList).any Event.isPublish = true
          ↔ TrimSpace " cmd ".toList = "cmd".toList) :=
  ⟨by decide, echoHost_canEncode,
    (handleMessage_executes_and_publishes_iff_cmd echoHost "n1: cmd :echo".toList "n1".toList
      " cmd ".toList "echo".toList (by decide)).2.2.1 echoHost_canEncode⟩

/-- C7: for a frame whose trimmed message type is "cmd", the content handed to `write` is
the captured standard output of the child process with its surrounding white space removed
and nothing else changed; every message that is published is the encryption of the agent's
identifier, ": " and that content, and it is published whenever the library steps of `write`
succeed. -/
theorem result_content_is_trimmed_stdout (host : Host) (messageText p0 p1 p2 : GoString)
    (h : SplitN messageText ':' 3 = [p0, p1, p2]) (hcmd : TrimSpace p1 = "cmd".toList) :
    handleMessage host messageText
        = Event.log LogLevel.LogInfo "Command message detected, processing..."
            :: Event.exec (TrimSpace p2) []
            :: write host (TrimSpace (host.Run (TrimSpace p2) []).stdout)
      ∧ Trimmed (host.Run (TrimSpace p2) []).stdout
          (TrimSpace (host.Run (TrimSpace p2) []).stdout)
      ∧ (∀ msg, Event.publish msg ∈ handleMessage host messageText →
          ∃ pubKey, host.UnmarshalPubkey pubKeyBytes = some pubKey
            ∧ host.Encode
                { Data := host.ID ++ ": ".toList
                    ++ TrimSpace (host.Run (TrimSpace p2) []).stdout
                  Key := { Kind := KeyKind.Asymmetric, SymKey := [], PubKey := some pubKey } }
                1 = some msg.Payload)
      ∧ (host.canEncode (TrimSpace (host.Run (TrimSpace p2) []).stdout) = true →
          ∃ msg, Event.publish msg ∈ handleMessage host messageText) := by
  have heq : handleMessage host messageText
      = Event.log LogLevel.LogInfo "Command message detected, processing..."
          :: Event.exec (TrimSpace p2) []
          :: write host (TrimSpace (host.Run (TrimSpace p2) []).stdout) := by
    rw [handleMessage_of_parts host messageText p0 p1 p2 h, hcmd, dispatch_cmd]
  refine ⟨heq, Trimmed_TrimSpace _, ?_, ?_⟩
  · intro msg hm
    rw [heq] at hm
    simp only [List.mem_cons, reduceCtorEq, false_or] at hm
    exact mem_write_publish host _ msg hm
  · intro hcan
    have hp := (write_publishes_iff host _).mpr hcan
    rw [List.any_eq_true] at hp
    obtain ⟨e, he, hpub⟩ := hp
    cases e with
    | publish msg => exact ⟨msg, by rw [heq]; simp [he]⟩
    | _ => simp [Event.isPublish] at hpub

theorem result_content_is_trimmed_stdout_witness :
    SplitN "n1:cmd:echo".toList ':' 3 = ["n1".toList, "cmd".toList, "echo".toList]
      ∧ TrimSpace "cmd".toList = "cmd".toList
      ∧ handleMessage echoHost "n1:cmd:echo".toList
          = Event.log LogLevel.LogInfo "Command message detected, processing..."
              :: Event.exec (TrimSpace "echo".toList) []
              :: write echoHost (TrimSpace (echoHost.Run (TrimSpace "echo".toList) []).stdout)
      ∧ Trimmed (echoHost.Run (TrimSpace "echo".toList) []).stdout
          (TrimSpace (echoHost.Run (TrimSpace "echo".toList) []).stdout)
      ∧ (∀ msg, Event.publish msg ∈ handleMessage echoHost "n1:cmd:echo".toList →
          ∃ pubKey, echoHost.UnmarshalPubkey pubKeyBytes = some pubKey
            ∧ echoHost.Encode
                { Data := echoHost.ID ++ ": ".toList
                    ++ TrimSpace (echoHost.Run (TrimSpace "echo".toList) []).stdout
                  Key := { Kind := KeyKind.Asymmetric, SymKey := [], PubKey := some pubKey } }
                1 = some msg.Payload)
      ∧ (echoHost.canEncode (TrimSpace (echoHost.Run (TrimSpace "echo".toList) []).stdout)
            = true →
          ∃ msg, Event.publish msg ∈ handleMessage echoHost "n1:cmd:echo".toList) :=
  ⟨by decide, by decide,
    result_content_is_trimmed_stdout echoHost "n1:cmd:echo".toList "n1".toList "cmd".toList
      "echo".toList (by decide) (by decide)⟩

/-- C8 fails as stated: on a host whose only program is `echo`, the text
"node-42: cmd: echo hi" starts one child process whose program name is the whole payload
"echo hi", with no arguments; no `echo` with argument `hi` is started, the captured output is
empty, and the published result has the empty content, not "hi". -/
theorem echo_hi_is_run_as_one_program_name :
    handleMessage echoHost "node-42: cmd: echo hi".toList
        = [Event.log LogLevel.LogInfo "Command message detected, processing...",
            Event.exec "echo hi".toList [],
            Event.publish
              { Payload := ("16Uiu2HAm: ".toList ++ "".toList).map Char.toNat
                Version := 1
                ContentTopic := contentTopic
                Timestamp := 0 }]
      ∧ Event.exec "echo".toList ["hi".toList] ∉ handleMessage echoHost "node-42: cmd: echo hi".toList
      ∧ TrimSpace (echoHost.Run "echo hi".toList []).stdout = "".toList
      ∧ TrimSpace (echoHost.Run "echo hi".toList []).stdout ≠ "hi".toList
      ∧ TrimSpace (echoHost.Run "echo".toList ["hi".toList]).stdout = "hi".toList := by
  refine ⟨by decide, by decide, by decide, by decide, by decide⟩

/-! ## The agent: bootstrap address resolution -/

/-- C9: with a non-empty manual bootstrap address, whatever the registry would do,
`parseCommandLineArgs` returns the one-element list holding that address unchanged and
causes no event at all, in particular none of the three steps of the registry lookup. -/
theorem manual_address_takes_precedence (botAddress bootstrapAddress : GoString)
    (reg : Registry) (h : bootstrapAddress ≠ []) :
    (parseCommandLineArgs botAddress bootstrapAddress reg).value
        = some (botAddress, [bootstrapAddress])
      ∧ (parseCommandLineArgs botAddress bootstrapAddress reg).trace = []
      ∧ (parseCommandLineArgs botAddress bootstrapAddress reg).trace.any Event.isRegistry
          = false := by
  have hres : parseCommandLineArgs botAddress bootstrapAddress reg
      = ⟨[], some (botAddress, [bootstrapAddress])⟩ := by
    unfold parseCommandLineArgs
    rw [if_neg h]
  rw [hres]
  exact ⟨rfl, rfl, rfl⟩

theorem manual_address_takes_precedence_witness :
    "addr1".toList ≠ []
      ∧ (parseCommandLineArgs "0.0.0.0:60001".toList "addr1".toList
            ⟨false, false, some ["addr2".toList, "addr3".toList]⟩).value
          = some ("0.0.0.0:60001".toList, ["addr1".toList])
      ∧ (parseCommandLineArgs "0.0.0.0:60001".toList "addr1".toList
            ⟨false, false, some ["addr2".toList, "addr3".toList]⟩).trace = []
      ∧ (parseCommandLineArgs "0.0.0.0:60001".toList "addr1".toList
            ⟨false, false, some ["addr2".toList, "addr3".toList]⟩).trace.any Event.isRegistry
          = false :=
  ⟨by decide,
    manual_address_takes_precedence "0.0.0.0:60001".toList "addr1".toList
      ⟨false, false, some ["addr2".toList, "addr3".toList]⟩ (by decide)⟩

/-- C10: with an empty manual bootstrap address, when the three steps of the registry lookup
succeed and the registry returns a non-empty list, `parseCommandLineArgs` returns exactly
that list: same elements, same length, same order. -/
theorem registry_list_is_returned_unmodified (botAddress : GoString) (reg : Registry)
    (addresses : List GoString) (hd : reg.dialFails = false) (hb : reg.bindFails = false)
    (ha : reg.addresses = some addresses) (hne : addresses ≠ []) :
    (fetchBootstrapAddressesFromContract reg).value = some addresses
      ∧ (parseCommandLineArgs botAddress [] reg).value = some (botAddress, addresses) := by
  have hlen : 0 < addresses.length := List.length_pos.mpr hne
  simp [parseCommandLineArgs, fetchBootstrapAddressesFromContract, hd, hb, ha, hlen]

theorem registry_list_is_returned_unmodified_witness :
    (⟨false, false, some ["addr2".toList, "addr3".toList]⟩ : Registry).dialFails = false
      ∧ (⟨false, false, some ["addr2".toList, "addr3".toList]⟩ : Registry).bindFails = false
      ∧ (⟨false, false, some ["addr2".toList, "addr3".toList]⟩ : Registry).addresses
          = some ["addr2".toList, "addr3".toList]
      ∧ ["addr2".toList, "addr3".toList] ≠ []
      ∧ (fetchBootstrapAddressesFromContract
            ⟨false, false, some ["addr2".toList, "addr3".toList]⟩).value
          = some ["addr2".toList, "addr3".toList]
      ∧ (parseCommandLineArgs "0.0.0.0:60001".toList []
            ⟨false, false, some ["addr2".toList, "addr3".toList]⟩).value
          = some ("0.0.0.0:60001".toList, ["addr2".toList, "addr3".toList]) :=
  ⟨rfl, rfl, rfl, by decide,
    registry_list_is_returned_unmodified "0.0.0.0:60001".toList
      ⟨false, false, some ["addr2".toList, "addr3".toList]⟩
      ["addr2".toList, "addr3".toList] rfl rfl rfl (by decide)⟩

/-- C11: `parseCommandLineArgs` ends the process if and only if the manual address is empty
and the registry lookup fails at one of its three steps (client connection, contract binding,
read call) or returns the empty list; the trace then ends in a fatal event, and whenever a
value is returned its candidate list is not empty. -/
theorem address_resolution_fails_iff (botAddress bootstrapAddress : GoString)
    (reg : Registry) :
    ((parseCommandLineArgs botAddress bootstrapAddress reg).value = none ↔
        bootstrapAddress = [] ∧ (reg.dialFails = true ∨ reg.bindFails = true
          ∨ reg.addresses = none ∨ reg.addresses = some []))
      ∧ ((parseCommandLineArgs botAddress bootstrapAddress reg).trace.any Event.isFatal = true
          ↔ (parseCommandLineArgs botAddress bootstrapAddress reg).value = none)
      ∧ (∀ r, (parseCommandLineArgs botAddress bootstrapAddress reg).value = some r →
          r.1 = botAddress ∧ r.2 ≠ []) := by
  obtain ⟨dialFails, bindFails, addresses⟩ := reg
  by_cases hb : bootstrapAddress = []
  · subst hb
    cases dialFails
    · cases bindFails
      · cases addresses with
        | none =>
          simp [parseCommandLineArgs, fetchBootstrapAddressesFromContract, Event.isFatal]
        | some l =>
          cases l with
          | nil =>
            simp [parseCommandLineArgs, fetchBootstrapAddressesFromContract, Event.isFatal]
          | cons a l =>
            have hmap : ∀ xs : List GoString,
                (xs.map Event.print).any Event.isFatal = false := by
              intro xs
              simp [Event.isFatal]
            have hm := hmap l
            simp only [List.any_map] at hm
            simp [parseCommandLineArgs, fetchBootstrapAddressesFromContract, Event.isFatal, hm]
      · simp [parseCommandLineArgs, fetchBootstrapAddressesFromContract, Event.isFatal]
    · simp [parseCommandLineArgs, fetchBootstrapAddressesFromContract, Event.isFatal]
  · simp [parseCommandLineArgs, hb]

theorem address_resolution_fails_iff_witness :
    (parseCommandLineArgs "0.0.0.0:60001".toList []
          ⟨false, false, some ["addr2".toList]⟩).value
        = some ("0.0.0.0:60001".toList, ["addr2".toList])
      ∧ ("0.0.0.0:60001".toList, ["addr2".toList]).1 = "0.0.0.0:60001".toList
      ∧ ("0.0.0.0:60001".toList, ["addr2".toList]).2 ≠ [] :=
  ⟨rfl,
    (address_resolution_fails_iff "0.0.0.0:60001".toList []
      ⟨false, false, some ["addr2".toList]⟩).2.2 ("0.0.0.0:60001".toList, ["addr2".toList]) rfl⟩

/-! ## The agent: connecting to a bootstrap node -/

theorem attempted_append (t u : List Event) : attempted (t ++ u) = attempted t ++ attempted u := by
  simp [attempted, List.filterMap_append]

/-- A candidate whose attempt fails at some step costs a few events, none of them fatal, and
the loop goes on with the next candidate. -/
theorem subscribeFrom_cons_of_fails (net : Transport) (i : Nat) (address : GoString)
    (rest : List GoString) (h : (net i).connects = false) :
    ∃ pre, subscribeFrom net i (address :: rest)
          = Outcome.after pre (subscribeFrom net (i + 1) rest)
      ∧ attempted pre = [address] ∧ pre.any Event.isFatal = false := by
  by_cases hp : (net i).parses = false
  · exact ⟨[Event.newMultiaddr address,
        Event.log LogLevel.LogError "Error parsing bootstrap node multiaddr: "],
      by rw [subscribeFrom, if_pos hp], rfl, rfl⟩
  · by_cases ha : (net i).added = false
    · exact ⟨[Event.newMultiaddr address, Event.addPeer address,
          Event.log LogLevel.LogError "Error adding filter peer on light node: "],
        by rw [subscribeFrom, if_neg hp, if_pos ha], rfl, rfl⟩
    · have hs : (net i).subscribed = none := by
        simp only [Bool.not_eq_false] at hp ha
        simpa [Attempt.connects, hp, ha] using h
      refine ⟨[Event.newMultiaddr address, Event.addPeer address, Event.subscribe cf,
        Event.log LogLevel.LogError "Error subscribing: "], ?_, rfl, rfl⟩
      rw [subscribeFrom, if_neg hp, if_neg ha]
      simp only [hs]

/-- A candidate whose three steps succeed ends the loop with its subscription. -/
theorem subscribeFrom_cons_of_connects (net : Transport) (i : Nat) (address : GoString)
    (rest : List GoString) (h : (net i).connects = true) :
    subscribeFrom net i (address :: rest)
      = ⟨[Event.newMultiaddr address, Event.addPeer address, Event.subscribe cf],
          (net i).subscribed⟩ := by
  simp only [Attempt.connects, Bool.and_eq_true] at h
  obtain ⟨⟨hp, ha⟩, hs⟩ := h
  obtain ⟨filter, hf⟩ := Option.isSome_iff_exists.mp hs
  rw [subscribeFrom]
  simp [hp, ha, hf]

theorem subscribeFrom_all_fail (net : Transport) (addrs : List GoString) :
    ∀ i, (∀ j, j < addrs.length → (net (i + j)).connects = false) →
      (subscribeFrom net i addrs).value = none
        ∧ attempted (subscribeFrom net i addrs).trace = addrs
        ∧ (subscribeFrom net i addrs).trace.getLast?
            = some (Event.log LogLevel.LogFatal "Failed to connect to any bootstrap nodes") := by
  induction addrs with
  | nil =>
    intro i _
    exact ⟨rfl, rfl, rfl⟩
  | cons a rest ih =>
    intro i h
    have h0 : (net i).connects = false := by
      have := h 0 (by simp)
      simpa using this
    obtain ⟨pre, heq, hatt, -⟩ := subscribeFrom_cons_of_fails net i a rest h0
    have hrest : ∀ j, j < rest.length → (net (i + 1 + j)).connects = false := by
      intro j hj
      have := h (j + 1) (by simp; omega)
      rwa [show i + (j + 1) = i + 1 + j by omega] at this
    obtain ⟨hv, ht, hl⟩ := ih (i + 1) hrest
    rw [heq]
    refine ⟨hv, ?_, ?_⟩
    · simp only [Outcome.after, attempted_append, hatt, ht]
      rfl
    · simp only [Outcome.after]
      rw [List.getLast?_append, hl]
      rfl

theorem subscribeFrom_first_success (net : Transport) (addrs : List GoString) :
    ∀ i k, k < addrs.length → (net (i + k)).connects = true →
      (∀ j, j < k → (net (i + j)).connects = false) →
      (subscribeFrom net i addrs).value = (net (i + k)).subscribed
        ∧ attempted (subscribeFrom net i addrs).trace = addrs.take (k + 1)
        ∧ (subscribeFrom net i addrs).trace.any Event.isFatal = false := by
  induction addrs with
  | nil =>
    intro i k hk
    simp at hk
  | cons a rest ih =>
    intro i k hk hc hlt
    cases k with
    | zero =>
      rw [subscribeFrom_cons_of_connects net i a rest (by simpa using hc)]
      exact ⟨rfl, rfl, rfl⟩
    | succ k =>
      have h0 : (net i).connects = false := by
        have := hlt 0 (by omega)
        simpa using this
      obtain ⟨pre, heq, hatt, hnf⟩ := subscribeFrom_cons_of_fails net i a rest h0
      have hk2 : k < rest.length := by
        simp only [List.length_cons] at hk
        omega
      have hc2 : (net (i + 1 + k)).connects = true := by
        rwa [show i + (k + 1) = i + 1 + k by omega] at hc
      have hlt2 : ∀ j, j < k → (net (i + 1 + j)).connects = false := by
        intro j hj
        have := hlt (j + 1) (by omega)
        rwa [show i + (j + 1) = i + 1 + j by omega] at this
      obtain ⟨hv, ht, hf⟩ := ih (i + 1) k hk2 hc2 hlt2
      rw [heq]
      refine ⟨?_, ?_, ?_⟩
      · rw [show i + (k + 1) = i + 1 + k by omega]
        exact hv
      · simp only [Outcome.after, attempted_append, hatt, ht]
        rfl
      · simp only [Outcome.after, List.any_append, hnf, hf]
        rfl

theorem exists_first_connect (net : Transport) (n : Nat)
    (h : ∃ j, j < n ∧ (net j).connects = true) :
    ∃ k, k < n ∧ (net k).connects = true ∧ ∀ j, j < k → (net j).connects = false := by
  classical
  refine ⟨Nat.find h, (Nat.find_spec h).1, (Nat.find_spec h).2, ?_⟩
  intro j hj
  have hmin := Nat.find_min h hj
  have hjn : j < n := lt_trans hj (Nat.find_spec h).1
  cases hc : (net j).connects with
  | false => rfl
  | true => exact absurd ⟨hjn, hc⟩ hmin

theorem subscribeToNode_of_first_connect (net : Transport) (addrs : List GoString) (k : Nat)
    (hk : k < addrs.length) (hc : (net k).connects = true)
    (hlt : ∀ j, j < k → (net j).connects = false) :
    (subscribeToNode net addrs).value = (net k).subscribed
      ∧ attempted (subscribeToNode net addrs).trace = addrs.take (k + 1)
      ∧ (subscribeToNode net addrs).trace.any Event.isFatal = false := by
  have h := subscribeFrom_first_success net addrs 0 k hk (by simpa using hc)
    (fun j hj => by simpa using hlt j hj)
  simpa [subscribeToNode] using h

theorem subscribeToNode_of_all_fail (net : Transport) (addrs : List GoString)
    (h : ∀ j, j < addrs.length → (net j).connects = false) :
    (subscribeToNode net addrs).value = none
      ∧ attempted (subscribeToNode net addrs).trace = addrs
      ∧ (subscribeToNode net addrs).trace.getLast?
          = some (Event.log LogLevel.LogFatal "Failed to connect to any bootstrap nodes") := by
  have h2 := subscribeFrom_all_fail net addrs 0 (fun j hj => by simpa using h j hj)
  simpa [subscribeToNode] using h2

/-- C12: whenever some candidate connects, `subscribeToNode` tries the candidates in list
order, tries exactly the candidates up to and including the first one that connects, and
returns the subscription obtained for that one; no later candidate is tried.  On the list
"bad1", "bad2", "good", "bad3" with only the third position connecting, it tries "bad1",
"bad2" and "good", and never "bad3". -/
theorem subscribeToNode_short_circuit :
    (∀ (net : Transport) (bootstrapAddresses : List GoString),
        (∃ j, j < bootstrapAddresses.length ∧ (net j).connects = true) →
        ∃ k filter, k < bootstrapAddresses.length
          ∧ (net k).connects = true ∧ (∀ j, j < k → (net j).connects = false)
          ∧ (net k).subscribed = some filter
          ∧ (subscribeToNode net bootstrapAddresses).value = some filter
          ∧ attempted (subscribeToNode net bootstrapAddresses).trace
              = bootstrapAddresses.take (k + 1))
      ∧ (∀ j, (thirdOnly j).connects = true ↔ j = 2)
      ∧ attempted (subscribeToNode thirdOnly
            ["bad1".toList, "bad2".toList, "good".toList, "bad3".toList]).trace
          = ["bad1".toList, "bad2".toList, "good".toList]
      ∧ (subscribeToNode thirdOnly
            ["bad1".toList, "bad2".toList, "good".toList, "bad3".toList]).value = some 7
      ∧ Event.newMultiaddr "bad3".toList ∉ (subscribeToNode thirdOnly
            ["bad1".toList, "bad2".toList, "good".toList, "bad3".toList]).trace := by
  refine ⟨?_, ?_, by decide, by decide, by decide⟩
  · intro net addrs h
    obtain ⟨k, hk, hc, hlt⟩ := exists_first_connect net addrs.length h
    have hs : (net k).subscribed.isSome = true := by
      simp only [Attempt.connects, Bool.and_eq_true] at hc
      exact hc.2
    obtain ⟨filter, hf⟩ := Option.isSome_iff_exists.mp hs
    obtain ⟨hv, ha, -⟩ := subscribeToNode_of_first_connect net addrs k hk hc hlt
    exact ⟨k, filter, hk, hc, hlt, hf, by rw [hv, hf], ha⟩
  · intro j
    by_cases hj : j = 2
    · subst hj
      simp [thirdOnly, Attempt.connects]
    · simp [thirdOnly, Attempt.connects, hj]

theorem subscribeToNode_short_circuit_witness :
    (∃ j, j < ["bad1".toList, "bad2".toList, "good".toList, "bad3".toList].length
        ∧ (thirdOnly j).connects = true)
      ∧ ∃ k filter, k < ["bad1".toList, "bad2".toList, "good".toList, "bad3".toList].length
          ∧ (thirdOnly k).connects = true ∧ (∀ j, j < k → (thirdOnly j).connects = false)
          ∧ (thirdOnly k).subscribed = some filter
          ∧ (subscribeToNode thirdOnly
                ["bad1".toList, "bad2".toList, "good".toList, "bad3".toList]).value
              = some filter
          ∧ attempted (subscribeToNode thirdOnly
                ["bad1".toList, "bad2".toList, "good".toList, "bad3".toList]).trace
              = ["bad1".toList, "bad2".toList, "good".toList, "bad3".toList].take (k + 1) :=
  ⟨⟨2, by decide, by decide⟩,
    subscribeToNode_short_circuit.1 thirdOnly
      ["bad1".toList, "bad2".toList, "good".toList, "bad3".toList]
      ⟨2, by decide, by decide⟩⟩

/-- C13: `subscribeToNode` ends the process with "Failed to connect to any bootstrap nodes"
if and only if no candidate of the list connects, which is the case for the empty list; the
fatal event comes only after every candidate has been tried, as the last event. -/
theorem subscribeToNode_fatal_iff_all_fail (net : Transport)
    (bootstrapAddresses : List GoString) :
    ((subscribeToNode net bootstrapAddresses).value = none
        ↔ ∀ j, j < bootstrapAddresses.length → (net j).connects = false)
      ∧ ((subscribeToNode net bootstrapAddresses).trace.any Event.isFatal = true
        ↔ ∀ j, j < bootstrapAddresses.length → (net j).connects = false)
      ∧ ((subscribeToNode net bootstrapAddresses).trace.any Event.isFatal = true →
          attempted (subscribeToNode net bootstrapAddresses).trace = bootstrapAddresses
            ∧ (subscribeToNode net bootstrapAddresses).trace.getLast?
              = some (Event.log LogLevel.LogFatal "Failed to connect to any bootstrap nodes"))
      ∧ (subscribeToNode net []).value = none := by
  by_cases hall : ∀ j, j < bootstrapAddresses.length → (net j).connects = false
  · obtain ⟨hv, ha, hl⟩ := subscribeToNode_of_all_fail net bootstrapAddresses hall
    have hfatal : (subscribeToNode net bootstrapAddresses).trace.any Event.isFatal = true := by
      rw [List.any_eq_true]
      exact ⟨_, List.mem_of_mem_getLast? hl, rfl⟩
    exact ⟨⟨fun _ => hall, fun _ => hv⟩, ⟨fun _ => hall, fun _ => hfatal⟩,
      fun _ => ⟨ha, hl⟩, rfl⟩
  · have hex : ∃ j, j < bootstrapAddresses.length ∧ (net j).connects = true := by
      by_contra hno
      apply hall
      intro j hj
      cases hc : (net j).connects with
      | false => rfl
      | true => exact absurd ⟨j, hj, hc⟩ hno
    obtain ⟨k, hk, hc, hlt⟩ := exists_first_connect net bootstrapAddresses.length hex
    obtain ⟨hv, -, hf⟩ := subscribeToNode_of_first_connect net bootstrapAddresses k hk hc hlt
    have hs : (net k).subscribed.isSome = true := by
      simp only [Attempt.connects, Bool.and_eq_true] at hc
      exact hc.2
    have hne : (subscribeToNode net bootstrapAddresses).value ≠ none := by
      rw [hv]
      intro hn
      rw [hn] at hs
      exact absurd hs (by decide)
    refine ⟨⟨fun h => absurd h hne, fun h => absurd h hall⟩,
      ⟨fun h => ?_, fun h => absurd h hall⟩, fun h => ?_, rfl⟩
    · rw [hf] at h
      exact absurd h (by decide)
    · rw [hf] at h
      exact absurd h (by decide)

theorem subscribeToNode_fatal_iff_all_fail_witness :
    (subscribeToNode (fun _ => ⟨true, false, none⟩)
          ["bad1".toList, "bad2".toList]).trace.any Event.isFatal = true
      ∧ attempted (subscribeToNode (fun _ => ⟨true, false, none⟩)
            ["bad1".toList, "bad2".toList]).trace = ["bad1".toList, "bad2".toList]
      ∧ (subscribeToNode (fun _ => ⟨true, false, none⟩)
            ["bad1".toList, "bad2".toList]).trace.getLast?
          = some (Event.log LogLevel.LogFatal "Failed to connect to any bootstrap nodes") :=
  ⟨by decide,
    (subscribeToNode_fatal_iff_all_fail (fun _ => ⟨true, false, none⟩)
      ["bad1".toList, "bad2".toList]).2.2.1 (by decide)⟩

/-! ## The agent: receiving, authenticating and handling one envelope -/

/-- The events of `write`: one fatal log line or one publication. -/
theorem write_cases (host : Host) (msgContent : GoString) :
    (host.canEncode msgContent = false ∧ ∃ text, write host msgContent
        = [Event.log LogLevel.LogFatal text])
      ∨ (host.canEncode msgContent = true ∧ ∃ msg, write host msgContent
        = [Event.publish msg]) := by
  rw [write_eq]
  unfold Host.canEncode
  cases host.UnmarshalPubkey pubKeyBytes with
  | none => exact Or.inl ⟨rfl, _, rfl⟩
  | some pubKey =>
    simp only []
    cases host.Encode (resultPayload host pubKey msgContent) 1 with
    | none => exact Or.inl ⟨rfl, _, rfl⟩
    | some encodedPayload => exact Or.inr ⟨rfl, _, rfl⟩

theorem write_fatal_iff (host : Host) (msgContent : GoString) :
    (write host msgContent).any Event.isFatal = true ↔ host.canEncode msgContent = false := by
  rcases write_cases host msgContent with ⟨hc, text, hw⟩ | ⟨hc, msg, hw⟩
  · rw [hw, hc]
    simp [Event.isFatal]
  · rw [hw, hc]
    simp [Event.isFatal]

/-- The three shapes of the trace of `handleMessage`. -/
theorem handleMessage_cases (host : Host) (messageText : GoString) :
    (Count messageText ':' < 2 ∧ handleMessage host messageText = ignored)
      ∨ (∃ p0 p1 p2, SplitN messageText ':' 3 = [p0, p1, p2] ∧ TrimSpace p1 ≠ "cmd".toList
          ∧ handleMessage host messageText
            = [Event.log LogLevel.LogInfo "Received an unsupported message type."])
      ∨ (∃ p0 p1 p2, SplitN messageText ':' 3 = [p0, p1, p2] ∧ TrimSpace p1 = "cmd".toList
          ∧ handleMessage host messageText
            = Event.log LogLevel.LogInfo "Command message detected, processing..."
                :: Event.exec (TrimSpace p2) []
                :: write host (TrimSpace (host.Run (TrimSpace p2) []).stdout)) := by
  by_cases hc : Count messageText ':' < 2
  · exact Or.inl ⟨hc, handleMessage_of_Count_lt host messageText hc⟩
  · obtain ⟨p0, p1, p2, hsplit, -⟩ :=
      SplitN_three_of_two_le_Count ':' messageText (by omega)
    by_cases ht : TrimSpace p1 = "cmd".toList
    · refine Or.inr (Or.inr ⟨p0, p1, p2, hsplit, ht, ?_⟩)
      rw [handleMessage_of_parts host messageText p0 p1 p2 hsplit, ht, dispatch_cmd]
    · refine Or.inr (Or.inl ⟨p0, p1, p2, hsplit, ht, ?_⟩)
      rw [handleMessage_of_parts host messageText p0 p1 p2 hsplit, dispatch_other host _ _ ht]

/-- The handler makes no decoding attempt and prints nothing. -/
theorem handleMessage_no_decode_no_print (host : Host) (messageText : GoString) :
    (handleMessage host messageText).filter Event.isDecode = []
      ∧ (handleMessage host messageText).filter Event.isPrint = [] := by
  rcases handleMessage_cases host messageText with ⟨-, h⟩ | ⟨p0, p1, p2, -, -, h⟩
    | ⟨p0, p1, p2, -, -, h⟩
  · rw [h]
    exact ⟨rfl, rfl⟩
  · rw [h]
    exact ⟨rfl, rfl⟩
  · rw [h]
    rcases write_cases host (TrimSpace (host.Run (TrimSpace p2) []).stdout) with
      ⟨-, text, hw⟩ | ⟨-, msg, hw⟩
    · rw [hw]
      exact ⟨rfl, rfl⟩
    · rw [hw]
      exact ⟨rfl, rfl⟩

/-- The handler ends the process exactly when it runs a command and `write` cannot unmarshal
the key or encode the result. -/
theorem handleMessage_fatal_iff (host : Host) (messageText : GoString) :
    (handleMessage host messageText).any Event.isFatal = true ↔
      ∃ p0 p1 p2, SplitN messageText ':' 3 = [p0, p1, p2] ∧ TrimSpace p1 = "cmd".toList
        ∧ host.canEncode (TrimSpace (host.Run (TrimSpace p2) []).stdout) = false := by
  rcases handleMessage_cases host messageText with ⟨hc, h⟩ | ⟨p0, p1, p2, hs, ht, h⟩
    | ⟨p0, p1, p2, hs, ht, h⟩
  · rw [h]
    constructor
    · intro hf
      exact absurd hf (by decide)
    · rintro ⟨q0, q1, q2, hq, -, -⟩
      have := SplitN_three_length_lt ':' messageText hc
      rw [hq] at this
      simp at this
  · rw [h]
    constructor
    · intro hf
      exact absurd hf (by decide)
    · rintro ⟨q0, q1, q2, hq, hcmd, -⟩
      rw [hs] at hq
      simp only [List.cons.injEq, and_true] at hq
      obtain ⟨-, e1, -⟩ := hq
      subst e1
      exact absurd hcmd ht
  · rw [h]
    have hany : (Event.log LogLevel.LogInfo "Command message detected, processing..."
        :: Event.exec (TrimSpace p2) []
        :: write host (TrimSpace (host.Run (TrimSpace p2) []).stdout)).any Event.isFatal
          = (write host (TrimSpace (host.Run (TrimSpace p2) []).stdout)).any
              Event.isFatal := by
      simp [Event.isFatal]
    rw [hany, write_fatal_iff]
    constructor
    · intro hf
      exact ⟨p0, p1, p2, hs, ht, hf⟩
    · rintro ⟨q0, q1, q2, hq, -, hf⟩
      rw [hs] at hq
      simp only [List.cons.injEq, and_true] at hq
      obtain ⟨-, -, e2⟩ := hq
      subst e2
      exact hf

theorem receive_of_decode_none (node : Node) (msg : WakuMessage)
    (hd : node.DecodePayload msg decodeKey = none) :
    receive node (some msg)
      = ⟨[Event.decode decodeKey, Event.log LogLevel.LogError "Error decoding payload: "],
          none⟩ := by
  simp only [receive, hd, checkError, if_true]

theorem receive_of_no_key (node : Node) (msg : WakuMessage) (d : DecodedPayload)
    (hd : node.DecodePayload msg decodeKey = some d) (hk : d.PubKey = none) :
    receive node (some msg)
      = ⟨[Event.decode decodeKey,
          Event.log LogLevel.LogInfo "Received message does not contain a public key."],
          none⟩ := by
  simp only [receive, hd, hk]

theorem receive_of_mismatch (node : Node) (msg : WakuMessage) (d : DecodedPayload)
    (k : PublicKey) (hd : node.DecodePayload msg decodeKey = some d) (hk : d.PubKey = some k)
    (hf : formatKey k ≠ publicKey) :
    receive node (some msg)
      = ⟨[Event.decode decodeKey, Event.log LogLevel.LogInfo "Public key mismatch."],
          none⟩ := by
  simp only [receive, hd, hk, ne_eq, hf, not_false_eq_true, if_true]

theorem receive_of_match (node : Node) (msg : WakuMessage) (d : DecodedPayload)
    (k : PublicKey) (hd : node.DecodePayload msg decodeKey = some d) (hk : d.PubKey = some k)
    (hf : formatKey k = publicKey) :
    receive node (some msg)
      = ⟨[Event.decode decodeKey,
          Event.print ("Filtered message received: ".toList ++ d.Data)], some d.Data⟩ := by
  simp only [receive, hd, hk, ne_eq, hf, not_true_eq_false, if_false]

/-- The receive loop hands a text to the handler exactly when the envelope decodes with the
symmetric key, the decoded payload carries a public key, and that key is printed as the
configured controller key; the text is the decoded data. -/
theorem receive_spawned_iff (node : Node) (msg : WakuMessage) (t : GoString) :
    (receive node (some msg)).spawned = some t ↔
      ∃ d k, node.DecodePayload msg decodeKey = some d ∧ d.PubKey = some k
        ∧ formatKey k = publicKey ∧ d.Data = t := by
  cases hd : node.DecodePayload msg decodeKey with
  | none =>
    rw [receive_of_decode_none node msg hd]
    simp
  | some d =>
    cases hk : d.PubKey with
    | none =>
      rw [receive_of_no_key node msg d hd hk]
      simp [hk]
    | some k =>
      by_cases hf : formatKey k = publicKey
      · rw [receive_of_match node msg d k hd hk hf]
        simp [hk, hf]
      · rw [receive_of_mismatch node msg d k hd hk hf]
        simp [hk, hf]

/-- The events of the receive loop itself for one envelope: one decoding attempt with the
symmetric key, then one log line or one printed line. -/
theorem receive_trace (node : Node) (msg : WakuMessage) :
    ∃ e, (receive node (some msg)).trace = [Event.decode decodeKey, e]
      ∧ e.isDecode = false ∧ e.isExec = false ∧ e.isPublish = false ∧ e.isFatal = false
      ∧ ((receive node (some msg)).spawned = none → e.isPrint = false) := by
  cases hd : node.DecodePayload msg decodeKey with
  | none =>
    rw [receive_of_decode_none node msg hd]
    exact ⟨_, rfl, rfl, rfl, rfl, rfl, fun _ => rfl⟩
  | some d =>
    cases hk : d.PubKey with
    | none =>
      rw [receive_of_no_key node msg d hd hk]
      exact ⟨_, rfl, rfl, rfl, rfl, rfl, fun _ => rfl⟩
    | some k =>
      by_cases hf : formatKey k = publicKey
      · rw [receive_of_match node msg d k hd hk hf]
        exact ⟨_, rfl, rfl, rfl, rfl, rfl, fun h => absurd h (by simp)⟩
      · rw [receive_of_mismatch node msg d k hd hk hf]
        exact ⟨_, rfl, rfl, rfl, rfl, rfl, fun _ => rfl⟩

theorem handleEnvelope_of_not_spawned (node : Node) (env : Option WakuMessage)
    (h : (receive node env).spawned = none) :
    handleEnvelope node env = (receive node env).trace := by
  simp only [handleEnvelope, h, List.append_nil]

theorem handleEnvelope_of_spawned (node : Node) (env : Option WakuMessage) (t : GoString)
    (h : (receive node env).spawned = some t) :
    handleEnvelope node env = (receive node env).trace ++ handleMessage node.toHost t := by
  simp only [handleEnvelope, h]

/-- C15: for every received message the agent makes exactly one decoding attempt, with the
shared symmetric key and no private key; when that attempt fails the only further effect is
one error log line: no second attempt, no handler, no command, no publication. -/
theorem agent_decodes_with_symmetric_key_only (node : Node) (msg : WakuMessage) :
    (handleEnvelope node (some msg)).filter Event.isDecode = [Event.decode decodeKey]
      ∧ decodeKey.Kind = KeyKind.Symmetric ∧ decodeKey.SymKey = symKey
      ∧ decodeKey.PrivKey = none
      ∧ (node.DecodePayload msg decodeKey = none →
          handleEnvelope node (some msg)
              = [Event.decode decodeKey,
                  Event.log LogLevel.LogError "Error decoding payload: "]
            ∧ (receive node (some msg)).spawned = none
            ∧ (handleEnvelope node (some msg)).any Event.isExec = false
            ∧ (handleEnvelope node (some msg)).any Event.isPublish = false) := by
  refine ⟨?_, rfl, rfl, rfl, ?_⟩
  · obtain ⟨e, htr, hdec, -⟩ := receive_trace node msg
    have h1 : (Event.decode decodeKey).isDecode = true := rfl
    cases hs : (receive node (some msg)).spawned with
    | none =>
      rw [handleEnvelope_of_not_spawned node _ hs, htr]
      simp only [List.filter, h1, hdec]
    | some t =>
      rw [handleEnvelope_of_spawned node _ t hs, htr, List.filter_append,
        (handleMessage_no_decode_no_print node.toHost t).1]
      simp only [List.filter, h1, hdec, List.append_nil]
  · intro hd
    have hr := receive_of_decode_none node msg hd
    have hs : (receive node (some msg)).spawned = none := by rw [hr]
    rw [handleEnvelope_of_not_spawned node _ hs, hr]
    exact ⟨rfl, rfl, rfl, rfl⟩

theorem agent_decodes_with_symmetric_key_only_witness :
    echoNode.DecodePayload { envelopeOf "n1:cmd:echo" with Version := 0 } decodeKey = none
      ∧ handleEnvelope echoNode (some { envelopeOf "n1:cmd:echo" with Version := 0 })
          = [Event.decode decodeKey, Event.log LogLevel.LogError "Error decoding payload: "]
      ∧ (receive echoNode (some { envelopeOf "n1:cmd:echo" with Version := 0 })).spawned = none
      ∧ (handleEnvelope echoNode
            (some { envelopeOf "n1:cmd:echo" with Version := 0 })).any Event.isExec = false
      ∧ (handleEnvelope echoNode
            (some { envelopeOf "n1:cmd:echo" with Version := 0 })).any Event.isPublish
          = false :=
  ⟨by decide,
    (agent_decodes_with_symmetric_key_only echoNode
      { envelopeOf "n1:cmd:echo" with Version := 0 }).2.2.2.2 (by decide)⟩

/-- C18: the agent starts `handleMessage` for a received message only if the message decoded,
the decoded payload carries a sender public key, and the text printed for that key equals
the configured controller key; the handler then gets the decoded data.  A message that does
not decode, or whose sender key is absent or different, causes no command execution and no
publication. -/
theorem agent_dispatches_only_controller_messages (node : Node) (msg : WakuMessage) :
    (∀ t, (receive node (some msg)).spawned = some t ↔
        ∃ d k, node.DecodePayload msg decodeKey = some d ∧ d.PubKey = some k
          ∧ formatKey k = publicKey ∧ d.Data = t)
      ∧ ((handleEnvelope node (some msg)).any Event.isExec = true
            ∨ (handleEnvelope node (some msg)).any Event.isPublish = true →
          ∃ d k, node.DecodePayload msg decodeKey = some d ∧ d.PubKey = some k
            ∧ formatKey k = publicKey)
      ∧ (∀ d, node.DecodePayload msg decodeKey = some d →
          (d.PubKey = none ∨ ∃ k, d.PubKey = some k ∧ formatKey k ≠ publicKey) →
          (receive node (some msg)).spawned = none
            ∧ (handleEnvelope node (some msg)).any Event.isExec = false
            ∧ (handleEnvelope node (some msg)).any Event.isPublish = false) := by
  have hquiet : (receive node (some msg)).spawned = none →
      (handleEnvelope node (some msg)).any Event.isExec = false
        ∧ (handleEnvelope node (some msg)).any Event.isPublish = false := by
    intro hs
    obtain ⟨e, htr, -, hex, hpub, -⟩ := receive_trace node msg
    rw [handleEnvelope_of_not_spawned node _ hs, htr]
    simp only [List.any_cons, List.any_nil, hex, hpub]
    exact ⟨rfl, rfl⟩
  refine ⟨receive_spawned_iff node msg, ?_, ?_⟩
  · intro h
    cases hs : (receive node (some msg)).spawned with
    | none =>
      obtain ⟨h1, h2⟩ := hquiet hs
      rw [h1, h2] at h
      exact absurd h (by decide)
    | some t =>
      obtain ⟨d, k, hd, hk, hf, -⟩ := (receive_spawned_iff node msg t).mp hs
      exact ⟨d, k, hd, hk, hf⟩
  · intro d hd hkey
    have hs : (receive node (some msg)).spawned = none := by
      rcases hkey with hk | ⟨k, hk, hf⟩
      · rw [receive_of_no_key node msg d hd hk]
      · rw [receive_of_mismatch node msg d k hd hk hf]
    exact ⟨hs, hquiet hs⟩

theorem agent_dispatches_only_controller_messages_witness :
    unsignedNode.DecodePayload (envelopeOf "n1:cmd:echo") decodeKey
        = some { Data := "n1:cmd:echo".toList, PubKey := none }
      ∧ (receive unsignedNode (some (envelopeOf "n1:cmd:echo"))).spawned = none
      ∧ (handleEnvelope unsignedNode (some (envelopeOf "n1:cmd:echo"))).any Event.isExec
          = false
      ∧ (handleEnvelope unsignedNode (some (envelopeOf "n1:cmd:echo"))).any Event.isPublish
          = false :=
  ⟨by decide,
    (agent_dispatches_only_controller_messages unsignedNode (envelopeOf "n1:cmd:echo")).2.2
      { Data := "n1:cmd:echo".toList, PubKey := none } (by decide) (Or.inl rfl)⟩

/-! ## The agent: which message ends the process -/

/-- C19 fails as stated: on a node whose encryption step fails, an authenticated message
"n1:cmd:echo" is decoded, printed, dispatched and run, and `write` then ends the process with
the fatal log line "Failed to encode payload"; the receive loop does not reach the next
envelope. -/
theorem agent_write_failure_is_fatal :
    handleEnvelope mutedNode (some (envelopeOf "n1:cmd:echo"))
        = [Event.decode decodeKey,
            Event.print "Filtered message received: n1:cmd:echo".toList,
            Event.log LogLevel.LogInfo "Command message detected, processing...",
            Event.exec "echo".toList [],
            Event.log LogLevel.LogFatal "Failed to encode payload"]
      ∧ (handleEnvelope mutedNode (some (envelopeOf "n1:cmd:echo"))).any Event.isFatal = true
      ∧ listenForMessages mutedNode
            [some (envelopeOf "n1:cmd:echo"), some (envelopeOf "n1:cmd:echo")]
          = handleEnvelope mutedNode (some (envelopeOf "n1:cmd:echo")) := by
  refine ⟨by decide, by decide, by decide⟩

theorem handleEnvelope_fatal_iff (node : Node) (env : Option WakuMessage) :
    (handleEnvelope node env).any Event.isFatal = true ↔
      ∃ msg d k p0 p1 p2, env = some msg ∧ node.DecodePayload msg decodeKey = some d
        ∧ d.PubKey = some k ∧ formatKey k = publicKey
        ∧ SplitN d.Data ':' 3 = [p0, p1, p2] ∧ TrimSpace p1 = "cmd".toList
        ∧ node.toHost.canEncode (TrimSpace (node.Run (TrimSpace p2) []).stdout) = false := by
  cases env with
  | none =>
    constructor
    · intro h
      exact absurd h (by simp [handleEnvelope, receive])
    · rintro ⟨msg, d, k, p0, p1, p2, he, -⟩
      exact absurd he (by simp)
  | some msg =>
    obtain ⟨e, htr, -, -, -, hfat, -⟩ := receive_trace node msg
    have hpre : (receive node (some msg)).trace.any Event.isFatal = false := by
      rw [htr]
      simp only [List.any_cons, List.any_nil, hfat]
      rfl
    cases hs : (receive node (some msg)).spawned with
    | none =>
      rw [handleEnvelope_of_not_spawned node _ hs, hpre]
      constructor
      · intro h
        exact absurd h (by decide)
      · rintro ⟨m, d, k, p0, p1, p2, he, hd, hk, hf, -⟩
        cases he
        have := (receive_spawned_iff node msg d.Data).mpr ⟨d, k, hd, hk, hf, rfl⟩
        rw [hs] at this
        exact absurd this (by simp)
    | some t =>
      obtain ⟨d, k, hd, hk, hf, hdt⟩ := (receive_spawned_iff node msg t).mp hs
      rw [handleEnvelope_of_spawned node _ t hs, List.any_append, hpre, Bool.false_or,
        handleMessage_fatal_iff]
      constructor
      · rintro ⟨p0, p1, p2, hsp, hcmd, hcan⟩
        exact ⟨msg, d, k, p0, p1, p2, rfl, hd, hk, hf, by rw [hdt]; exact hsp, hcmd, hcan⟩
      · rintro ⟨m, d2, k2, p0, p1, p2, he, hd2, -, -, hsp, hcmd, hcan⟩
        cases he
        rw [hd] at hd2
        cases hd2
        exact ⟨p0, p1, p2, by rw [← hdt]; exact hsp, hcmd, hcan⟩

/-- C19, amended: handling a received envelope ends the process in exactly one case: the
message decodes, is signed with the configured controller key and is a "cmd" frame, and
`write` cannot unmarshal the configured key or encode the result.  Whenever handling does
not end the process the receive loop goes on with the next envelope; this is so for every
envelope on a node where these two steps of `write` succeed, whatever decoding, the child
process and the relay do. -/
theorem agent_fatal_only_in_write (node : Node) (env : Option WakuMessage) :
    ((handleEnvelope node env).any Event.isFatal = true ↔
        ∃ msg d k p0 p1 p2, env = some msg ∧ node.DecodePayload msg decodeKey = some d
          ∧ d.PubKey = some k ∧ formatKey k = publicKey
          ∧ SplitN d.Data ':' 3 = [p0, p1, p2] ∧ TrimSpace p1 = "cmd".toList
          ∧ node.toHost.canEncode (TrimSpace (node.Run (TrimSpace p2) []).stdout) = false)
      ∧ ((handleEnvelope node env).any Event.isFatal = false →
          ∀ rest, listenForMessages node (env :: rest)
            = handleEnvelope node env ++ listenForMessages node rest)
      ∧ ((∀ c, node.toHost.canEncode c = true) →
          (handleEnvelope node env).any Event.isFatal = false
            ∧ ∀ rest, listenForMessages node (env :: rest)
              = handleEnvelope node env ++ listenForMessages node rest) := by
  have hloop : (handleEnvelope node env).any Event.isFatal = false →
      ∀ rest, listenForMessages node (env :: rest)
        = handleEnvelope node env ++ listenForMessages node rest := by
    intro h rest
    rw [listenForMessages, h]
    simp
  refine ⟨handleEnvelope_fatal_iff node env, hloop, ?_⟩
  intro hall
  have hnf : (handleEnvelope node env).any Event.isFatal = false := by
    cases hc : (handleEnvelope node env).any Event.isFatal with
    | false => rfl
    | true =>
      obtain ⟨msg, d, k, p0, p1, p2, -, -, -, -, -, -, hcan⟩ :=
        (handleEnvelope_fatal_iff node env).mp hc
      rw [hall] at hcan
      exact absurd hcan (by decide)
  exact ⟨hnf, hloop hnf⟩

theorem agent_fatal_only_in_write_witness :
    (∀ c, echoNode.toHost.canEncode c = true)
      ∧ (handleEnvelope echoNode (some (envelopeOf "n1:cmd:echo"))).any Event.isFatal = false
      ∧ ∀ rest, listenForMessages echoNode (some (envelopeOf "n1:cmd:echo") :: rest)
          = handleEnvelope echoNode (some (envelopeOf "n1:cmd:echo"))
              ++ listenForMessages echoNode rest :=
  ⟨echoHost_canEncode,
    (agent_fatal_only_in_write echoNode (some (envelopeOf "n1:cmd:echo"))).2.2
      echoHost_canEncode⟩

end BotNode

/-! ## The controller: decoding a received message -/

namespace CncNode

theorem privateKey_decodes : (crypto.HexToECDSA privateKey).isNone = false := by decide

theorem receive_of_sym (host : Host) (msg : WakuMessage) (d : DecodedPayload)
    (hs : host.DecodePayload msg symInfo = some d) :
    receive host (some msg)
      = [Event.decode symInfo, Event.print ("Filtered message received: ".toList ++ d.Data)] := by
  simp only [receive, hs]

theorem receive_of_asym (host : Host) (msg : WakuMessage) (d : DecodedPayload)
    (hs : host.DecodePayload msg symInfo = none) (ha : host.DecodePayload msg asymInfo = some d) :
    receive host (some msg)
      = [Event.decode symInfo,
          Event.log LogLevel.LogError "Failed to decode message with symmetric key: ",
          Event.decode asymInfo,
          Event.print ("Filtered message received: ".toList ++ d.Data)] := by
  simp only [receive, hs, ha, privateKey_decodes, checkError]
  rfl

theorem receive_of_none (host : Host) (msg : WakuMessage)
    (hs : host.DecodePayload msg symInfo = none) (ha : host.DecodePayload msg asymInfo = none) :
    receive host (some msg)
      = [Event.decode symInfo,
          Event.log LogLevel.LogError "Failed to decode message with symmetric key: ",
          Event.decode asymInfo,
          Event.log LogLevel.LogError "Failed to decode message with asymmetric key"] := by
  simp only [receive, hs, ha, privateKey_decodes, checkError]
  rfl

/-- C14: for every received message the controller first decodes with the shared symmetric
key; the attempt with its private key is made if and only if the symmetric attempt fails; a
successful symmetric attempt is the one whose plaintext is printed, otherwise the plaintext
of a successful private-key attempt is printed.  A message that only the private key can
decrypt is thus decoded by the second attempt. -/
theorem controller_decode_fallback_order (host : Host) (msg : WakuMessage) :
    (receive host (some msg)).head? = some (Event.decode symInfo)
      ∧ symInfo.Kind = KeyKind.Symmetric ∧ symInfo.SymKey = symKey
      ∧ asymInfo.Kind = KeyKind.Asymmetric
      ∧ asymInfo.PrivKey = crypto.HexToECDSA privateKey
      ∧ (crypto.HexToECDSA privateKey).isSome = true
      ∧ (Event.decode asymInfo ∈ receive host (some msg)
          ↔ host.DecodePayload msg symInfo = none)
      ∧ (∀ d, host.DecodePayload msg symInfo = some d →
          receive host (some msg)
            = [Event.decode symInfo,
                Event.print ("Filtered message received: ".toList ++ d.Data)])
      ∧ (∀ d, host.DecodePayload msg symInfo = none →
          host.DecodePayload msg asymInfo = some d →
          receive host (some msg)
            = [Event.decode symInfo,
                Event.log LogLevel.LogError "Failed to decode message with symmetric key: ",
                Event.decode asymInfo,
                Event.print ("Filtered message received: ".toList ++ d.Data)]) := by
  have hne : Event.decode asymInfo ≠ Event.decode symInfo := by decide
  refine ⟨?_, rfl, rfl, rfl, rfl, by decide, ?_, fun d hs => receive_of_sym host msg d hs,
    fun d hs ha => receive_of_asym host msg d hs ha⟩
  · cases hs : host.DecodePayload msg symInfo with
    | some d => rw [receive_of_sym host msg d hs]; rfl
    | none =>
      cases ha : host.DecodePayload msg asymInfo with
      | some d => rw [receive_of_asym host msg d hs ha]; rfl
      | none => rw [receive_of_none host msg hs ha]; rfl
  · cases hs : host.DecodePayload msg symInfo with
    | some d =>
      rw [receive_of_sym host msg d hs]
      simp [hne]
    | none =>
      cases ha : host.DecodePayload msg asymInfo with
      | some d => rw [receive_of_asym host msg d hs ha]; simp
      | none => rw [receive_of_none host msg hs ha]; simp

theorem controller_decode_fallback_order_witness :
    asymOnlyHost.DecodePayload (BotNode.envelopeOf "n1: hi") symInfo = none
      ∧ asymOnlyHost.DecodePayload (BotNode.envelopeOf "n1: hi") asymInfo
          = some { Data := "n1: hi".toList, PubKey := none }
      ∧ receive asymOnlyHost (some (BotNode.envelopeOf "n1: hi"))
          = [Event.decode symInfo,
              Event.log LogLevel.LogError "Failed to decode message with symmetric key: ",
              Event.decode asymInfo,
              Event.print ("Filtered message received: ".toList
                ++ (DecodedPayload.mk "n1: hi".toList none).Data)] :=
  ⟨by decide, by decide,
    (controller_decode_fallback_order asymOnlyHost (BotNode.envelopeOf "n1: hi")).2.2.2.2.2.2.2.2
      { Data := "n1: hi".toList, PubKey := none } (by decide) (by decide)⟩

end CncNode

/-! ## Both roles together -/

/-- C16: a message that no decoding attempt of the role can decode is dropped without ending
the process.  The agent logs one error after its single attempt; the controller logs one
error after each of its two attempts.  Nothing is printed, executed or published, no event is
fatal, and the receive loop goes on with the next envelope. -/
theorem decode_failure_is_not_fatal :
    (∀ (node : BotNode.Node) (msg : WakuMessage) (rest : List (Option WakuMessage)),
        node.DecodePayload msg BotNode.decodeKey = none →
        BotNode.handleEnvelope node (some msg)
            = [Event.decode BotNode.decodeKey,
                Event.log LogLevel.LogError "Error decoding payload: "]
          ∧ (BotNode.handleEnvelope node (some msg)).any Event.isPrint = false
          ∧ (BotNode.handleEnvelope node (some msg)).any Event.isExec = false
          ∧ (BotNode.handleEnvelope node (some msg)).any Event.isPublish = false
          ∧ (BotNode.handleEnvelope node (some msg)).any Event.isFatal = false
          ∧ BotNode.listenForMessages node (some msg :: rest)
              = BotNode.handleEnvelope node (some msg) ++ BotNode.listenForMessages node rest)
      ∧ (∀ (host : CncNode.Host) (msg : WakuMessage) (rest : List (Option WakuMessage)),
          host.DecodePayload msg CncNode.symInfo = none →
          host.DecodePayload msg CncNode.asymInfo = none →
          CncNode.receive host (some msg)
              = [Event.decode CncNode.symInfo,
                  Event.log LogLevel.LogError "Failed to decode message with symmetric key: ",
                  Event.decode CncNode.asymInfo,
                  Event.log LogLevel.LogError "Failed to decode message with asymmetric key"]
            ∧ (CncNode.receive host (some msg)).any Event.isPrint = false
            ∧ (CncNode.receive host (some msg)).any Event.isFatal = false
            ∧ CncNode.listenForMessages host (some msg :: rest)
                = CncNode.receive host (some msg) ++ CncNode.listenForMessages host rest) := by
  constructor
  · intro node msg rest hd
    have hr := BotNode.receive_of_decode_none node msg hd
    have hs : (BotNode.receive node (some msg)).spawned = none := by rw [hr]
    have he : BotNode.handleEnvelope node (some msg)
        = [Event.decode BotNode.decodeKey,
            Event.log LogLevel.LogError "Error decoding payload: "] := by
      rw [BotNode.handleEnvelope_of_not_spawned node _ hs, hr]
    refine ⟨he, ?_, ?_, ?_, ?_, ?_⟩
    · rw [he]; rfl
    · rw [he]; rfl
    · rw [he]; rfl
    · rw [he]; rfl
    · have hnf : (BotNode.handleEnvelope node (some msg)).any Event.isFatal = false := by
        rw [he]; rfl
      rw [BotNode.listenForMessages, hnf]
      simp
  · intro host msg rest hs ha
    have hr := CncNode.receive_of_none host msg hs ha
    refine ⟨hr, ?_, ?_, rfl⟩
    · rw [hr]; rfl
    · rw [hr]; rfl

theorem decode_failure_is_not_fatal_witness :
    BotNode.echoNode.DecodePayload { BotNode.envelopeOf "n1:cmd:echo" with Version := 0 }
        BotNode.decodeKey = none
      ∧ BotNode.handleEnvelope BotNode.echoNode
            (some { BotNode.envelopeOf "n1:cmd:echo" with Version := 0 })
          = [Event.decode BotNode.decodeKey,
              Event.log LogLevel.LogError "Error decoding payload: "]
      ∧ BotNode.listenForMessages BotNode.echoNode
            [some { BotNode.envelopeOf "n1:cmd:echo" with Version := 0 }, none]
          = BotNode.handleEnvelope BotNode.echoNode
              (some { BotNode.envelopeOf "n1:cmd:echo" with Version := 0 })
            ++ BotNode.listenForMessages BotNode.echoNode [none]
      ∧ CncNode.asymOnlyHost.DecodePayload
          { BotNode.envelopeOf "n1: hi" with Version := 0 } CncNode.symInfo = none
      ∧ CncNode.asymOnlyHost.DecodePayload
          { BotNode.envelopeOf "n1: hi" with Version := 0 } CncNode.asymInfo = none
      ∧ (CncNode.receive CncNode.asymOnlyHost
            (some { BotNode.envelopeOf "n1: hi" with Version := 0 })).any Event.isPrint
          = false :=
  ⟨by decide,
    (decode_failure_is_not_fatal.1 BotNode.echoNode
      { BotNode.envelopeOf "n1:cmd:echo" with Version := 0 } [none] (by decide)).1,
    (decode_failure_is_not_fatal.1 BotNode.echoNode
      { BotNode.envelopeOf "n1:cmd:echo" with Version := 0 } [none] (by decide)).2.2.2.2.2,
    by decide, by decide,
    (decode_failure_is_not_fatal.2 CncNode.asymOnlyHost
      { BotNode.envelopeOf "n1: hi" with Version := 0 } [] (by decide) (by decide)).2.1⟩

theorem symKey_shared : CncNode.symKey = BotNode.symKey := rfl

/-- The message that the controller publishes for an input line. -/
theorem CncNode_write_eq (cnc : CncNode.Host) (msgContent : GoString) (bytes : List Nat)
    (henc : cnc.Encode
      { Data := cnc.ID ++ ": ".toList ++ msgContent
        Key := { Kind := KeyKind.Symmetric, SymKey := CncNode.symKey, PubKey := none,
                 PrivKey := crypto.HexToECDSA CncNode.privateKey } } 1 = some bytes) :
    ∃ msg, CncNode.write cnc msgContent = [Event.publish msg] ∧ msg.Payload = bytes
      ∧ msg.Version = 1 ∧ msg.ContentTopic = CncNode.contentTopic := by
  refine ⟨WakuMessage.mk bytes 1 CncNode.contentTopic cnc.Timestamp
    ((cnc.SignMessage (crypto.HexToECDSA CncNode.privateKey)
      (WakuMessage.mk bytes 1 CncNode.contentTopic cnc.Timestamp [])).getD []),
    ?_, rfl, rfl, rfl⟩
  simp only [CncNode.write, henc, CncNode.privateKey_decodes, checkError]
  rfl

theorem echo_codec_round_trips :
    SymRoundTrips CncNode.asymOnlyHost.Encode BotNode.echoNode.DecodePayload
      CncNode.symKey := by
  intro p bytes m _ _ henc hp hv
  have hb : bytes = p.Data.map Char.toNat := by
    have : some (p.Data.map Char.toNat) = some bytes := henc
    exact (Option.some.inj this).symm
  refine ⟨{ Data := m.Payload.map Char.ofNat, PubKey := some BotNode.controllerKey }, ?_, ?_⟩
  · simp [BotNode.echoNode, hv]
  · simp only [hp, hb, List.map_map]
    have hid : (Char.ofNat ∘ Char.toNat) = id := by
      funext c
      simp [Char.ofNat_toNat]
    rw [hid, List.map_id]

/-- C17 fails as stated: with a cipher that round-trips, the controller with label
"16Uiu2HAkx" encodes the plaintext "cmd:date" under the shared key, and the agent decodes
the published message with the same key into "16Uiu2HAkx: cmd:date", which is not the
plaintext. -/
theorem decoded_text_carries_the_sender_label :
    SymRoundTrips CncNode.asymOnlyHost.Encode BotNode.echoNode.DecodePayload CncNode.symKey
      ∧ CncNode.write CncNode.asymOnlyHost "cmd:date".toList
          = [Event.publish (WakuMessage.mk ("16Uiu2HAkx: cmd:date".toList.map Char.toNat) 1
              CncNode.contentTopic 0 [0])]
      ∧ BotNode.echoNode.DecodePayload
            (WakuMessage.mk ("16Uiu2HAkx: cmd:date".toList.map Char.toNat) 1
              CncNode.contentTopic 0 [0]) BotNode.decodeKey
          = some { Data := "16Uiu2HAkx: cmd:date".toList, PubKey := some BotNode.controllerKey }
      ∧ "16Uiu2HAkx: cmd:date".toList ≠ "cmd:date".toList :=
  ⟨echo_codec_round_trips, by decide, by decide, by decide⟩

/-- C17, amended: when the symmetric cipher of the library round-trips under the shared key,
the message that the controller's `write` builds for a content, encrypted under that key, is
decoded by the agent's attempt with the same key into exactly the text that was encrypted:
the sender label, ": " and the content, unchanged; when the signature is the controller's,
that text is what the handler receives. -/
theorem symmetric_encode_decode_identity (cnc : CncNode.Host) (node : BotNode.Node)
    (msgContent : GoString) (bytes : List Nat)
    (hrt : SymRoundTrips cnc.Encode node.DecodePayload CncNode.symKey)
    (henc : cnc.Encode
      { Data := cnc.ID ++ ": ".toList ++ msgContent
        Key := { Kind := KeyKind.Symmetric, SymKey := CncNode.symKey, PubKey := none,
                 PrivKey := crypto.HexToECDSA CncNode.privateKey } } 1 = some bytes) :
    ∃ msg d, CncNode.write cnc msgContent = [Event.publish msg]
      ∧ msg.Payload = bytes ∧ msg.Version = 1
      ∧ node.DecodePayload msg BotNode.decodeKey = some d
      ∧ d.Data = cnc.ID ++ ": ".toList ++ msgContent
      ∧ (∀ k, d.PubKey = some k → BotNode.formatKey k = BotNode.publicKey →
          BotNode.receive node (some msg)
            = ⟨[Event.decode BotNode.decodeKey,
                Event.print ("Filtered message received: ".toList
                  ++ (cnc.ID ++ ": ".toList ++ msgContent))],
                some (cnc.ID ++ ": ".toList ++ msgContent)⟩) := by
  obtain ⟨msg, hw, hp, hv, -⟩ := CncNode_write_eq cnc msgContent bytes henc
  obtain ⟨d, hd, hdata⟩ := hrt _ bytes msg rfl rfl henc hp hv
  have hd2 : node.DecodePayload msg BotNode.decodeKey = some d := hd
  refine ⟨msg, d, hw, hp, hv, hd2, hdata, ?_⟩
  intro k hk hf
  rw [BotNode.receive_of_match node msg d k hd2 hk hf, hdata]

theorem symmetric_encode_decode_identity_witness :
    SymRoundTrips CncNode.asymOnlyHost.Encode BotNode.echoNode.DecodePayload CncNode.symKey
      ∧ ∃ msg d, CncNode.write CncNode.asymOnlyHost "cmd:date".toList = [Event.publish msg]
          ∧ msg.Payload = ("16Uiu2HAkx: cmd:date".toList).map Char.toNat ∧ msg.Version = 1
          ∧ BotNode.echoNode.DecodePayload msg BotNode.decodeKey = some d
          ∧ d.Data = CncNode.asymOnlyHost.ID ++ ": ".toList ++ "cmd:date".toList
          ∧ (∀ k, d.PubKey = some k → BotNode.formatKey k = BotNode.publicKey →
              BotNode.receive BotNode.echoNode (some msg)
                = ⟨[Event.decode BotNode.decodeKey,
                    Event.print ("Filtered message received: ".toList
                      ++ (CncNode.asymOnlyHost.ID ++ ": ".toList ++ "cmd:date".toList))],
                    some (CncNode.asymOnlyHost.ID ++ ": ".toList ++ "cmd:date".toList)⟩) :=
  ⟨echo_codec_round_trips,
    symmetric_encode_decode_identity CncNode.asymOnlyHost BotNode.echoNode "cmd:date".toList
      (("16Uiu2HAkx: cmd:date".toList).map Char.toNat) echo_codec_round_trips (by decide)⟩

/-- Every message that `write` of the agent publishes is the encryption, for the key
unmarshalled from the configured bytes, of the payload built from the content. -/
theorem BotNode_publish_of_write (host : BotNode.Host) (msgContent : GoString)
    (msg : WakuMessage) (h : Event.publish msg ∈ BotNode.write host msgContent) :
    ∃ pubKey encodedPayload, host.UnmarshalPubkey BotNode.pubKeyBytes = some pubKey
      ∧ host.Encode (BotNode.resultPayload host pubKey msgContent) 1 = some encodedPayload
      ∧ msg = WakuMessage.mk encodedPayload 1 BotNode.contentTopic host.Timestamp [] := by
  rw [BotNode.write_eq] at h
  cases hk : host.UnmarshalPubkey BotNode.pubKeyBytes with
  | none => simp [hk] at h
  | some pubKey =>
    cases he : host.Encode (BotNode.resultPayload host pubKey msgContent) 1 with
    | none => simp [hk, he] at h
    | some encodedPayload =>
      simp only [hk, he, List.mem_singleton, Event.publish.injEq] at h
      exact ⟨pubKey, encodedPayload, rfl, he, h⟩

theorem BotNode_publish_of_handleMessage (host : BotNode.Host) (messageText : GoString)
    (msg : WakuMessage) (h : Event.publish msg ∈ BotNode.handleMessage host messageText) :
    ∃ msgContent, Event.publish msg ∈ BotNode.write host msgContent := by
  rcases BotNode.handleMessage_cases host messageText with ⟨-, he⟩ | ⟨p0, p1, p2, -, -, he⟩
    | ⟨p0, p1, p2, -, -, he⟩
  · rw [he] at h
    simp [BotNode.ignored] at h
  · rw [he] at h
    simp at h
  · rw [he] at h
    simp only [List.mem_cons, reduceCtorEq, false_or] at h
    exact ⟨_, h⟩

theorem kindTag_injective (a b : KeyKind) (h : kindTag a = kindTag b) : a = b := by
  cases a <;> cases b <;> first | rfl | exact absurd h (by decide)

theorem tagged_kind_bound : KindBound taggedAgent.Encode taggedController.DecodePayload := by
  intro p bytes m k henc hp hv hsome
  have hb : bytes = kindTag p.Key.Kind :: p.Data.map Char.toNat := by
    have : some (kindTag p.Key.Kind :: p.Data.map Char.toNat) = some bytes := henc
    exact (Option.some.inj this).symm
  by_cases hc : m.Version = 1 ∧ m.Payload.head? = some (kindTag k.Kind)
  · have hh := hc.2
    rw [hp, hb, List.head?_cons] at hh
    exact (kindTag_injective _ _ (Option.some.inj hh)).symm
  · have hn : taggedController.DecodePayload m k = none := if_neg hc
    rw [hn] at hsome
    exact absurd hsome (by decide)

theorem tagged_asym_round_trips (pub : PublicKey) (priv : Option PrivateKey) :
    AsymRoundTrips taggedAgent.Encode taggedController.DecodePayload pub priv := by
  intro p bytes m hkind _ henc hp hv
  have hb : bytes = kindTag p.Key.Kind :: p.Data.map Char.toNat := by
    have : some (kindTag p.Key.Kind :: p.Data.map Char.toNat) = some bytes := henc
    exact (Option.some.inj this).symm
  have hc : m.Version = 1 ∧ m.Payload.head? = some (kindTag KeyKind.Asymmetric) := by
    refine ⟨hv, ?_⟩
    rw [hp, hb, hkind]
    rfl
  refine ⟨{ Data := m.Payload.tail.map Char.ofNat, PubKey := none }, if_pos hc, ?_⟩
  simp only [hp, hb, List.tail_cons, List.map_map]
  have hid : (Char.ofNat ∘ Char.toNat) = id := by
    funext c
    simp [Char.ofNat_toNat]
  rw [hid, List.map_id]

/-- C20: every message that the agent publishes while handling a text is encoded with the
asymmetric kind for the public key unmarshalled from the configured controller key bytes,
with no symmetric key and no private key in the key information; the coordinates of those
bytes print as the configured key text.  When the cipher of the library binds a message to
the kind of key it was encoded with, and its asymmetric part round-trips between the
configured public key and the controller's private key, then for every message that the
agent publishes the controller's decoding fails under every key information that is not of
the asymmetric kind, in particular in its first attempt with the shared symmetric key, and
succeeds in its second attempt with the private key: the controller prints the agent's
identifier, ": " and the content of the result. -/
theorem results_are_encoded_for_the_controller_key :
    (∀ (host : BotNode.Host) (messageText : GoString) (msg : WakuMessage),
        Event.publish msg ∈ BotNode.handleMessage host messageText →
        ∃ pubKey p, host.UnmarshalPubkey BotNode.pubKeyBytes = some pubKey
          ∧ p.Key.Kind = KeyKind.Asymmetric ∧ p.Key.PubKey = some pubKey
          ∧ p.Key.SymKey = [] ∧ p.Key.PrivKey = none
          ∧ host.Encode p 1 = some msg.Payload
          ∧ msg.Version = 1 ∧ msg.ContentTopic = BotNode.contentTopic)
      ∧ BotNode.pubKeyBytes = (hex.DecodeString ("04".toList ++ BotNode.publicKey)).1
      ∧ BotNode.formatKey BotNode.controllerKey = BotNode.publicKey
      ∧ (∀ (host : BotNode.Host) (cnc : CncNode.Host) (messageText : GoString)
          (msg : WakuMessage) (pubKey : PublicKey),
          KindBound host.Encode cnc.DecodePayload →
          AsymRoundTrips host.Encode cnc.DecodePayload pubKey
            (crypto.HexToECDSA CncNode.privateKey) →
          host.UnmarshalPubkey BotNode.pubKeyBytes = some pubKey →
          Event.publish msg ∈ BotNode.handleMessage host messageText →
          (∀ k : KeyInfo, k.Kind ≠ KeyKind.Asymmetric → cnc.DecodePayload msg k = none)
            ∧ cnc.DecodePayload msg CncNode.symInfo = none
            ∧ ∃ content d, Event.publish msg ∈ BotNode.write host content
                ∧ cnc.DecodePayload msg CncNode.asymInfo = some d
                ∧ d.Data = host.ID ++ ": ".toList ++ content
                ∧ CncNode.receive cnc (some msg)
                  = [Event.decode CncNode.symInfo,
                      Event.log LogLevel.LogError
                        "Failed to decode message with symmetric key: ",
                      Event.decode CncNode.asymInfo,
                      Event.print ("Filtered message received: ".toList
                        ++ (host.ID ++ ": ".toList ++ content))]) := by
  refine ⟨?_, rfl, by decide, ?_⟩
  · intro host messageText msg h
    obtain ⟨msgContent, hw⟩ := BotNode_publish_of_handleMessage host messageText msg h
    obtain ⟨pubKey, encodedPayload, hk, he, hm⟩ :=
      BotNode_publish_of_write host msgContent msg hw
    refine ⟨pubKey, BotNode.resultPayload host pubKey msgContent, hk, rfl, rfl, rfl, rfl, ?_,
      ?_, ?_⟩
    · rw [he, hm]
    · rw [hm]
    · rw [hm]
  · intro host cnc messageText msg pubKey hbound hrt hkey h
    obtain ⟨content, hw⟩ := BotNode_publish_of_handleMessage host messageText msg h
    obtain ⟨pubKey2, encodedPayload, hk, he, hm⟩ :=
      BotNode_publish_of_write host content msg hw
    have hpk : pubKey2 = pubKey := by
      rw [hkey] at hk
      exact (Option.some.inj hk).symm
    subst hpk
    have hp : msg.Payload = encodedPayload := by rw [hm]
    have hv : msg.Version = 1 := by rw [hm]
    have hnot : ∀ k : KeyInfo, k.Kind ≠ KeyKind.Asymmetric →
        cnc.DecodePayload msg k = none := by
      intro k hkind
      cases hd : cnc.DecodePayload msg k with
      | none => rfl
      | some d =>
        have := hbound (BotNode.resultPayload host pubKey2 content) encodedPayload msg k he hp
          hv (by rw [hd]; rfl)
        exact absurd this hkind
    have hs : cnc.DecodePayload msg CncNode.symInfo = none :=
      hnot CncNode.symInfo (by decide)
    obtain ⟨d, hd, hdata⟩ :=
      hrt (BotNode.resultPayload host pubKey2 content) encodedPayload msg rfl rfl he hp hv
    have ha : cnc.DecodePayload msg CncNode.asymInfo = some d := hd
    have hdata2 : d.Data = host.ID ++ ": ".toList ++ content := hdata
    refine ⟨hnot, hs, content, d, hw, ha, hdata2, ?_⟩
    rw [CncNode.receive_of_asym cnc msg d hs ha, hdata2]

theorem results_are_encoded_for_the_controller_key_witness :
    (taggedController.DecodePayload
        (WakuMessage.mk (0 :: "n1: cmd: echo".toList.map Char.toNat) 1
          CncNode.contentTopic 0 []) CncNode.symInfo).isSome = true
      ∧ KindBound taggedAgent.Encode taggedController.DecodePayload
      ∧ AsymRoundTrips taggedAgent.Encode taggedController.DecodePayload BotNode.controllerKey
          (crypto.HexToECDSA CncNode.privateKey)
      ∧ taggedAgent.UnmarshalPubkey BotNode.pubKeyBytes = some BotNode.controllerKey
      ∧ Event.publish (WakuMessage.mk (1 :: "16Uiu2HAm: ".toList.map Char.toNat) 1
            BotNode.contentTopic 0 [])
          ∈ BotNode.handleMessage taggedAgent "n1:cmd:echo".toList
      ∧ ((∀ k : KeyInfo, k.Kind ≠ KeyKind.Asymmetric →
            taggedController.DecodePayload
              (WakuMessage.mk (1 :: "16Uiu2HAm: ".toList.map Char.toNat) 1
                BotNode.contentTopic 0 []) k = none)
          ∧ taggedController.DecodePayload
              (WakuMessage.mk (1 :: "16Uiu2HAm: ".toList.map Char.toNat) 1
                BotNode.contentTopic 0 []) CncNode.symInfo = none
          ∧ ∃ content d,
              Event.publish (WakuMessage.mk (1 :: "16Uiu2HAm: ".toList.map Char.toNat) 1
                  BotNode.contentTopic 0 [])
                ∈ BotNode.write taggedAgent content
              ∧ taggedController.DecodePayload
                  (WakuMessage.mk (1 :: "16Uiu2HAm: ".toList.map Char.toNat) 1
                    BotNode.contentTopic 0 []) CncNode.asymInfo = some d
              ∧ d.Data = taggedAgent.ID ++ ": ".toList ++ content
              ∧ CncNode.receive taggedController
                  (some (WakuMessage.mk (1 :: "16Uiu2HAm: ".toList.map Char.toNat) 1
                    BotNode.contentTopic 0 []))
                = [Event.decode CncNode.symInfo,
                    Event.log LogLevel.LogError
                      "Failed to decode message with symmetric key: ",
                    Event.decode CncNode.asymInfo,
                    Event.print ("Filtered message received: ".toList
                      ++ (taggedAgent.ID ++ ": ".toList ++ content))]) :=
  ⟨by decide, tagged_kind_bound, tagged_asym_round_trips _ _, by decide, by decide,
    results_are_encoded_for_the_controller_key.2.2.2 taggedAgent taggedController
      "n1:cmd:echo".toList
      (WakuMessage.mk (1 :: "16Uiu2HAm: ".toList.map Char.toNat) 1 BotNode.contentTopic 0 [])
      BotNode.controllerKey tagged_kind_bound (tagged_asym_round_trips _ _) (by decide)
      (by decide)⟩

/-! ## The agent: the steps of one candidate -/

namespace BotNode

open strings

theorem Attempt.connects_iff (a : Attempt) :
    a.connects = true ↔ a.parses = true ∧ a.added = true ∧ a.subscribed.isSome = true := by
  simp [Attempt.connects, and_assoc]

/-- One pass through the loop of `subscribeToNode`: the steps of the candidate, then either
the return of its subscription or the next candidate. -/
theorem subscribeFrom_cons (net : Transport) (i : Nat) (address : GoString)
    (rest : List GoString) :
    subscribeFrom net i (address :: rest)
      = if (net i).connects = true then
          ⟨candidateSteps (net i) address, (net i).subscribed⟩
        else Outcome.after (candidateSteps (net i) address) (subscribeFrom net (i + 1) rest) := by
  rw [subscribeFrom]
  cases hp : (net i).parses with
  | false => simp [Attempt.connects, candidateSteps, hp]
  | true =>
    cases ha : (net i).added with
    | false => simp [Attempt.connects, candidateSteps, hp, ha]
    | true =>
      cases hs : (net i).subscribed with
      | none => simp [Attempt.connects, candidateSteps, hp, ha, hs]
      | some filter => simp [Attempt.connects, candidateSteps, hp, ha, hs]

/-- Candidates that do not connect are passed one after the other. -/
theorem subscribeFrom_append_of_fail (net : Transport) (pre : List GoString) :
    ∀ (i : Nat) (l : List GoString),
      (∀ j, j < pre.length → (net (i + j)).connects = false) →
      ∃ before, subscribeFrom net i (pre ++ l)
          = Outcome.after before (subscribeFrom net (i + pre.length) l)
        ∧ attempted before = pre ∧ before.any Event.isFatal = false := by
  induction pre with
  | nil =>
    intro i l _
    exact ⟨[], by simp [Outcome.after], rfl, rfl⟩
  | cons a pre ih =>
    intro i l h
    have h0 : (net i).connects = false := by
      have := h 0 (by simp)
      simpa using this
    obtain ⟨first, heq, hatt, hnf⟩ := subscribeFrom_cons_of_fails net i a (pre ++ l) h0
    have hrest : ∀ j, j < pre.length → (net (i + 1 + j)).connects = false := by
      intro j hj
      have := h (j + 1) (by simp; omega)
      rwa [show i + (j + 1) = i + 1 + j by omega] at this
    obtain ⟨before, heq2, hatt2, hnf2⟩ := ih (i + 1) l hrest
    refine ⟨first ++ before, ?_, ?_, ?_⟩
    · rw [List.cons_append, heq, heq2]
      simp only [Outcome.after, List.append_assoc, List.length_cons]
      rw [show i + (pre.length + 1) = i + 1 + pre.length by omega]
    · rw [attempted_append, hatt, hatt2]
      rfl
    · rw [List.any_append, hnf, hnf2]
      rfl

theorem mem_candidateSteps_subscribe (a : Attempt) (address : GoString) (f : ContentFilter)
    (h : Event.subscribe f ∈ candidateSteps a address) : f = cf := by
  unfold candidateSteps at h
  cases hp : a.parses <;> cases ha : a.added <;> cases hs : a.subscribed <;>
    simp [hp, ha, hs] at h <;> exact h

theorem mem_subscribeFrom_subscribe (net : Transport) (addrs : List GoString) :
    ∀ (i : Nat) (f : ContentFilter),
      Event.subscribe f ∈ (subscribeFrom net i addrs).trace → f = cf := by
  induction addrs with
  | nil =>
    intro i f h
    simp [subscribeFrom] at h
  | cons a rest ih =>
    intro i f h
    rw [subscribeFrom_cons] at h
    by_cases hc : (net i).connects = true
    · rw [if_pos hc] at h
      exact mem_candidateSteps_subscribe _ _ f h
    · rw [if_neg hc] at h
      simp only [Outcome.after, List.mem_append] at h
      rcases h with h | h
      · exact mem_candidateSteps_subscribe _ _ f h
      · exact ih (i + 1) f h

/-- C23: in `subscribeToNode` every candidate that is reached goes through the prescribed
steps: its address is parsed; the peer is registered if and only if the parse succeeded; the
subscription is opened if and only if the registration was made and succeeded; the candidate
is connected, and its subscription returned, if and only if all three steps succeed;
otherwise the steps after the failing one are left out and the loop goes on with the next
candidate. -/
theorem subscribeToNode_candidate_steps (net : Transport) (pre : List GoString)
    (address : GoString) (rest : List GoString)
    (h : ∀ j, j < pre.length → (net j).connects = false) :
    (∃ before, attempted before = pre
        ∧ subscribeToNode net (pre ++ address :: rest)
          = Outcome.after before
              (if (net pre.length).connects = true then
                ⟨candidateSteps (net pre.length) address, (net pre.length).subscribed⟩
              else Outcome.after (candidateSteps (net pre.length) address)
                (subscribeFrom net (pre.length + 1) rest)))
      ∧ (Event.addPeer address ∈ candidateSteps (net pre.length) address
          ↔ (net pre.length).parses = true)
      ∧ ((∃ f, Event.subscribe f ∈ candidateSteps (net pre.length) address)
          ↔ (net pre.length).parses = true ∧ (net pre.length).added = true)
      ∧ ((net pre.length).connects = true
          ↔ (net pre.length).parses = true ∧ (net pre.length).added = true
            ∧ (net pre.length).subscribed.isSome = true)
      ∧ ((candidateSteps (net pre.length) address).any Event.isFatal = false) := by
  refine ⟨?_, ?_, ?_, Attempt.connects_iff _, ?_⟩
  · obtain ⟨before, heq, hatt, -⟩ := subscribeFrom_append_of_fail net pre 0 (address :: rest)
      (fun j hj => by simpa using h j hj)
    refine ⟨before, hatt, ?_⟩
    rw [subscribeToNode, heq, Nat.zero_add, subscribeFrom_cons]
  · unfold candidateSteps
    cases hp : (net pre.length).parses <;> simp [hp]
  · unfold candidateSteps
    cases hp : (net pre.length).parses <;> cases ha : (net pre.length).added <;>
      cases hs : (net pre.length).subscribed <;> simp [hp, ha, hs]
  · unfold candidateSteps
    cases hp : (net pre.length).parses <;> cases ha : (net pre.length).added <;>
      cases hs : (net pre.length).subscribed <;> simp [hp, ha, hs, Event.isFatal]

theorem subscribeToNode_candidate_steps_witness :
    (∀ j, j < ["bad1".toList, "bad2".toList].length → (thirdOnly j).connects = false)
      ∧ (∃ before, attempted before = ["bad1".toList, "bad2".toList]
          ∧ subscribeToNode thirdOnly
                (["bad1".toList, "bad2".toList] ++ "good".toList :: ["bad3".toList])
            = Outcome.after before
                (if (thirdOnly ["bad1".toList, "bad2".toList].length).connects = true then
                  ⟨candidateSteps (thirdOnly ["bad1".toList, "bad2".toList].length)
                      "good".toList,
                    (thirdOnly ["bad1".toList, "bad2".toList].length).subscribed⟩
                else Outcome.after
                  (candidateSteps (thirdOnly ["bad1".toList, "bad2".toList].length)
                    "good".toList)
                  (subscribeFrom thirdOnly (["bad1".toList, "bad2".toList].length + 1)
                    ["bad3".toList]))) :=
  ⟨by decide,
    (subscribeToNode_candidate_steps thirdOnly ["bad1".toList, "bad2".toList] "good".toList
      ["bad3".toList] (by decide)).1⟩

/-! ## The agent: failed commands -/

theorem write_withRun (host : Host) (r : ExecResult) (msgContent : GoString) :
    write (host.withRun r) msgContent = write host msgContent := rfl

theorem canEncode_withRun (host : Host) (r : ExecResult) (msgContent : GoString) :
    (host.withRun r).canEncode msgContent = host.canEncode msgContent := rfl

/-- C24: for a "cmd" frame the agent does the same whether or not `Run` reports an error:
with the same captured output, a child process that failed (non-zero exit, or not started)
and one that succeeded give the same events, the content handed to `write` is the trimmed
captured output (empty when nothing was captured), and exactly one message is published when
the library steps of `write` succeed. -/
theorem execution_failure_is_not_distinguished (host : Host)
    (messageText p0 p1 p2 out : GoString) (failed : Bool)
    (h : SplitN messageText ':' 3 = [p0, p1, p2]) (hcmd : TrimSpace p1 = "cmd".toList) :
    handleMessage (host.withRun ⟨out, failed⟩) messageText
        = Event.log LogLevel.LogInfo "Command message detected, processing..."
            :: Event.exec (TrimSpace p2) [] :: write host (TrimSpace out)
      ∧ handleMessage (host.withRun ⟨out, true⟩) messageText
          = handleMessage (host.withRun ⟨out, false⟩) messageText
      ∧ (host.canEncode (TrimSpace out) = true →
          ∃ msg, (handleMessage (host.withRun ⟨out, failed⟩) messageText).filter
              Event.isPublish = [Event.publish msg])
      ∧ (host.canEncode (TrimSpace out) = false →
          (handleMessage (host.withRun ⟨out, failed⟩) messageText).filter Event.isPublish = [])
      ∧ TrimSpace ([] : GoString) = [] := by
  have heq : ∀ f : Bool, handleMessage (host.withRun ⟨out, f⟩) messageText
      = Event.log LogLevel.LogInfo "Command message detected, processing..."
          :: Event.exec (TrimSpace p2) [] :: write host (TrimSpace out) := by
    intro f
    rw [handleMessage_of_parts _ messageText p0 p1 p2 h, hcmd, dispatch_cmd]
    rfl
  refine ⟨heq failed, by rw [heq true, heq false], ?_, ?_, rfl⟩
  · intro hcan
    rcases write_cases host (TrimSpace out) with ⟨hc, -⟩ | ⟨-, msg, hw⟩
    · rw [hcan] at hc
      exact absurd hc (by decide)
    · exact ⟨msg, by rw [heq failed, hw]; rfl⟩
  · intro hcan
    rcases write_cases host (TrimSpace out) with ⟨-, text, hw⟩ | ⟨hc, -⟩
    · rw [heq failed, hw]
      rfl
    · rw [hcan] at hc
      exact absurd hc (by decide)

theorem execution_failure_is_not_distinguished_witness :
    SplitN "n1:cmd:date".toList ':' 3 = ["n1".toList, "cmd".toList, "date".toList]
      ∧ TrimSpace "cmd".toList = "cmd".toList
      ∧ echoHost.canEncode (TrimSpace " partial\n".toList) = true
      ∧ handleMessage (echoHost.withRun ⟨" partial\n".toList, true⟩) "n1:cmd:date".toList
          = Event.log LogLevel.LogInfo "Command message detected, processing..."
              :: Event.exec (TrimSpace "date".toList) []
              :: write echoHost (TrimSpace " partial\n".toList)
      ∧ ∃ msg, (handleMessage (echoHost.withRun ⟨" partial\n".toList, true⟩)
          "n1:cmd:date".toList).filter Event.isPublish = [Event.publish msg] :=
  ⟨by decide, by decide, echoHost_canEncode _,
    (execution_failure_is_not_distinguished echoHost "n1:cmd:date".toList "n1".toList
      "cmd".toList "date".toList " partial\n".toList true (by decide) (by decide)).1,
    (execution_failure_is_not_distinguished echoHost "n1:cmd:date".toList "n1".toList
      "cmd".toList "date".toList " partial\n".toList true (by decide) (by decide)).2.2.1
      (echoHost_canEncode _)⟩

end BotNode

/-! ## The controller: the messages it builds -/

namespace CncNode

theorem write_eq_envelope (host : Host) (msgContent : GoString) :
    write host msgContent
      = checkError (host.Encode (payloadOf host msgContent) 1).isNone
          "Error encrypting the message" LogLevel.LogError
        ++ [Event.publish (envelope host msgContent)] := by
  unfold write
  simp only [privateKey_decodes]
  rfl

theorem write_filter_publish (host : Host) (msgContent : GoString) :
    (write host msgContent).filter Event.isPublish
      = [Event.publish (envelope host msgContent)] := by
  rw [write_eq_envelope]
  cases (host.Encode (payloadOf host msgContent) 1).isNone <;> rfl

end CncNode

/-- C25: when the node identifier of the controller holds no ':', the text that `write`
encrypts for an input "cmd:" followed by `c`, that is the identifier, ": " and the input,
is split by the agent into the identifier, " cmd" and `c`, and is dispatched as a command
whose content is `c` with surrounding white space removed; the text for an input without
':' has a single ':' and is ignored by the agent as not having three parts. -/
theorem controller_input_reaches_agent_dispatch :
    (∀ (cnc : CncNode.Host) (host : BotNode.Host) (c : GoString), ':' ∉ cnc.ID →
        (CncNode.payloadOf cnc ("cmd:".toList ++ c)).Data
            = cnc.ID ++ ": ".toList ++ ("cmd:".toList ++ c)
          ∧ strings.SplitN (cnc.ID ++ ": ".toList ++ ("cmd:".toList ++ c)) ':' 3
            = [cnc.ID, " cmd".toList, c]
          ∧ BotNode.handleMessage host (cnc.ID ++ ": ".toList ++ ("cmd:".toList ++ c))
            = Event.log LogLevel.LogInfo "Command message detected, processing..."
                :: Event.exec (strings.TrimSpace c) []
                :: BotNode.write host
                    (strings.TrimSpace (host.Run (strings.TrimSpace c) []).stdout))
      ∧ (∀ (cnc : CncNode.Host) (host : BotNode.Host) (input : GoString),
          ':' ∉ cnc.ID → ':' ∉ input →
          (CncNode.payloadOf cnc input).Data = cnc.ID ++ ": ".toList ++ input
            ∧ BotNode.handleMessage host (cnc.ID ++ ": ".toList ++ input) = BotNode.ignored)
      ∧ (∀ (cnc : CncNode.Host) (input : GoString),
          (CncNode.write cnc input).filter Event.isPublish
              = [Event.publish (CncNode.envelope cnc input)]
            ∧ (CncNode.envelope cnc input).Payload
              = (cnc.Encode (CncNode.payloadOf cnc input) 1).getD []) := by
  refine ⟨?_, ?_, fun cnc input => ⟨CncNode.write_filter_publish cnc input, rfl⟩⟩
  · intro cnc host c hid
    have htext : cnc.ID ++ ": ".toList ++ ("cmd:".toList ++ c)
        = cnc.ID ++ ':' :: (" cmd".toList ++ ':' :: c) := by simp
    have hsplit : strings.SplitN (cnc.ID ++ ": ".toList ++ ("cmd:".toList ++ c)) ':' 3
        = [cnc.ID, " cmd".toList, c] := by
      rw [htext]
      exact strings.SplitN_three_append ':' cnc.ID " cmd".toList c hid (by decide)
    refine ⟨rfl, hsplit, ?_⟩
    have ht : strings.TrimSpace " cmd".toList = "cmd".toList := by decide
    rw [BotNode.handleMessage_of_parts host _ _ _ _ hsplit, ht, BotNode.dispatch_cmd]
  · intro cnc host input hid hin
    refine ⟨rfl, ?_⟩
    apply BotNode.handleMessage_of_Count_lt
    have hc : strings.Count (cnc.ID ++ ": ".toList ++ input) ':' = 1 := by
      have h1 : List.count ':' cnc.ID = 0 := List.count_eq_zero_of_not_mem hid
      have h2 : List.count ':' input = 0 := List.count_eq_zero_of_not_mem hin
      simp [strings.Count, h1, h2]
    omega

theorem controller_input_reaches_agent_dispatch_witness :
    ':' ∉ CncNode.asymOnlyHost.ID
      ∧ strings.SplitN (CncNode.asymOnlyHost.ID ++ ": ".toList ++ ("cmd:".toList ++ " date ".toList))
            ':' 3
          = [CncNode.asymOnlyHost.ID, " cmd".toList, " date ".toList]
      ∧ ':' ∉ "date".toList
      ∧ BotNode.handleMessage BotNode.echoHost
            (CncNode.asymOnlyHost.ID ++ ": ".toList ++ "date".toList)
          = BotNode.ignored :=
  ⟨by decide,
    (controller_input_reaches_agent_dispatch.1 CncNode.asymOnlyHost BotNode.echoHost
      " date ".toList (by decide)).2.1,
    by decide,
    (controller_input_reaches_agent_dispatch.2.1 CncNode.asymOnlyHost BotNode.echoHost
      "date".toList (by decide) (by decide)).2⟩

/-! ## The agent: how a sender key is compared -/

namespace BotNode

theorem hexValue_digitChar : ∀ m, m < 16 → (hex.fromHexChar (Nat.digitChar m)).getD 0 = m := by
  decide

theorem hexValue_append_singleton (digits : GoString) (c : Char) :
    hexValue (digits ++ [c]) = hexValue digits * 16 + (hex.fromHexChar c).getD 0 := by
  simp [hexValue, List.foldl_append]

theorem toDigitsCore_append (fuel : Nat) :
    ∀ (n : Nat) (ds : List Char),
      Nat.toDigitsCore 16 fuel n ds = Nat.toDigitsCore 16 fuel n [] ++ ds := by
  induction fuel with
  | zero =>
    intro n ds
    simp [Nat.toDigitsCore]
  | succ fuel ih =>
    intro n ds
    simp only [Nat.toDigitsCore]
    by_cases h0 : n / 16 = 0
    · simp [h0]
    · simp only [h0, if_false]
      rw [ih (n / 16) (Nat.digitChar (n % 16) :: ds), ih (n / 16) [Nat.digitChar (n % 16)]]
      simp

theorem hexValue_toDigitsCore (fuel : Nat) :
    ∀ n, n < fuel → hexValue (Nat.toDigitsCore 16 fuel n []) = n := by
  induction fuel with
  | zero =>
    intro n h
    omega
  | succ fuel ih =>
    intro n h
    simp only [Nat.toDigitsCore]
    have hd := hexValue_digitChar (n % 16) (Nat.mod_lt n (by decide))
    by_cases h0 : n / 16 = 0
    · simp only [h0, if_true]
      have hn : n % 16 = n := Nat.mod_eq_of_lt (by omega)
      have := hexValue_append_singleton [] (Nat.digitChar (n % 16))
      simp only [List.nil_append] at this
      rw [this, hd, hn]
      simp [hexValue]
    · simp only [h0, if_false]
      rw [toDigitsCore_append fuel (n / 16) [Nat.digitChar (n % 16)],
        hexValue_append_singleton, ih (n / 16) (by omega), hd]
      omega

/-- The hexadecimal text of a number denotes that number. -/
theorem hexValue_toDigits (n : Nat) : hexValue (Nat.toDigits 16 n) = n :=
  hexValue_toDigitsCore (n + 1) n (Nat.lt_succ_self n)

/-- A number below `2 ^ 256` has at most 64 hexadecimal digits. -/
theorem length_toDigits_le (n : Nat) (h : n < 2 ^ 256) : (Nat.toDigits 16 n).length ≤ 64 := by
  have h16 : n < 16 ^ 64 := by
    have e : (2 : Nat) ^ 256 = 16 ^ 64 := by norm_num
    rwa [e] at h
  exact Nat.toDigitsCore_length 16 (by decide) (n + 1) n 64 h16 (by decide)

set_option maxRecDepth 100000

theorem publicKey_length : publicKey.length = 128 := by decide

theorem toDigits_controllerKey :
    Nat.toDigits 16 controllerKey.X = publicKey.take 64
      ∧ Nat.toDigits 16 controllerKey.Y = publicKey.drop 64 := by
  decide

/-- C26: for coordinates below `2 ^ 256`, the text `formatKey` builds from a sender key equals
the configured 128-character key exactly when the two coordinates are the configured ones, so
under that bound the textual comparison is a comparison of the keys; without the bound the
comparison is not injective, another pair of numbers formats to the configured text. -/
theorem formatKey_matches_only_configured_key :
    (∀ X Y : Nat, X < 2 ^ 256 → Y < 2 ^ 256 →
        (formatKey ⟨X, Y⟩ = publicKey ↔ X = controllerKey.X ∧ Y = controllerKey.Y))
      ∧ publicKey.length = 128
      ∧ controllerKey.X < 2 ^ 256 ∧ controllerKey.Y < 2 ^ 256
      ∧ ∃ X Y : Nat, (X ≠ controllerKey.X ∨ Y ≠ controllerKey.Y)
          ∧ formatKey ⟨X, Y⟩ = publicKey := by
  refine ⟨?_, publicKey_length, by decide, by decide, ?_⟩
  · intro X Y hX hY
    constructor
    · intro h
      have hlX := length_toDigits_le X hX
      have hlY := length_toDigits_le Y hY
      have hlen : (Nat.toDigits 16 X ++ Nat.toDigits 16 Y).length = 128 := by
        have := congrArg List.length h
        simpa [formatKey, publicKey_length] using this
      rw [List.length_append] at hlen
      have hsplit : Nat.toDigits 16 X ++ Nat.toDigits 16 Y
          = publicKey.take 64 ++ publicKey.drop 64 := by
        rw [List.take_append_drop]
        exact h
      have hl : (Nat.toDigits 16 X).length = (publicKey.take 64).length := by
        rw [List.length_take, publicKey_length]
        omega
      obtain ⟨h1, h2⟩ := List.append_inj hsplit hl
      rw [← toDigits_controllerKey.1] at h1
      rw [← toDigits_controllerKey.2] at h2
      have e1 := congrArg hexValue h1
      have e2 := congrArg hexValue h2
      rw [hexValue_toDigits, hexValue_toDigits] at e1 e2
      exact ⟨e1, e2⟩
    · rintro ⟨h1, h2⟩
      subst h1
      subst h2
      decide
  · refine ⟨hexValue (publicKey.take 65), hexValue (publicKey.drop 65), ?_, ?_⟩
    · left
      decide
    · decide

theorem formatKey_matches_only_configured_key_witness :
    (formatKey ⟨controllerKey.X, controllerKey.Y⟩ = publicKey
        ↔ controllerKey.X = controllerKey.X ∧ controllerKey.Y = controllerKey.Y) :=
  formatKey_matches_only_configured_key.1 controllerKey.X controllerKey.Y
    (by decide) (by decide)

end BotNode

/-! ## The agent: the key bytes of `write` -/

namespace BotNode

/-- Decoding a text that starts with `04` yields the byte 4 followed by what the rest of the
text decodes to. -/
theorem DecodeString_04 (s : GoString) :
    hex.DecodeString ("04".toList ++ s)
      = (0x04 :: (hex.DecodeString s).1, (hex.DecodeString s).2) := by
  show hex.DecodeString ('0' :: '4' :: s) = _
  simp [hex.DecodeString, hex.fromHexChar]

theorem writeWith_cases (key : GoString) (host : Host) (msgContent : GoString) :
    writeWith key host msgContent
        = [Event.log LogLevel.LogFatal "Failed to decode hex string"]
      ∨ writeWith key host msgContent
        = [Event.log LogLevel.LogFatal "Failed to unmarshal public key"]
      ∨ writeWith key host msgContent
        = [Event.log LogLevel.LogFatal "Failed to encode payload"]
      ∨ ∃ msg, writeWith key host msgContent = [Event.publish msg] := by
  simp only [writeWith, DecodeString_04]
  cases hd : (hex.DecodeString key).2 with
  | some e => left; simp [checkError]
  | none =>
    simp only [List.head?_cons]
    cases hu : host.UnmarshalPubkey (0x04 :: (hex.DecodeString key).1) with
    | none => right; left; simp [checkError]
    | some pubKey =>
      right; right
      simp only [ne_eq, not_true_eq_false, if_false]
      cases he : host.Encode
          { Data := host.ID ++ ": ".toList ++ msgContent
            Key := { Kind := KeyKind.Asymmetric, SymKey := [], PubKey := some pubKey } } 1 with
      | none => left; simp [checkError]
      | some enc => right; exact ⟨_, rfl⟩

/-- C30: in the agent's `write`, decoding `"04" + publicKey` succeeds and yields 65 bytes
whose first byte is 0x04; for every text `s`, a successful decoding of `"04" + s` is
non-empty and starts with the byte 0x04, so reading byte 0 cannot fail and the branch
"Public key must be uncompressed" is taken for no value of the key text. -/
theorem write_key_bytes_start_with_04 :
    (hex.DecodeString ("04".toList ++ publicKey)).2 = none
      ∧ pubKeyBytes.length = 65
      ∧ pubKeyBytes.head? = some 0x04
      ∧ (∀ s : GoString, (hex.DecodeString ("04".toList ++ s)).2 = none →
          (hex.DecodeString ("04".toList ++ s)).1 ≠ []
            ∧ (hex.DecodeString ("04".toList ++ s)).1.head? = some 0x04)
      ∧ (∀ (key : GoString) (host : Host) (msgContent : GoString),
          Event.log LogLevel.LogFatal "panic: index out of range"
              ∉ writeWith key host msgContent
            ∧ Event.log LogLevel.LogFatal
                "Public key must be uncompressed, invalid key format detected."
              ∉ writeWith key host msgContent)
      ∧ (∀ (host : Host) (msgContent : GoString),
          write host msgContent = writeWith publicKey host msgContent) := by
  refine ⟨by decide, by decide, by decide, ?_, ?_, fun _ _ => rfl⟩
  · intro s _
    rw [DecodeString_04]
    simp
  · intro key host msgContent
    rcases writeWith_cases key host msgContent with h | h | h | ⟨msg, h⟩ <;>
      rw [h] <;> simp

theorem write_key_bytes_start_with_04_witness :
    (hex.DecodeString ("04".toList ++ publicKey)).1 ≠ []
      ∧ (hex.DecodeString ("04".toList ++ publicKey)).1.head? = some 0x04 :=
  write_key_bytes_start_with_04.2.2.2.1 publicKey (by decide)

end BotNode

/-! ## The controller: one candidate, no fallback -/

namespace CncNode

theorem main_of_started (env : Startup) (bootstrapAddress : GoString)
    (haddr : bootstrapAddress ≠ []) (h1 : env.resolveFails = false)
    (h2 : env.randomFails = false) (h3 : env.keyInvalid = false) (h4 : env.newFails = false)
    (h5 : env.startFails = false) :
    main env bootstrapAddress = subscribeToNode env.attempt bootstrapAddress := by
  simp [main, haddr, h1, h2, h3, h4, h5]

theorem subscribeToNode_facts (a : BotNode.Attempt) (bootstrapAddress : GoString) :
    (subscribeToNode a bootstrapAddress).trace.any Event.isRegistry = false
      ∧ BotNode.attempted (subscribeToNode a bootstrapAddress).trace = [bootstrapAddress]
      ∧ (subscribeToNode a bootstrapAddress).value.isSome = a.connects
      ∧ (subscribeToNode a bootstrapAddress).trace.any Event.isFatal = !a.connects
      ∧ (a.connects = true → (subscribeToNode a bootstrapAddress).value = a.subscribed) := by
  obtain ⟨p, ad, sub⟩ := a
  cases p <;> cases ad <;> cases sub <;>
    simp [subscribeToNode, BotNode.Attempt.connects, BotNode.attempted, Event.isRegistry,
      Event.isFatal, Event.candidate?]

/-- C27: the controller has no fallback among candidates.  With an empty bootstrap address
its start is one fatal error; no run of the start looks the registry up, and no run tries a
candidate other than the given address.  With a non-empty address and a started node, exactly
that one address is tried, and the process goes on with a subscription exactly when the
address parses, the peer is added and the subscription is obtained; any failure of the three
steps is fatal. -/
theorem controller_has_no_candidate_fallback (env : Startup) (bootstrapAddress : GoString) :
    main env [] = ⟨[Event.log LogLevel.LogFatal
        "Bootstrap address must be provided. Usage: ./botNode -botAddress=[optional] -bootstrapAddress=[required]"],
        none⟩
      ∧ (main env bootstrapAddress).trace.any Event.isRegistry = false
      ∧ (BotNode.attempted (main env bootstrapAddress).trace = []
          ∨ BotNode.attempted (main env bootstrapAddress).trace = [bootstrapAddress])
      ∧ (bootstrapAddress ≠ [] → env.resolveFails = false → env.randomFails = false →
          env.keyInvalid = false → env.newFails = false → env.startFails = false →
          BotNode.attempted (main env bootstrapAddress).trace = [bootstrapAddress]
            ∧ (main env bootstrapAddress).value.isSome = env.attempt.connects
            ∧ (main env bootstrapAddress).trace.any Event.isFatal = !env.attempt.connects
            ∧ (env.attempt.connects = true →
                (main env bootstrapAddress).value = env.attempt.subscribed)) := by
  have hs := subscribeToNode_facts env.attempt bootstrapAddress
  refine ⟨rfl, ?_, ?_, ?_⟩
  · unfold main
    split_ifs <;>
      first
        | exact hs.1
        | simp [checkError, Event.isRegistry]
  · unfold main
    split_ifs <;>
      first
        | exact Or.inr hs.2.1
        | (left; simp [checkError, BotNode.attempted, Event.candidate?])
  · intro haddr h1 h2 h3 h4 h5
    rw [main_of_started env bootstrapAddress haddr h1 h2 h3 h4 h5]
    exact hs.2

theorem controller_has_no_candidate_fallback_witness :
    BotNode.attempted (main ⟨false, false, false, false, false, ⟨true, true, none⟩⟩
        "/ip4/127.0.0.1/tcp/60000".toList).trace = ["/ip4/127.0.0.1/tcp/60000".toList]
      ∧ (main ⟨false, false, false, false, false, ⟨true, true, none⟩⟩
          "/ip4/127.0.0.1/tcp/60000".toList).value.isSome = false
      ∧ (main ⟨false, false, false, false, false, ⟨true, true, none⟩⟩
          "/ip4/127.0.0.1/tcp/60000".toList).trace.any Event.isFatal = true := by
  have h := (controller_has_no_candidate_fallback
    ⟨false, false, false, false, false, ⟨true, true, none⟩⟩
    "/ip4/127.0.0.1/tcp/60000".toList).2.2.2 (by decide) rfl rfl rfl rfl rfl
  exact ⟨h.1, h.2.1, h.2.2.1⟩

end CncNode

/-! ## The controller: the write loop -/

namespace CncNode

open strings

theorem linesBeforeExit_none (rest : List (Option GoString)) :
    linesBeforeExit (none :: rest) = linesBeforeExit rest := by
  simp [linesBeforeExit]

theorem linesBeforeExit_exit (input : GoString) (rest : List (Option GoString))
    (h : TrimSpace input = "exit".toList) : linesBeforeExit (some input :: rest) = [] := by
  simp only [linesBeforeExit, List.filterMap_cons_some (rfl : id (some input) = some input),
    List.map_cons, List.takeWhile_cons, h]
  simp

theorem linesBeforeExit_line (input : GoString) (rest : List (Option GoString))
    (h : TrimSpace input ≠ "exit".toList) :
    linesBeforeExit (some input :: rest) = TrimSpace input :: linesBeforeExit rest := by
  simp only [linesBeforeExit, List.filterMap_cons_some (rfl : id (some input) = some input),
    List.map_cons, List.takeWhile_cons]
  have h2 : ¬ TrimSpace input = ['e', 'x', 'i', 't'] := h
  simp [h2]

theorem writeLoopFrom_filter_publish (host : Host) (reads : List (Option GoString)) :
    (writeLoopFrom host reads).filter Event.isPublish
      = (linesBeforeExit reads).map (fun l => Event.publish (envelope host l)) := by
  induction reads with
  | nil => simp [writeLoopFrom, linesBeforeExit]
  | cons r rest ih =>
    cases r with
    | none =>
      rw [linesBeforeExit_none, ← ih]
      simp [writeLoopFrom, Event.isPublish]
    | some input =>
      by_cases h : TrimSpace input = "exit".toList
      · rw [linesBeforeExit_exit input rest h]
        simp only [writeLoopFrom, h, if_true]
        simp [Event.isPublish]
      · rw [linesBeforeExit_line input rest h]
        simp only [writeLoopFrom, if_neg h, List.map_cons, ← ih]
        rw [List.filter_append, List.filter_cons, write_filter_publish]
        simp [Event.isPublish]

/-- C28: the write loop of the controller publishes one message per line that it sends, in
the order of reading: the lines read without error, white space around them removed, before
the first one that is "exit".  The plaintext of each message is the node identifier, ": "
and the trimmed line.  The line "exit" ends the loop, so it and every later read publish
nothing; a failed read only logs an error and the loop goes on with the next read. -/
theorem writeLoop_publishes_lines_before_exit (host : Host)
    (reads : List (Option GoString)) :
    (writeLoop host reads).filter Event.isPublish
        = (linesBeforeExit reads).map (fun l => Event.publish (envelope host l))
      ∧ (∀ l : GoString,
          (envelope host l).Payload = (host.Encode (payloadOf host l) 1).getD []
            ∧ (payloadOf host l).Data = host.ID ++ ": ".toList ++ l)
      ∧ (∀ rest : List (Option GoString),
          writeLoopFrom host (none :: rest)
            = [Event.print "Message: ".toList,
                Event.log LogLevel.LogError "Failed to read from stdin: "]
              ++ writeLoopFrom host rest)
      ∧ (∀ (input : GoString) (rest : List (Option GoString)),
          TrimSpace input = "exit".toList →
            writeLoopFrom host (some input :: rest)
              = [Event.print "Message: ".toList, Event.print "Exiting write loop...".toList])
      ∧ (∀ (input : GoString) (rest : List (Option GoString)),
          TrimSpace input ≠ "exit".toList →
            writeLoopFrom host (some input :: rest)
              = Event.print "Message: ".toList :: write host (TrimSpace input)
                ++ writeLoopFrom host rest) := by
  refine ⟨?_, fun l => ⟨rfl, rfl⟩, fun rest => rfl, ?_, ?_⟩
  · rw [← writeLoopFrom_filter_publish]
    simp [writeLoop, Event.isPublish]
  · intro input rest h
    simp only [writeLoopFrom, h, if_true]
  · intro input rest h
    simp only [writeLoopFrom, if_neg h]

theorem writeLoop_publishes_lines_before_exit_witness :
    writeLoopFrom asymOnlyHost [some " exit\n".toList, some "cmd:ls\n".toList]
      = [Event.print "Message: ".toList, Event.print "Exiting write loop...".toList] :=
  (writeLoop_publishes_lines_before_exit asymOnlyHost []).2.2.2.1 " exit\n".toList
    [some "cmd:ls\n".toList] (by decide)

end CncNode

/-! ## The bootstrap node: the read loop -/

namespace BootstrapNode

theorem readFrom_cons_ok (lib : Lib) (value : Option WakuMessage)
    (rest : List (Option WakuMessage)) (d : DecodedPayload)
    (h : lib.DecodePayload value noneInfo = Except.ok d) :
    readFrom lib (value :: rest)
      = ⟨Event.decode noneInfo :: (readFrom lib rest).trace, (readFrom lib rest).unread⟩ := by
  simp only [readFrom, h]

theorem readFrom_cons_error (lib : Lib) (value : Option WakuMessage)
    (rest : List (Option WakuMessage)) (err : GoString)
    (h : lib.DecodePayload value noneInfo = Except.error err) :
    readFrom lib (value :: rest) = ⟨[Event.decode noneInfo, Event.print err], rest⟩ := by
  simp only [readFrom, h]

theorem readFrom_prefix (lib : Lib) (pre tail : List (Option WakuMessage))
    (hpre : ∀ v ∈ pre, ∃ d, lib.DecodePayload v noneInfo = Except.ok d) :
    readFrom lib (pre ++ tail)
      = ⟨List.replicate pre.length (Event.decode noneInfo) ++ (readFrom lib tail).trace,
          (readFrom lib tail).unread⟩ := by
  induction pre with
  | nil => simp
  | cons v vs ih =>
    obtain ⟨d, hd⟩ := hpre v (List.mem_cons_self v vs)
    have hvs : ∀ w ∈ vs, ∃ d, lib.DecodePayload w noneInfo = Except.ok d :=
      fun w hw => hpre w (List.mem_cons_of_mem v hw)
    rw [List.cons_append, readFrom_cons_ok lib v (vs ++ tail) d hd, ih hvs]
    simp [List.replicate_succ]

/-- C29: the read loop of the bootstrap node stops at the first value whose decoding fails.
When the subscription is obtained and the channel delivers values that decode, then one that
does not, then any further values, the loop decodes each value up to and including the
failing one, prints the error and returns, and the further values are left unread.  When
every delivered value decodes, all of them are consumed. -/
theorem readLoop_stops_at_first_decode_failure (lib : Lib)
    (hsub : lib.subscribeFails = false) :
    (∀ (pre : List (Option WakuMessage)) (bad : Option WakuMessage)
        (rest : List (Option WakuMessage)) (err : GoString),
        (∀ v ∈ pre, ∃ d, lib.DecodePayload v noneInfo = Except.ok d) →
        lib.DecodePayload bad noneInfo = Except.error err →
        readLoop lib (pre ++ bad :: rest)
          = ⟨List.replicate pre.length (Event.decode noneInfo)
              ++ [Event.decode noneInfo, Event.print err], rest⟩)
      ∧ (∀ values : List (Option WakuMessage),
          (∀ v ∈ values, ∃ d, lib.DecodePayload v noneInfo = Except.ok d) →
          readLoop lib values
            = ⟨List.replicate values.length (Event.decode noneInfo), []⟩) := by
  constructor
  · intro pre bad rest err hpre hbad
    simp only [readLoop, hsub]
    rw [if_neg (by decide), readFrom_prefix lib pre (bad :: rest) hpre,
      readFrom_cons_error lib bad rest err hbad]
  · intro values hall
    simp only [readLoop, hsub]
    rw [if_neg (by decide)]
    have h := readFrom_prefix lib values [] hall
    simpa [readFrom] using h

theorem readLoop_stops_at_first_decode_failure_witness :
    readLoop versionLib
        ([some (WakuMessage.mk [104, 105] 1 BotNode.contentTopic 0 []), none]
          ++ some (WakuMessage.mk [104, 105] 2 BotNode.contentTopic 0 [])
            :: [some (WakuMessage.mk [111] 1 BotNode.contentTopic 0 [])])
      = ⟨List.replicate 2 (Event.decode noneInfo)
          ++ [Event.decode noneInfo, Event.print "unsupported wakumessage version".toList],
          [some (WakuMessage.mk [111] 1 BotNode.contentTopic 0 [])]⟩ :=
  (readLoop_stops_at_first_decode_failure versionLib rfl).1
    [some (WakuMessage.mk [104, 105] 1 BotNode.contentTopic 0 []), none]
    (some (WakuMessage.mk [104, 105] 2 BotNode.contentTopic 0 []))
    [some (WakuMessage.mk [111] 1 BotNode.contentTopic 0 [])]
    "unsupported wakumessage version".toList
    (by
      intro v hv
      simp only [List.mem_cons, List.mem_singleton, List.not_mem_nil, or_false] at hv
      rcases hv with rfl | rfl
      · exact ⟨_, rfl⟩
      · exact ⟨_, rfl⟩)
    rfl

end BootstrapNode

/-! ## Version and content topic of the envelopes -/

theorem CncNode_publish_of_write (host : CncNode.Host) (msgContent : GoString)
    (msg : WakuMessage) (h : Event.publish msg ∈ CncNode.write host msgContent) :
    msg = CncNode.envelope host msgContent := by
  have hf : Event.publish msg ∈ (CncNode.write host msgContent).filter Event.isPublish :=
    List.mem_filter.mpr ⟨h, rfl⟩
  rw [CncNode.write_filter_publish] at hf
  simpa using hf

theorem CncNode_subscribe_filter (a : BotNode.Attempt) (bootstrapAddress : GoString)
    (f : ContentFilter)
    (h : Event.subscribe f ∈ (CncNode.subscribeToNode a bootstrapAddress).trace) :
    f = CncNode.cf := by
  obtain ⟨p, ad, sub⟩ := a
  cases p <;> cases ad <;> cases sub <;> simp [CncNode.subscribeToNode] at h <;> exact h

/-- C21: every message that `write` publishes, in the agent and in the controller, has
version 1 in its version field, is built from the result of the encoding call made with
version 1, and carries the content-topic constant of its program; the two constants are the
same text, and every subscription that either program makes is on exactly that content
topic. -/
theorem write_envelopes_carry_version_and_topic :
    (∀ (host : BotNode.Host) (msgContent : GoString) (msg : WakuMessage),
        Event.publish msg ∈ BotNode.write host msgContent →
          msg.Version = 1 ∧ msg.ContentTopic = BotNode.contentTopic
            ∧ ∃ pubKey, host.Encode (BotNode.resultPayload host pubKey msgContent) 1
                = some msg.Payload)
      ∧ (∀ (host : CncNode.Host) (msgContent : GoString) (msg : WakuMessage),
          Event.publish msg ∈ CncNode.write host msgContent →
            msg.Version = 1 ∧ msg.ContentTopic = CncNode.contentTopic
              ∧ msg.Payload = (host.Encode (CncNode.payloadOf host msgContent) 1).getD [])
      ∧ CncNode.contentTopic = BotNode.contentTopic
      ∧ (∀ (net : BotNode.Transport) (bootstrapAddresses : List GoString)
          (f : ContentFilter),
          Event.subscribe f ∈ (BotNode.subscribeToNode net bootstrapAddresses).trace →
            f.ContentTopics = [BotNode.contentTopic])
      ∧ (∀ (a : BotNode.Attempt) (bootstrapAddress : GoString) (f : ContentFilter),
          Event.subscribe f ∈ (CncNode.subscribeToNode a bootstrapAddress).trace →
            f.ContentTopics = [CncNode.contentTopic]) := by
  refine ⟨?_, ?_, rfl, ?_, ?_⟩
  · intro host msgContent msg h
    obtain ⟨pubKey, encodedPayload, -, he, hm⟩ :=
      BotNode_publish_of_write host msgContent msg h
    subst hm
    exact ⟨rfl, rfl, pubKey, he⟩
  · intro host msgContent msg h
    rw [CncNode_publish_of_write host msgContent msg h]
    exact ⟨rfl, rfl, rfl⟩
  · intro net bootstrapAddresses f h
    rw [BotNode.mem_subscribeFrom_subscribe net bootstrapAddresses 0 f h]
    rfl
  · intro a bootstrapAddress f h
    rw [CncNode_subscribe_filter a bootstrapAddress f h]
    rfl

theorem write_envelopes_carry_version_and_topic_witness :
    (CncNode.envelope CncNode.asymOnlyHost "cmd:ls".toList).Version = 1
      ∧ (CncNode.envelope CncNode.asymOnlyHost "cmd:ls".toList).ContentTopic
          = CncNode.contentTopic
      ∧ (CncNode.envelope CncNode.asymOnlyHost "cmd:ls".toList).Payload
          = (CncNode.asymOnlyHost.Encode
              (CncNode.payloadOf CncNode.asymOnlyHost "cmd:ls".toList) 1).getD [] :=
  write_envelopes_carry_version_and_topic.2.1 CncNode.asymOnlyHost "cmd:ls".toList
    (CncNode.envelope CncNode.asymOnlyHost "cmd:ls".toList)
    (by rw [CncNode.write_eq_envelope]; simp)

/-! ## The agent: the scenario "echo hi" on every host -/

namespace BotNode

open strings

theorem handleMessage_echo_hi (host : Host) :
    handleMessage host "node-42: cmd: echo hi".toList
      = Event.log LogLevel.LogInfo "Command message detected, processing..."
          :: Event.exec "echo hi".toList []
          :: write host (TrimSpace (host.Run "echo hi".toList []).stdout) := by
  have hsplit : SplitN "node-42: cmd: echo hi".toList ':' 3
      = ["node-42".toList, " cmd".toList, " echo hi".toList] := by decide
  have h1 : TrimSpace " cmd".toList = "cmd".toList := by decide
  have h2 : TrimSpace " echo hi".toList = "echo hi".toList := by decide
  rw [handleMessage_of_parts host _ _ _ _ hsplit, h1, h2, dispatch_cmd]

theorem write_of_canEncode (host : Host) (msgContent : GoString)
    (h : host.canEncode msgContent = true) :
    ∃ pubKey encodedPayload, host.UnmarshalPubkey pubKeyBytes = some pubKey
      ∧ host.Encode (resultPayload host pubKey msgContent) 1 = some encodedPayload
      ∧ write host msgContent
        = [Event.publish (WakuMessage.mk encodedPayload 1 contentTopic host.Timestamp [])] := by
  rcases write_cases host msgContent with ⟨hc, -⟩ | ⟨-, msg, hw⟩
  · rw [h] at hc
    exact absurd hc (by decide)
  · obtain ⟨pubKey, encodedPayload, hk, he, hm⟩ :=
      BotNode_publish_of_write host msgContent msg (by rw [hw]; simp)
    exact ⟨pubKey, encodedPayload, hk, he, by rw [hw, hm]⟩

/-- C8, amended: on every host the text "node-42: cmd: echo hi" starts exactly one child
process, whose program name is the whole payload "echo hi" with no arguments.  When the key
and encoding steps of `write` succeed, exactly one result message is published, and it is
the encryption of the agent's identifier, ": " and the trimmed standard output of that child
process, which is empty when the captured output is empty.  When one of those steps fails,
no result message is published and the process ends. -/
theorem echo_hi_end_to_end (host : Host) :
    handleMessage host "node-42: cmd: echo hi".toList
        = Event.log LogLevel.LogInfo "Command message detected, processing..."
            :: Event.exec "echo hi".toList []
            :: write host (TrimSpace (host.Run "echo hi".toList []).stdout)
      ∧ (handleMessage host "node-42: cmd: echo hi".toList).filter Event.isExec
          = [Event.exec "echo hi".toList []]
      ∧ (host.canEncode (TrimSpace (host.Run "echo hi".toList []).stdout) = true →
          ∃ pubKey encodedPayload,
            host.UnmarshalPubkey pubKeyBytes = some pubKey
              ∧ host.Encode
                  { Data := host.ID ++ ": ".toList
                      ++ TrimSpace (host.Run "echo hi".toList []).stdout
                    Key := { Kind := KeyKind.Asymmetric, SymKey := [],
                             PubKey := some pubKey } }
                  1 = some encodedPayload
              ∧ (handleMessage host "node-42: cmd: echo hi".toList).filter Event.isPublish
                = [Event.publish
                    (WakuMessage.mk encodedPayload 1 contentTopic host.Timestamp [])])
      ∧ (host.canEncode (TrimSpace (host.Run "echo hi".toList []).stdout) = false →
          (handleMessage host "node-42: cmd: echo hi".toList).filter Event.isPublish = []
            ∧ (handleMessage host "node-42: cmd: echo hi".toList).any Event.isFatal = true)
      ∧ ((host.Run "echo hi".toList []).stdout = [] →
          TrimSpace (host.Run "echo hi".toList []).stdout = []) := by
  have heq := handleMessage_echo_hi host
  refine ⟨heq, ?_, ?_, ?_, ?_⟩
  · rw [heq]
    rcases write_cases host (TrimSpace (host.Run "echo hi".toList []).stdout) with
      ⟨-, text, hw⟩ | ⟨-, msg, hw⟩ <;> rw [hw] <;> rfl
  · intro hcan
    obtain ⟨pubKey, encodedPayload, hk, he, hw⟩ := write_of_canEncode host _ hcan
    refine ⟨pubKey, encodedPayload, hk, he, ?_⟩
    rw [heq, hw]
    rfl
  · intro hcan
    rcases write_cases host (TrimSpace (host.Run "echo hi".toList []).stdout) with
      ⟨-, text, hw⟩ | ⟨hc, -⟩
    · rw [heq, hw]
      exact ⟨rfl, rfl⟩
    · rw [hcan] at hc
      exact absurd hc (by decide)
  · intro hout
    rw [hout]
    rfl

theorem echo_hi_end_to_end_witness :
    echoHost.canEncode (TrimSpace (echoHost.Run "echo hi".toList []).stdout) = true
      ∧ (echoHost.Run "echo hi".toList []).stdout = []
      ∧ (∃ pubKey encodedPayload,
          echoHost.UnmarshalPubkey pubKeyBytes = some pubKey
            ∧ echoHost.Encode
                { Data := echoHost.ID ++ ": ".toList
                    ++ TrimSpace (echoHost.Run "echo hi".toList []).stdout
                  Key := { Kind := KeyKind.Asymmetric, SymKey := [],
                           PubKey := some pubKey } }
                1 = some encodedPayload
            ∧ (handleMessage echoHost "node-42: cmd: echo hi".toList).filter Event.isPublish
              = [Event.publish
                  (WakuMessage.mk encodedPayload 1 contentTopic echoHost.Timestamp [])])
      ∧ TrimSpace (echoHost.Run "echo hi".toList []).stdout = [] :=
  ⟨echoHost_canEncode _, rfl,
    (echo_hi_end_to_end echoHost).2.2.1 (echoHost_canEncode _),
    (echo_hi_end_to_end echoHost).2.2.2.2 rfl⟩

end BotNode

end MarieAntoiNET
